import Mathlib

/-!
# rtdl ingester: routing, schema inference, path planning, writers and dispatcher

A shallow embedding of `ingester/ingester.go` (the stateful function that
writes ingress messages to the data lake) together with theorems about the
router (`writeParquet`), the schema inference (`generateSchema`,
`getParquetDataType`), the path planner (`generateSubFolderName`,
`generateLeafLevelFileName`), the configuration cache (`LoadConfig`), the
catalog reconciliation (`UpdateDremio`), the S3 writer (`WriteAWSParquet`)
and the dispatcher (`Ingest`).

Conventions of the embedding

* Go strings are Lean strings; `strings.TrimRight`, `strings.HasPrefix`,
  `strconv.Itoa` and the `string(int)` conversion are given as functions on
  the character lists.
* A `map[string]interface{}` is the list of its key/value pairs in the order
  in which a `range` over the map yields them; keys of a Go map are distinct.
* The package-level variables `configs`, `fileStoreTypes`, `partitionTimes`
  and `compressionTypes` are passed explicitly (`Globals`).
* `time.Now()` is an explicit argument of type `Instant`.
* A run-time panic is the result `none` (or `Outcome.panic`, `Ret.panic`).
* The answers of the database, the file system, the object stores and Dremio
  are inputs (`World`); what a function does to them is the list of its
  `Effect`s, in execution order.
-/

namespace Rtdl

/-! ## Go library functions used by the source -/

/-- Go `strings.TrimRight(s, cutset)`: remove every trailing character that
occurs in `cutset`. -/
def TrimRight (s cutset : String) : String :=
  ⟨(s.data.reverse.dropWhile (fun c => cutset.data.contains c)).reverse⟩

/-- Go `strings.HasPrefix(s, prefix)`. -/
def HasPrefix (s pre : String) : Bool :=
  pre.data.isPrefixOf s.data

/-- Go `strconv.Itoa`. -/
def Itoa (n : Int) : String :=
  if n < 0 then "-" ++ Nat.repr n.natAbs else Nat.repr n.toNat

/-- Go conversion `string(i)` of an integer: the UTF-8 text of the code point
`i`, and U+FFFD when `i` is not a valid code point. -/
def stringOfInt (i : Int) : String :=
  if 0 ≤ i ∧ i.toNat.isValidChar then String.singleton (Char.ofNat i.toNat)
  else "�"

/-- Decimal rendering padded with zeros on the left to at least `width`
digits, as produced by the numeric fields of a `time.Format` layout. -/
def zeroPad (width n : Nat) : String :=
  let s := Nat.repr n
  ⟨List.replicate (width - s.length) '0'⟩ ++ s

/-! ## Data model -/

/-- Go `sql.NullString`. -/
structure NullString where
  Str : String
  Valid : Bool
deriving DecidableEq

/-- Go `sql.NullInt64`. -/
structure NullInt64 where
  Int64 : Int
  Valid : Bool
deriving DecidableEq

/-- Go `sql.NullBool`. -/
structure NullBool where
  Valid : Bool
  Bool : Bool
deriving DecidableEq

/-- What the accessors of a `time.Time` return: `Year()`, `Month()`, `Day()`,
`Hour()`, `Minute()`, `Second()`, `Nanosecond()` and the pair `ISOWeek()`. -/
structure Instant where
  Year : Nat
  Month : Nat
  Day : Nat
  Hour : Nat
  Minute : Nat
  Second : Nat
  Nanosecond : Nat
  ISOYear : Nat
  ISOWeek : Nat
deriving DecidableEq

/-- The ranges of the accessors of a `time.Time`. -/
def Instant.Valid (t : Instant) : Prop :=
  1 ≤ t.Month ∧ t.Month ≤ 12 ∧ 1 ≤ t.Day ∧ t.Day ≤ 31 ∧ t.Hour ≤ 23 ∧
    t.Minute ≤ 59 ∧ t.Second ≤ 59 ∧ t.Nanosecond ≤ 999999999

instance (t : Instant) : Decidable t.Valid := by
  unfold Instant.Valid; infer_instance

/-- The zero `time.Time`: January 1, year 1, 00:00:00 UTC. -/
def Instant.zero : Instant :=
  { Year := 1, Month := 1, Day := 1, Hour := 0, Minute := 0, Second := 0,
    Nanosecond := 0, ISOYear := 1, ISOWeek := 1 }

/-- The struct `Config`: one row of the table `streams`. -/
structure Config where
  StreamId : NullString
  StreamAltId : NullString
  Active : NullBool
  MessageType : NullString
  FileStoreTypeId : NullInt64
  Region : NullString
  BucketName : NullString
  FolderName : NullString
  PartitionTimeId : NullInt64
  CompressionTypeId : NullInt64
  AWSAcessKeyID : NullString
  AWSSecretAcessKey : NullString
  GCPJsonCredentials : NullString
  CreatedAt : Instant
  UpdatedAt : Instant
deriving DecidableEq

/-- The zero value of `Config`, the value of `var matchingConfig Config`. -/
def Config.zero : Config :=
  { StreamId := ⟨"", false⟩, StreamAltId := ⟨"", false⟩, Active := { Bool := false, Valid := false },
    MessageType := ⟨"", false⟩, FileStoreTypeId := ⟨0, false⟩, Region := ⟨"", false⟩,
    BucketName := ⟨"", false⟩, FolderName := ⟨"", false⟩, PartitionTimeId := ⟨0, false⟩,
    CompressionTypeId := ⟨0, false⟩, AWSAcessKeyID := ⟨"", false⟩,
    AWSSecretAcessKey := ⟨"", false⟩, GCPJsonCredentials := ⟨"", false⟩,
    CreatedAt := Instant.zero, UpdatedAt := Instant.zero }

/-- The struct `FileStoreType`. -/
structure FileStoreType where
  FileStoreTypeId : Int
  FileStoreTypeName : String
deriving DecidableEq

/-- The struct `PartitionTime`. -/
structure PartitionTime where
  PartitionTimeId : Int
  PartitionTimeName : String
deriving DecidableEq

/-- The struct `CompressionType`. -/
structure CompressionType where
  CompressionTypeId : Int
  CompressionTypeName : String
deriving DecidableEq

/-- The package-level variables holding the configuration snapshot. -/
structure Globals where
  configs : List Config
  fileStoreTypes : List FileStoreType
  partitionTimes : List PartitionTime
  compressionTypes : List CompressionType

/-- A dynamic value held in an `interface{}` of the payload: `nil`, a scalar
of one of the Go kinds the type mapper knows or of kind `bool`, a
`[]interface{}` or a `map[string]interface{}` (pairs in iteration order).
Floating-point scalars carry their IEEE-754 bit pattern. -/
inductive Value where
  | null
  | bool (b : Bool)
  | str (s : String)
  | int32 (n : Int)
  | int64 (n : Int)
  | float32 (bits : Nat)
  | float64 (bits : Nat)
  | arr (elems : List Value)
  | obj (fields : List (String × Value))

/-- The struct `IncomingMessage`. -/
structure IncomingMessage where
  StreamId : String
  StreamAltId : String
  MessageType : String
  Payload : List (String × Value)

/-- Go `reflect.TypeOf(v).String()`; `reflect.TypeOf(nil)` is the nil `Type`,
on which the method call panics. -/
def typeString : Value → Option String
  | .null => none
  | .bool _ => some "bool"
  | .str _ => some "string"
  | .int32 _ => some "int32"
  | .int64 _ => some "int64"
  | .float32 _ => some "float32"
  | .float64 _ => some "float64"
  | .arr _ => some "[]interface {}"
  | .obj _ => some "map[string]interface {}"

/-! ## TypeMapper and schema inference -/

/-- The function `getParquetDataType`. -/
def getParquetDataType (dataType : String) : String :=
  if dataType = "string" then "BYTE_ARRAY"
  else if dataType = "int32" then "INT32"
  else if dataType = "int64" then "INT64"
  else if dataType = "int96" then "INT96"
  else if dataType = "float32" then "FLOAT"
  else if dataType = "float64" then "DOUBLE"
  else ""

/-- The text with which `generateSchema` starts when it is handed the empty
schema text. -/
def schemaHeader (messageType : String) : String :=
  "\x7b\"Tag\": \"name=" ++ messageType ++ ", repetitiontype=REQUIRED\"," ++ "\"Fields\": ["

/-- The first statement of `generateSchema`: an empty `jsonSchema` is replaced
by the header. -/
def enterSchema (messageType jsonSchema : String) : String :=
  if jsonSchema = "" then schemaHeader messageType else jsonSchema

mutual
/-- One iteration of the `for key, value := range payload` loop of
`generateSchema`, run on the schema text built so far; `none` when it panics.
A recursive call of `generateSchema` is the loop on the nested mapping started
from `enterSchema` of the text. -/
def generateSchemaStep : String → Value → String → String → Option String
  | key, value, messageType, jsonSchema =>
    match value with
    | .null => some jsonSchema
    | value =>
      match typeString value with
      | none => none
      | some dataType =>
        if HasPrefix dataType "map[string]interface" then
          match value with
          | .obj m =>
            if m.length = 0 then some jsonSchema
            else
              let jsonSchema := jsonSchema ++ "\x7b\"Tag\": \"name=" ++ key
              let jsonSchema := jsonSchema ++ ", repetitiontype=REQUIRED\", \"Fields\" : ["
              match generateSchemaLoop m messageType (enterSchema messageType jsonSchema) with
              | none => none
              | some jsonSchema =>
                let jsonSchema := TrimRight jsonSchema ","
                some (jsonSchema ++ "]\x7d,")
          | _ => none
        else if HasPrefix dataType "[]interface" then
          match value with
          | .arr [] => some jsonSchema
          | .arr (first :: _) =>
            let jsonSchema := jsonSchema ++ "\x7b\"Tag\": \"name=" ++ key
            let jsonSchema := jsonSchema ++ ", type=LIST, repetitiontype=REQUIRED\", \"Fields\" : ["
            match typeString first with
            | none => none
            | some arrayItemDataType =>
              if HasPrefix arrayItemDataType "map[string]interface" then
                match first with
                | .obj m =>
                  let jsonSchema :=
                    jsonSchema ++ "\x7b\"Tag\": \"name=element, repetitiontype=REQUIRED\", \"Fields\" : ["
                  match generateSchemaLoop m messageType (enterSchema messageType jsonSchema) with
                  | none => none
                  | some jsonSchema =>
                    let jsonSchema := TrimRight jsonSchema ","
                    let jsonSchema := jsonSchema ++ "]\x7d,"
                    let jsonSchema := TrimRight jsonSchema ","
                    some (jsonSchema ++ "]\x7d,")
                | _ => none
              else
                let jsonSchema :=
                  jsonSchema ++ "\x7b\"Tag\": \"name=element, type=" ++ getParquetDataType arrayItemDataType
                let jsonSchema := jsonSchema ++ ", repetitiontype=REQUIRED\"\x7d,"
                let jsonSchema := TrimRight jsonSchema ","
                some (jsonSchema ++ "]\x7d,")
          | _ => none
        else
          let jsonSchema := jsonSchema ++ "\x7b\"Tag\": \"name=" ++ key
          let jsonSchema := jsonSchema ++ ", type=" ++ getParquetDataType dataType
          some (jsonSchema ++ ", repetitiontype=REQUIRED\"\x7d,")
termination_by structural _ value => value
/-- The `for key, value := range payload` loop of `generateSchema`. -/
def generateSchemaLoop : List (String × Value) → String → String → Option String
  | [], _, jsonSchema => some jsonSchema
  | (key, value) :: rest, messageType, jsonSchema =>
    match generateSchemaStep key value messageType jsonSchema with
    | none => none
    | some jsonSchema => generateSchemaLoop rest messageType jsonSchema
termination_by structural payload => payload
end

/-- The function `generateSchema`; `none` when it panics. -/
def generateSchema (payload : List (String × Value)) (messageType jsonSchema : String) :
    Option String :=
  generateSchemaLoop payload messageType (enterSchema messageType jsonSchema)

/-! ## The schema as a tree -/

/-- One item of the schema text: a leaf `{"Tag": "name=…, type=…,
repetitiontype=…"}` or a group `{"Tag": "name=…[, type=LIST],
repetitiontype=…", "Fields" : […]}`. -/
inductive SchemaNode where
  | leaf (name type repetition : String)
  | group (name : String) (type : Option String) (repetition : String)
      (fields : List SchemaNode)

/-- The `name` of the tag of a node. -/
def SchemaNode.name : SchemaNode → String
  | .leaf n _ _ => n
  | .group n _ _ _ => n

/-- The `repetitiontype` of the tag of a node. -/
def SchemaNode.repetition : SchemaNode → String
  | .leaf _ _ r => r
  | .group _ _ r _ => r

/-- The children of a node. -/
def SchemaNode.fields : SchemaNode → List SchemaNode
  | .leaf _ _ _ => []
  | .group _ _ _ fs => fs

/-- Whether the tag of a node carries `type=LIST`. -/
def SchemaNode.isList : SchemaNode → Bool
  | .leaf _ _ _ => false
  | .group _ t _ _ => t == some "LIST"

/-- Texts separated by commas. -/
def commaSep : List String → String
  | [] => ""
  | [a] => a
  | a :: b :: rest => a ++ "," ++ commaSep (b :: rest)

/-- Texts each followed by a comma, as the loop of `generateSchema` appends
them. -/
def commaEnd : List String → String
  | [] => ""
  | a :: rest => a ++ "," ++ commaEnd rest

mutual
/-- The text of a node. -/
def SchemaNode.render : SchemaNode → String
  | .leaf n t r =>
    "\x7b\"Tag\": \"name=" ++ n ++ ", type=" ++ t ++ ", repetitiontype=" ++ r ++ "\"\x7d"
  | .group n t r fs =>
    "\x7b\"Tag\": \"name=" ++ n ++
      (match t with
        | some t => ", type=" ++ t
        | none => "") ++
      ", repetitiontype=" ++ r ++ "\", \"Fields\" : [" ++
      commaSep (renderNodes fs) ++ "]\x7d"
/-- The texts of a list of nodes. -/
def renderNodes : List SchemaNode → List String
  | [] => []
  | n :: ns => n.render :: renderNodes ns
end

/-- The text of the whole schema: the root group named after the message type
with the given children. -/
def renderRoot (messageType : String) (fields : List SchemaNode) : String :=
  schemaHeader messageType ++ commaSep (renderNodes fields) ++ "]\x7d"

mutual
/-- The tree reading of one iteration of the loop of `generateSchema`: the
node that the pair `key, value` contributes, branch by branch as in
`generateSchemaStep`; `some none` when the pair is skipped, `none` when the
loop panics. The text that the iteration appends is the text of this node
followed by a comma (`generateSchemaStep_eq`). -/
def nodeOf : String → Value → Option (Option SchemaNode)
  | _, .null => some none
  | key, .obj m =>
    if m.length = 0 then some none
    else
      match nodesOf m with
      | none => none
      | some fs => some (some (.group key none "REQUIRED" fs))
  | _, .arr [] => some none
  | _, .arr (.null :: _) => none
  | key, .arr (.obj m :: _) =>
    match nodesOf m with
    | none => none
    | some fs =>
      some (some (.group key (some "LIST") "REQUIRED" [.group "element" none "REQUIRED" fs]))
  | key, .arr (first :: _) =>
    some (some (.group key (some "LIST") "REQUIRED"
      [.leaf "element" (getParquetDataType ((typeString first).getD "")) "REQUIRED"]))
  | key, value =>
    some (some (.leaf key (getParquetDataType ((typeString value).getD "")) "REQUIRED"))
/-- The nodes that the pairs of a mapping contribute, in iteration order. -/
def nodesOf : List (String × Value) → Option (List SchemaNode)
  | [] => some []
  | (key, value) :: rest =>
    match nodeOf key value, nodesOf rest with
    | some (some n), some ns => some (n :: ns)
    | some none, some ns => some ns
    | _, _ => none
end

/-! ## Path planner -/

/-- The body of the loop of `generateSubFolderName` for one record of
`partitionTimes`: the new value of `subFolderName`. -/
def subFolderStep (now : Instant) (messageType : String) (configRecord : Config)
    (subFolderName : String) (partitionTimeRecord : PartitionTime) : String :=
  if partitionTimeRecord.PartitionTimeId = configRecord.PartitionTimeId.Int64 then
    if partitionTimeRecord.PartitionTimeName = "Hourly" then
      messageType ++ "/" ++ (zeroPad 4 now.Year ++ "-" ++ zeroPad 2 now.Month ++ "-" ++
        zeroPad 2 now.Day ++ "-" ++ zeroPad 2 now.Hour)
    else if partitionTimeRecord.PartitionTimeName = "Daily" then
      messageType ++ "/" ++ (zeroPad 4 now.Year ++ "-" ++ zeroPad 2 now.Month ++ "-" ++
        zeroPad 2 now.Day)
    else if partitionTimeRecord.PartitionTimeName = "Weekly" then
      messageType ++ "/" ++ Itoa now.ISOYear ++ "-" ++ Itoa now.ISOWeek
    else if partitionTimeRecord.PartitionTimeName = "Monthly" then
      messageType ++ "/" ++ (zeroPad 4 now.Year ++ "-" ++ zeroPad 2 now.Month)
    else if partitionTimeRecord.PartitionTimeName = "Quarterly" then
      let quarter : Int := ((now.Month + 2) / 3 : Nat)
      messageType ++ "/" ++ zeroPad 4 now.Year ++ "-" ++ stringOfInt quarter
    else subFolderName
  else subFolderName

/-- The function `generateSubFolderName`; every `time.Now()` of one call reads
the instant `now`. -/
def generateSubFolderName (partitionTimes : List PartitionTime) (now : Instant)
    (messageType : String) (configRecord : Config) : String :=
  partitionTimes.foldl (subFolderStep now messageType configRecord) ""

/-- The function `generateLeafLevelFileName`, with `t := time.Now()`. -/
def generateLeafLevelFileName (t : Instant) : String :=
  let year := t.Year
  let month := t.Month
  let day := t.Day
  let hour := t.Hour
  let min := t.Minute
  let sec := t.Second
  let nanosec := t.Nanosecond
  Itoa year ++ Itoa month ++ Itoa day ++ "_" ++ Itoa hour ++ Itoa min ++ Itoa sec ++
    Itoa nanosec ++ ".parquet"

/-! ## Router -/

/-- The first loop of `writeParquet`: the value of `matchingConfig` when the
loop over `configs` ends. -/
def matchingConfig : List Config → IncomingMessage → Config
  | [], _ => Config.zero
  | configRecord :: rest, request =>
    if request.StreamAltId ≠ "" then
      if configRecord.StreamAltId.Str = request.StreamAltId then configRecord
      else matchingConfig rest request
    else if request.StreamId ≠ "" then
      if configRecord.StreamId.Str = request.StreamId then configRecord
      else matchingConfig rest request
    else matchingConfig rest request

/-- The value of `messageType` in `writeParquet` after the three assignments
that follow the selection of the config. -/
def effectiveMessageType (request : IncomingMessage) (matchingConfig : Config) : String :=
  let messageType := "rtdl_default"
  let messageType :=
    if matchingConfig.MessageType.Str ≠ "" then matchingConfig.MessageType.Str else messageType
  let messageType := if request.MessageType ≠ "" then request.MessageType else messageType
  match request.Payload.lookup "type" with
  | some payloadType =>
    match payloadType with
    | .str typeString => typeString
    | _ => messageType
  | none => messageType

/-- The three writers that `writeParquet` hands the message to. -/
inductive Writer where
  | WriteLocalParquet
  | WriteAWSParquet
  | WriteGCPParquet
deriving DecidableEq

/-- A call `Write…Parquet(messageType, schema, payload, matchingConfig)`; the
payload stands for its `json.Marshal` text. -/
structure WriterCall where
  writer : Writer
  messageType : String
  schema : String
  payload : List (String × Value)
  configRecord : Config

/-- How a call of `writeParquet` ends: a panic, `return nil` with no writer
called, or the return of the result of one writer call. -/
inductive Outcome where
  | panic
  | returnNil
  | returnWriter (call : WriterCall)

/-- The loop of `writeParquet` over `fileStoreTypes`. -/
def dispatchFileStore : List FileStoreType → String → String → List (String × Value) →
    Config → Outcome
  | [], _, _, _, _ => .returnNil
  | fileStoreTypeRecord :: rest, messageType, schema, payload, matchingConfig =>
    if fileStoreTypeRecord.FileStoreTypeId = matchingConfig.FileStoreTypeId.Int64 then
      if fileStoreTypeRecord.FileStoreTypeName = "Local" then
        .returnWriter ⟨.WriteLocalParquet, messageType, schema, payload, matchingConfig⟩
      else if fileStoreTypeRecord.FileStoreTypeName = "AWS" then
        .returnWriter ⟨.WriteAWSParquet, messageType, schema, payload, matchingConfig⟩
      else if fileStoreTypeRecord.FileStoreTypeName = "GCP" then
        .returnWriter ⟨.WriteGCPParquet, messageType, schema, payload, matchingConfig⟩
      else dispatchFileStore rest messageType schema payload matchingConfig
    else dispatchFileStore rest messageType schema payload matchingConfig

/-- The function `writeParquet`. -/
def writeParquet (g : Globals) (request : IncomingMessage) : Outcome :=
  let matchingConfig := matchingConfig g.configs request
  let messageType := effectiveMessageType request matchingConfig
  match generateSchema request.Payload messageType "" with
  | none => .panic
  | some jsonSchema =>
    let schema := TrimRight jsonSchema "," ++ "]\x7d"
    dispatchFileStore g.fileStoreTypes messageType schema request.Payload matchingConfig

/-- The identifiers of a message select no config of the snapshot. -/
def Unmatched (configs : List Config) (request : IncomingMessage) : Prop :=
  (request.StreamAltId ≠ "" ∧ ∀ c ∈ configs, c.StreamAltId.Str ≠ request.StreamAltId) ∨
  (request.StreamAltId = "" ∧ request.StreamId ≠ "" ∧
    ∀ c ∈ configs, c.StreamId.Str ≠ request.StreamId) ∨
  (request.StreamAltId = "" ∧ request.StreamId = "")

instance (configs : List Config) (request : IncomingMessage) :
    Decidable (Unmatched configs request) := by
  unfold Unmatched; infer_instance

/-! ## The environment of the effectful functions -/

/-- How a Go function of the source with result type `error` ends: it returns
nil, it returns an error with the given text, or it panics. -/
inductive Ret where
  | nil
  | error (msg : String)
  | panic
deriving DecidableEq

/-- An externally visible action of the source, in the order of execution.
`call` marks the entry of a function of the source; of the log lines only
those of `Ingest` are recorded. -/
inductive Effect where
  | call (function : String)
  | dbOpen
  | dbSelect (query : String)
  | mkdirAll (path : String)
  | newLocalFileWriter (name : String)
  | newJSONWriter (schema : String)
  | pwWrite (payload : String) (compression : Option String)
  | pwWriteStop
  | newSession (region accessKeyId secretAccessKey : String)
  | osOpen (name : String)
  | putObject (bucket key : String)
  | osRemove (name : String)
  | credentialsFromJSON (json : String)
  | newClient
  | gcsCopy (bucket path : String)
  | gcsClose
  | httpGet (endPoint : String)
  | httpPost (endPoint body : String)
  | log (line : String)
  | sendEgress (topic key value : String)
deriving DecidableEq

/-- The effects and the end of one run of a function. -/
structure Run where
  effects : List Effect
  ret : Ret
deriving DecidableEq

/-- The answers of the world outside the process, given as inputs: the wall
clock, the environment variables, the results of the database, file system,
object store and Dremio calls (an `Option String` is the error of the call,
`none` for success), and the library functions `json.Marshal` (on the payload),
`json.Unmarshal` (into a `map[string]interface{}`) and `http.NewRequest`
(`newRequest`, on the URL). `dremioGet` and `dremioPost` answer a request
that was sent: the error of `client.Do` or of decoding the body, or the
decoded body. -/
structure World where
  now : Instant
  marshal : List (String × Value) → String
  unmarshal : String → Except String (List (String × Value))
  localFsMountPath : String
  dremioMountPath : String
  sqlxOpen : Option String
  selectStreams : Except String (List Config)
  selectFileStoreTypes : Except String (List FileStoreType)
  selectPartitionTimes : Except String (List PartitionTime)
  selectCompressionTypes : Except String (List CompressionType)
  mkdirAll : String → Option String
  newLocalFileWriter : String → Option String
  newJSONWriter : String → Option String
  pwWrite : String → Option String
  pwWriteStop : Option String
  newSession : String → Option String
  osOpen : String → Option String
  putObject : String → String → Option String
  credentialsFromJSON : String → Option String
  newClient : Option String
  gcsCopy : String → String → Option String
  gcsClose : Option String
  dremioHost : String
  dremioPort : String
  newRequest : String → Option String
  dremioGet : String → Except String (List (String × Value))
  dremioPost : String → String → Except String (List (String × Value))

/-! ## Configuration cache -/

/-- The end of a run of `LoadConfig` together with the package-level
snapshot variables after it. -/
structure LoadRun where
  effects : List Effect
  ret : Ret
  globals : Globals

/-- The function `LoadConfig`, run on the snapshot `g`. -/
def LoadConfig (w : World) (g : Globals) : LoadRun :=
  match w.sqlxOpen with
  | some err => ⟨[.dbOpen], .error err, g⟩
  | none =>
    match w.selectStreams with
    | .error err => ⟨[.dbOpen, .dbSelect "SELECT * FROM streams"], .error err, g⟩
    | .ok tempConfigs =>
      let g := { g with configs := tempConfigs }
      match w.selectFileStoreTypes with
      | .error err =>
        ⟨[.dbOpen, .dbSelect "SELECT * FROM streams", .dbSelect "SELECT * FROM file_store_types"],
          .error err, g⟩
      | .ok tempFileStoreTypes =>
        let g := { g with fileStoreTypes := tempFileStoreTypes }
        match w.selectPartitionTimes with
        | .error err =>
          ⟨[.dbOpen, .dbSelect "SELECT * FROM streams",
            .dbSelect "SELECT * FROM file_store_types", .dbSelect "SELECT * FROM partition_times"],
            .error err, g⟩
        | .ok tempPartitionTimes =>
          let g := { g with partitionTimes := tempPartitionTimes }
          match w.selectCompressionTypes with
          | .error err =>
            ⟨[.dbOpen, .dbSelect "SELECT * FROM streams",
              .dbSelect "SELECT * FROM file_store_types",
              .dbSelect "SELECT * FROM partition_times",
              .dbSelect "SELECT * from compression_types"], .error err, g⟩
          | .ok tempCompressionTypes =>
            let g := { g with compressionTypes := tempCompressionTypes }
            ⟨[.dbOpen, .dbSelect "SELECT * FROM streams",
              .dbSelect "SELECT * FROM file_store_types",
              .dbSelect "SELECT * FROM partition_times",
              .dbSelect "SELECT * from compression_types"], .nil, g⟩

/-! ## Catalog reconciliation -/

/-- The URL that `DremioReqRes` builds for an end point. -/
def dremioURL (w : World) (endPoint : String) : String :=
  let version := if endPoint = "login" then "apiv2" else "api/v3"
  "http://" ++ w.dremioHost ++ ":" ++ w.dremioPort ++ "/" ++ version ++ "/" ++ endPoint

/-- The end of a call of `DremioReqRes`: the request it sent, if any, and its
result (the decoded response or the error). -/
structure ReqRes where
  effects : List Effect
  response : Except String (List (String × Value))

/-- The function `DremioReqRes`, with `data = nil` as `none`: a GET without
data, a POST with data. When `http.NewRequest` rejects the URL the function
returns its error and sends nothing. -/
def DremioReqRes (w : World) (endPoint : String) (data : Option String) : ReqRes :=
  let url := dremioURL w endPoint
  match w.newRequest url with
  | some err => ⟨[], .error err⟩
  | none =>
    match data with
    | none => ⟨[.httpGet endPoint], w.dremioGet endPoint⟩
    | some body => ⟨[.httpPost endPoint body], w.dremioPost endPoint body⟩

/-- Go `strings.Replace(s, "\n", "\\n", -1)` on the characters. -/
def escapeNewlinesChars : List Char → List Char
  | [] => []
  | c :: cs =>
    if c = '\n' then '\\' :: 'n' :: escapeNewlinesChars cs else c :: escapeNewlinesChars cs

/-- Go `strings.Replace(s, "\n", "\\n", -1)`. -/
def escapeNewlines (s : String) : String :=
  ⟨escapeNewlinesChars s.data⟩

/-- Go `unicode.IsSpace`. -/
def isSpace (c : Char) : Bool :=
  let n := c.toNat
  n = 9 || n = 10 || n = 11 || n = 12 || n = 13 || n = 32 || n = 0x85 || n = 0xA0 ||
    n = 0x1680 || (0x2000 ≤ n && n ≤ 0x200A) || n = 0x2028 || n = 0x2029 || n = 0x202F ||
    n = 0x205F || n = 0x3000

/-- Go `strings.TrimSpace`. -/
def TrimSpace (s : String) : String :=
  ⟨((s.data.dropWhile isSpace).reverse.dropWhile isSpace).reverse⟩

/-- The value of `s, _ := x.(string)`: the string held by the interface, the
empty string when the interface is nil or holds another kind. -/
def stringOr : Option Value → String
  | some (.str s) => s
  | _ => ""

/-- The comparison `x == s` of an interface with a string: true exactly when
the interface holds that string. -/
def interfaceEqString : Option Value → String → Bool
  | some (.str t), s => t == s
  | _, _ => false

/-- How the loop of `UpdateDremio` over the children of a source ends. -/
inductive ChildScan where
  | error (msg : String)
  | panic
  | found (datasetExists : Bool)
deriving DecidableEq

/-- The loop of `UpdateDremio` over `children`. Indexing `path[1]` panics on a
path with fewer than two elements. -/
def scanChildren (messageType : String) : List Value → ChildScan
  | [] => .found false
  | childNode :: rest =>
    let child : List (String × Value) :=
      match childNode with
      | .obj c => c
      | _ => []
    match child.lookup "path" with
    | some (.arr path) =>
      match path with
      | _ :: p1 :: _ =>
        let datasetName := stringOr (some p1)
        let datasetType := stringOr (child.lookup "type")
        if datasetName = messageType ∧ datasetType = "DATASET" then .found true
        else scanChildren messageType rest
      | _ => .panic
    | _ => .error "error handling Dremio server response during dataset retrieval ok4"

/-- How the loop of `UpdateDremio` over the sources ends. -/
inductive SourceScan where
  | error (msg : String)
  | panic
  | done (sourceExists datasetExists : Bool)
deriving DecidableEq

/-- The loop of `UpdateDremio` over `sources`, with the requests it issues.
The error of the catalog request is dropped by the source and leaves the nil
map as response. -/
def scanSources (w : World) (sourceName messageType : String) :
    List Value → List Effect × SourceScan
  | [] => ([], .done false false)
  | source :: rest =>
    match source with
    | .obj entry =>
      if interfaceEqString (entry.lookup "name") sourceName then
        let sourceId := stringOr (entry.lookup "id")
        let reqRes := DremioReqRes w ("catalog/" ++ sourceId) none
        let dremioResponse : List (String × Value) :=
          match reqRes.response with
          | .ok response => response
          | .error _ => []
        match dremioResponse.lookup "children" with
        | some (.arr children) =>
          match scanChildren messageType children with
          | .error msg => (reqRes.effects, .error msg)
          | .panic => (reqRes.effects, .panic)
          | .found datasetExists => (reqRes.effects, .done true datasetExists)
        | _ =>
          (reqRes.effects,
            .error "error handling Dremio server response during dataset retrieval ok3")
      else scanSources w sourceName messageType rest
    | _ => ([], .error "error handling Dremio server response during source retrieval")

/-- The outcome of building the definition of a source. -/
inductive SourceDef where
  | body (text : String)
  | error (msg : String)
  | panic
deriving DecidableEq

/-- The text `sourceStringMultiLine` that `UpdateDremio` builds. For the
source type GCS the credentials of the config are decoded; a field that is
not a string makes the type assertion panic. -/
def sourceString (w : World) (sourceName sourceType location : String)
    (configRecord : Config) : SourceDef :=
  let sourceStringMultiLine := "\x7b\"name\": \"" ++ sourceName ++ "\""
  if sourceType = "Local" then
    .body (sourceStringMultiLine ++ ", \"type\": \"NAS\", \"config\": \x7b\"path\": \"file:///" ++
      w.dremioMountPath ++ "/" ++ configRecord.FolderName.Str ++ "\"\x7d\x7d")
  else if sourceType = "S3" then
    let sourceStringMultiLine := sourceStringMultiLine ++
      ", \"type\": \"S3\", \"config\": \x7b\"accessKey\": \"" ++ configRecord.AWSAcessKeyID.Str ++ "\""
    let sourceStringMultiLine := sourceStringMultiLine ++
      ", \"accessSecret\": \"" ++ configRecord.AWSSecretAcessKey.Str ++ "\""
    let sourceStringMultiLine := sourceStringMultiLine ++ ", \"rootPath\": \"/" ++ location ++ "/"
    let sourceStringMultiLine :=
      if configRecord.FolderName.Str ≠ "" then
        sourceStringMultiLine ++ configRecord.FolderName.Str ++ "/"
      else sourceStringMultiLine
    .body (sourceStringMultiLine ++ "\"\x7d\x7d")
  else if sourceType = "GCS" then
    match w.unmarshal configRecord.GCPJsonCredentials.Str with
    | .error err => .error err
    | .ok gcpCreds =>
      match gcpCreds.lookup "project_id", gcpCreds.lookup "client_email",
        gcpCreds.lookup "client_id", gcpCreds.lookup "private_key_id",
        gcpCreds.lookup "private_key" with
      | some (.str projectId), some (.str clientEmail), some (.str clientId),
        some (.str privateKeyId), some (.str rawPrivateKey) =>
        let privateKey := escapeNewlines rawPrivateKey
        let sourceStringMultiLine := sourceStringMultiLine ++
          ", \"type\":\"GCS\", \"config\": \x7b\"projectId\": \"" ++ projectId ++ "\""
        let sourceStringMultiLine := sourceStringMultiLine ++
          ", \"authMode\": \"SERVICE_ACCOUNT_KEYS\", \"clientEmail\": \"" ++ clientEmail ++ "\""
        let sourceStringMultiLine := sourceStringMultiLine ++
          ", \"clientId\": \"" ++ clientId ++ "\", \"privateKeyId\": \"" ++ privateKeyId ++ "\""
        let sourceStringMultiLine := sourceStringMultiLine ++
          ", \"privateKey\": \"" ++ privateKey ++ "\""
        let sourceStringMultiLine := sourceStringMultiLine ++ ", \"rootPath\": \"/" ++ location ++ "/"
        let sourceStringMultiLine :=
          if configRecord.FolderName.Str ≠ "" then
            sourceStringMultiLine ++ configRecord.FolderName.Str ++ "/"
          else sourceStringMultiLine
        .body (sourceStringMultiLine ++ "\"\x7d\x7d")
      | _, _, _, _, _ => .panic
  else .body (sourceStringMultiLine ++ "\"\x7d\x7d")

/-- The block `if !sourceExists` of `UpdateDremio`. -/
def createSource (w : World) (sourceExists : Bool) (sourceName sourceType location : String)
    (configRecord : Config) : Run :=
  if sourceExists then ⟨[], .nil⟩
  else
    match sourceString w sourceName sourceType location configRecord with
    | .error err => ⟨[], .error err⟩
    | .panic => ⟨[], .panic⟩
    | .body sourceDef =>
      let reqRes := DremioReqRes w "source" (some sourceDef)
      match reqRes.response with
      | .error err1 => ⟨reqRes.effects, .error err1⟩
      | .ok _ => ⟨reqRes.effects, .nil⟩

/-- The identifier `encodedId` of the dataset of a message type in a source. -/
def encodedId (sourceName messageType : String) : String :=
  "dremio%3A%2F" ++ sourceName ++ "%2F" ++ messageType

/-- The text `datasetDefMultiLine` that `UpdateDremio` builds. -/
def datasetDef (sourceName messageType : String) : String :=
  let datasetDefMultiLine := "\x7b\"id\": \"" ++ encodedId sourceName messageType ++
    "\", \"entityType\": \"dataset\", \"path\": [\"" ++ sourceName ++ "\", \"" ++ messageType ++ "\"]"
  let datasetDefMultiLine := datasetDefMultiLine ++ ", \"format\": \x7b\"type\": \"Parquet\"\x7d"
  let datasetDefMultiLine := datasetDefMultiLine ++ ", \"type\": \"PHYSICAL_DATASET\""
  datasetDefMultiLine ++ "\x7d"

/-- The block `if !datasetExists` of `UpdateDremio`. -/
def createDataset (w : World) (datasetExists : Bool) (sourceName messageType : String) : Run :=
  if datasetExists then ⟨[], .nil⟩
  else
    let reqRes := DremioReqRes w ("catalog/" ++ encodedId sourceName messageType)
      (some (datasetDef sourceName messageType))
    match reqRes.response with
    | .error err1 => ⟨reqRes.effects, .error err1⟩
    | .ok _ => ⟨reqRes.effects, .nil⟩

/-- Run `k` after `r` when `r` returned nil; otherwise the run ends with `r`. -/
def Run.andThen (r k : Run) : Run :=
  match r.ret with
  | .nil => ⟨r.effects ++ k.effects, k.ret⟩
  | _ => r

/-- The function `UpdateDremio`. -/
def UpdateDremio (w : World) (messageType sourceType location : String)
    (configRecord : Config) : Run :=
  let sourceName := configRecord.StreamId.Str
  let reqRes := DremioReqRes w "source" none
  match reqRes.response with
  | .error err1 => ⟨reqRes.effects, .error err1⟩
  | .ok dremioResponse =>
    match dremioResponse.lookup "data" with
    | some (.arr sources) =>
      match scanSources w sourceName messageType sources with
      | (requests, .error msg) => ⟨reqRes.effects ++ requests, .error msg⟩
      | (requests, .panic) => ⟨reqRes.effects ++ requests, .panic⟩
      | (requests, .done sourceExists datasetExists) =>
        (Run.mk (reqRes.effects ++ requests) .nil).andThen
          ((createSource w sourceExists sourceName sourceType location configRecord).andThen
            (createDataset w datasetExists sourceName messageType))
    | _ =>
      ⟨reqRes.effects, .error "error handling Dremio server response during source retrieval"⟩

/-! ## Writers and dispatcher -/

/-- One fallible call of the outside world: its effect, then nil or its
error. -/
def Run.step (e : Effect) (err : Option String) : Run :=
  match err with
  | none => ⟨[e], .nil⟩
  | some msg => ⟨[e], .error msg⟩

/-- The compression codec that `WriteToFile` sets on the writer: `none` when
the codec of the writer is left as it is. -/
def compressionCodec (configRecord : Config) : Option String :=
  let compressionType := configRecord.CompressionTypeId.Int64
  if 0 < compressionType ∧ compressionType < 4 then
    if compressionType = 1 then some "SNAPPY"
    else if compressionType = 2 then some "GZIP"
    else if compressionType = 3 then some "LZO"
    else none
  else none

/-- The function `WriteToFile`; the file is the one of the preceding
`newLocalFileWriter`. -/
def WriteToFile (w : World) (schema payload : String) (configRecord : Config) : Run :=
  (Run.step (.newJSONWriter schema) (w.newJSONWriter schema)).andThen
    ((Run.step (.pwWrite payload (compressionCodec configRecord)) (w.pwWrite payload)).andThen
      (Run.step .pwWriteStop w.pwWriteStop))

/-- The function `WriteLocalParquet`. -/
def WriteLocalParquet (w : World) (g : Globals) (messageType schema payload : String)
    (configRecord : Config) : Run :=
  let path := "datastore"
  let folderName := configRecord.FolderName.Str
  let path := if folderName ≠ "" then path ++ "/" ++ folderName else path
  let path := path ++ "/" ++ generateSubFolderName g.partitionTimes w.now messageType configRecord
  let location := w.localFsMountPath ++ "/" ++ path
  let fileName := path ++ "/" ++ generateLeafLevelFileName w.now
  (Run.step (.mkdirAll path) (w.mkdirAll path)).andThen
    ((Run.step (.newLocalFileWriter fileName) (w.newLocalFileWriter fileName)).andThen
      ((WriteToFile w schema payload configRecord).andThen
        (UpdateDremio w messageType "Local" location configRecord)))

/-- The function `WriteAWSParquet`. The error of `NewLocalFileWriter` is
overwritten by the result of `WriteToFile`, and the temporary file is removed
whatever `PutObject` returned. -/
def WriteAWSParquet (w : World) (g : Globals) (messageType schema payload : String)
    (configRecord : Config) : Run :=
  let subFolderName := generateSubFolderName g.partitionTimes w.now messageType configRecord
  let leafLevelFileName := generateLeafLevelFileName w.now
  if configRecord.Region.Str = "" then ⟨[], .error "AWS Region cannot be null or empty"⟩
  else
    let region := TrimSpace configRecord.Region.Str
    let awsAccessKeyId := TrimSpace configRecord.AWSAcessKeyID.Str
    let awsSecretAccessKey := TrimSpace configRecord.AWSSecretAcessKey.Str
    let bucketName := configRecord.BucketName.Str
    if bucketName = "" then ⟨[], .error "S3 bucket name cannot be null or empty"⟩
    else
      let key :=
        if configRecord.FolderName.Str ≠ "" then
          configRecord.FolderName.Str ++ "/" ++ subFolderName ++ "/" ++ leafLevelFileName
        else subFolderName ++ "/" ++ leafLevelFileName
      (Run.mk [.newLocalFileWriter leafLevelFileName] .nil).andThen
        ((WriteToFile w schema payload configRecord).andThen
          ((Run.step (.newSession region awsAccessKeyId awsSecretAccessKey)
              (w.newSession region)).andThen
            ((Run.step (.osOpen leafLevelFileName) (w.osOpen leafLevelFileName)).andThen
              (match w.putObject bucketName key with
                | some err =>
                  ⟨[.putObject bucketName key, .osRemove leafLevelFileName], .error err⟩
                | none =>
                  (Run.mk [.putObject bucketName key, .osRemove leafLevelFileName] .nil).andThen
                    (UpdateDremio w messageType "S3" bucketName configRecord)))))

/-- The function `WriteGCPParquet`. -/
def WriteGCPParquet (w : World) (g : Globals) (messageType schema payload : String)
    (configRecord : Config) : Run :=
  let subFolderName := generateSubFolderName g.partitionTimes w.now messageType configRecord
  let leafLevelFileName := generateLeafLevelFileName w.now
  let jsonCreds := escapeNewlines configRecord.GCPJsonCredentials.Str
  (Run.step (.credentialsFromJSON jsonCreds) (w.credentialsFromJSON jsonCreds)).andThen
    ((Run.step .newClient w.newClient).andThen
      (let bucketName := configRecord.BucketName.Str
       if bucketName = "" then ⟨[], .error "GCS bucket name cannot be null or empty"⟩
       else
         let path :=
           if configRecord.FolderName.Str ≠ "" then
             configRecord.FolderName.Str ++ "/" ++ subFolderName ++ "/" ++ leafLevelFileName
           else subFolderName ++ "/" ++ leafLevelFileName
         (Run.mk [.newLocalFileWriter leafLevelFileName] .nil).andThen
           ((WriteToFile w schema payload configRecord).andThen
             ((Run.step (.osOpen leafLevelFileName) (w.osOpen leafLevelFileName)).andThen
               ((Run.step (.gcsCopy bucketName path) (w.gcsCopy bucketName path)).andThen
                 ((Run.step .gcsClose w.gcsClose).andThen
                   ((Run.mk [.osRemove leafLevelFileName] .nil).andThen
                     (UpdateDremio w messageType "GCS" bucketName configRecord))))))))

/-- The run of the writer that `writeParquet` hands the message to. -/
def runWriter (w : World) (g : Globals) (call : WriterCall) : Run :=
  match call.writer with
  | .WriteLocalParquet =>
    WriteLocalParquet w g call.messageType call.schema (w.marshal call.payload) call.configRecord
  | .WriteAWSParquet =>
    WriteAWSParquet w g call.messageType call.schema (w.marshal call.payload) call.configRecord
  | .WriteGCPParquet =>
    WriteGCPParquet w g call.messageType call.schema (w.marshal call.payload) call.configRecord

/-- The function `writeParquet` with the run of the writer it returns. -/
def writeParquetRun (w : World) (g : Globals) (request : IncomingMessage) : Run :=
  match writeParquet g request with
  | .panic => ⟨[], .panic⟩
  | .returnNil => ⟨[], .nil⟩
  | .returnWriter call => runWriter w g call

/-- The end of a run of `Ingest` together with the snapshot variables after
it. -/
structure IngestRun where
  effects : List Effect
  ret : Ret
  globals : Globals

/-- The function `Ingest`; `message` is the result of `message.As`, the
deserialization of the ingress record. -/
def Ingest (w : World) (g : Globals) (message : Except String IncomingMessage) : IngestRun :=
  match message with
  | .error err => ⟨[], .error ("failed to deserialize incoming message: " ++ err), g⟩
  | .ok request =>
    if request.MessageType = "rtdl_205" then
      let load := LoadConfig w g
      match load.ret with
      | .error err => ⟨.call "LoadConfig" :: load.effects ++ [.log err], .error err, load.globals⟩
      | .panic => ⟨.call "LoadConfig" :: load.effects, .panic, load.globals⟩
      | .nil => ⟨.call "LoadConfig" :: load.effects, .nil, load.globals⟩
    else
      let write := writeParquetRun w g request
      match write.ret with
      | .panic => ⟨.call "writeParquet" :: write.effects, .panic, g⟩
      | .error err =>
        ⟨.call "writeParquet" :: write.effects ++
          [.log ("error writing Parquet " ++ err),
            .sendEgress "egress" "message" (w.marshal request.Payload),
            .log "egress message written"], .nil, g⟩
      | .nil =>
        ⟨.call "writeParquet" :: write.effects ++
          [.sendEgress "egress" "message" (w.marshal request.Payload),
            .log "egress message written"], .nil, g⟩

/-! ## Vocabulary of the statements -/

/-- The text after one iteration of the loop that contributed the node `n`
(or nothing). -/
def emitNode (jsonSchema : String) : Option SchemaNode → String
  | none => jsonSchema
  | some n => jsonSchema ++ n.render ++ ","

/-- The last character of a text exists and is not a comma. -/
def EndsOk (s : String) : Prop := ∃ l c, s.data = l ++ [c] ∧ c ≠ ','

/-- The schema tree that `writeParquet` builds for a payload: the root group
named after the message type over the nodes of the top-level mapping; `none`
when `generateSchema` panics. -/
def schemaTree (payload : List (String × Value)) (messageType : String) : Option SchemaNode :=
  (nodesOf payload).map (.group messageType none "REQUIRED")

/-- The value of a pair is one that the loop of `generateSchema` skips: null,
an empty mapping or an empty sequence. -/
def isSkipped : Value → Bool
  | .null => true
  | .obj [] => true
  | .arr [] => true
  | _ => false

/-- The value is a scalar: not null, not a mapping and not a sequence. -/
def isScalar : Value → Bool
  | .null => false
  | .obj _ => false
  | .arr _ => false
  | _ => true

/-- The mappings that `generateSchema` descends into when run on `payload`:
the payload itself, a non-empty mapping bound to a key of such a mapping, and
a mapping that is the first element of a sequence bound to such a key. -/
inductive Descends (payload : List (String × Value)) : List (String × Value) → Prop where
  | top : Descends payload payload
  | nested {m : List (String × Value)} {key : String} {f : String × Value}
      {m' : List (String × Value)} :
      Descends payload m → (key, Value.obj (f :: m')) ∈ m → Descends payload (f :: m')
  | element {m : List (String × Value)} {key : String} {m' : List (String × Value)}
      {rest : List Value} :
      Descends payload m → (key, Value.arr (Value.obj m' :: rest)) ∈ m → Descends payload m'

mutual
/-- A node together with all the nodes below it. -/
def SchemaNode.nodes : SchemaNode → List SchemaNode
  | .leaf n t r => [.leaf n t r]
  | .group n t r fs => .group n t r fs :: nodesBelow fs
/-- All the nodes of a list of trees. -/
def nodesBelow : List SchemaNode → List SchemaNode
  | [] => []
  | n :: ns => n.nodes ++ nodesBelow ns
end

/-- The invariant of a schema node: its repetition is REQUIRED, and when it
carries the LIST marker it has exactly one child, named `element`. -/
def NodeOk (x : SchemaNode) : Prop :=
  x.repetition = "REQUIRED" ∧ (x.isList = true → ∃ c, x.fields = [c] ∧ c.name = "element")

/-- The leaf-name pattern of the specification, `^\d{8}_\d{9,}\.parquet$`:
eight digits, an underscore, nine or more digits, `.parquet`. This predicate
follows the words of the specification, not the source. -/
def matchesLeafPattern (s : String) : Bool :=
  let date := s.data.take 8
  date.length == 8 && date.all Char.isDigit &&
    match s.data.drop 8 with
    | '_' :: rest =>
      decide (9 ≤ (rest.takeWhile Char.isDigit).length) &&
        rest.dropWhile Char.isDigit == ".parquet".data
    | _ => false

/-- Where a node of the schema below the root comes from: it is the node of
a pair with a non-skipped value in a mapping that `generateSchema` descends
into, or it is the child `element` of the LIST group of such a pair. -/
def Origin (payload : List (String × Value)) (x : SchemaNode) : Prop :=
  (∃ m key v, Descends payload m ∧ (key, v) ∈ m ∧ isSkipped v = false ∧
    nodeOf key v = some (some x)) ∨
  (x.name = "element" ∧ ∃ m key first rest, Descends payload m ∧
    (key, Value.arr (first :: rest)) ∈ m ∧
    nodeOf key (.arr (first :: rest)) = some (some (.group key (some "LIST") "REQUIRED" [x])))

/-- The first element of a sequence, when there is one, is not null. -/
def firstNotNull : List Value → Bool
  | .null :: _ => false
  | _ => true

mutual
/-- No non-empty sequence anywhere in the value has null as its first
element. -/
def noNullFirst : Value → Bool
  | .arr xs => firstNotNull xs && noNullFirstValues xs
  | .obj fs => noNullFirstFields fs
  | _ => true
/-- No non-empty sequence anywhere in the values has null as its first
element. -/
def noNullFirstValues : List Value → Bool
  | [] => true
  | x :: xs => noNullFirst x && noNullFirstValues xs
/-- No non-empty sequence anywhere in the mapping has null as its first
element. -/
def noNullFirstFields : List (String × Value) → Bool
  | [] => true
  | (_, v) :: fs => noNullFirst v && noNullFirstFields fs
end

mutual
/-- The number of constructors of a value. -/
def Value.size : Value → Nat
  | .arr xs => 1 + sizeValues xs
  | .obj fs => 1 + sizeFields fs
  | _ => 1
/-- The size of a sequence of values. -/
def sizeValues : List Value → Nat
  | [] => 0
  | x :: xs => 1 + x.size + sizeValues xs
/-- The size of a mapping. -/
def sizeFields : List (String × Value) → Nat
  | [] => 0
  | (_, v) :: fs => 1 + v.size + sizeFields fs
end

/-- A source listing is well formed when every listed source is an object. -/
def wellFormedSources (sources : List Value) : Bool :=
  sources.all fun source =>
    match source with
    | .obj _ => true
    | _ => false

/-- A child of a catalog response is well formed when it is an object whose
`path` is a sequence of at least two elements, the second a string. -/
def wellFormedChild : Value → Bool
  | .obj child =>
    match child.lookup "path" with
    | some (.arr (_ :: .str _ :: _)) => true
    | _ => false
  | _ => false

/-- The first listed source whose `name` is the given string. -/
def firstNamed (sourceName : String) : List Value → Option (List (String × Value))
  | [] => none
  | .obj entry :: rest =>
    if interfaceEqString (entry.lookup "name") sourceName then some entry
    else firstNamed sourceName rest
  | _ :: rest => firstNamed sourceName rest

/-- The children that the catalog response for a listed source carries (none
when the request fails or the response has no sequence `children`). -/
def listedChildren (w : World) (entry : List (String × Value)) : List Value :=
  match (DremioReqRes w ("catalog/" ++ stringOr (entry.lookup "id")) none).response with
  | .ok response =>
    match response.lookup "children" with
    | some (.arr children) => children
    | _ => []
  | .error _ => []

/-- The catalog response for a listed source is well formed: the request
succeeds and the response carries a sequence `children` of well-formed
children. -/
def wellFormedCatalog (w : World) (entry : List (String × Value)) : Bool :=
  match (DremioReqRes w ("catalog/" ++ stringOr (entry.lookup "id")) none).response with
  | .ok response =>
    match response.lookup "children" with
    | some (.arr children) => children.all wellFormedChild
    | _ => false
  | .error _ => false

/-- Some child has `path[1] == messageType` and `type == "DATASET"`. -/
def datasetListed (messageType : String) (children : List Value) : Bool :=
  children.any fun childNode =>
    match childNode with
    | .obj child =>
      (match child.lookup "path" with
        | some (.arr (_ :: p1 :: _)) => interfaceEqString (some p1) messageType
        | _ => false) &&
      interfaceEqString (child.lookup "type") "DATASET"
    | _ => false

/-- The first source named `sourceName` has a child with
`path[1] == messageType` and `type == "DATASET"`. -/
def datasetRegistered (w : World) (sourceName messageType : String) (sources : List Value) :
    Bool :=
  match firstNamed sourceName sources with
  | none => false
  | some entry => datasetListed messageType (listedChildren w entry)

/-- The interface holds a string, so that the type assertion `.(string)` on
it succeeds. -/
def holdsString : Option Value → Bool
  | some (.str _) => true
  | _ => false

/-- The five fields that `UpdateDremio` reads from decoded GCP credentials
are all present and strings. -/
def credentialsComplete (gcpCreds : List (String × Value)) : Bool :=
  holdsString (gcpCreds.lookup "project_id") &&
  holdsString (gcpCreds.lookup "client_email") &&
  holdsString (gcpCreds.lookup "client_id") &&
  holdsString (gcpCreds.lookup "private_key_id") &&
  holdsString (gcpCreds.lookup "private_key")

/-- The effect is a POST request. -/
def Effect.isPost : Effect → Bool
  | .httpPost _ _ => true
  | _ => false

/-- The effect is the POST that creates a source. -/
def Effect.isSourcePost : Effect → Bool
  | .httpPost endPoint _ => endPoint == "source"
  | _ => false

/-- The effect is the POST that creates the dataset of a message type in a
source. -/
def Effect.isDatasetPost (sourceName messageType : String) : Effect → Bool
  | .httpPost endPoint _ => endPoint == "catalog/" ++ encodedId sourceName messageType
  | _ => false

/-- The effect is one of the dispatcher itself: a call mark, a log line or an
egress record. -/
def Effect.isDispatch : Effect → Bool
  | .call _ => true
  | .log _ => true
  | .sendEgress _ _ _ => true
  | _ => false

/-- The effect is an egress record. -/
def Effect.isEgress : Effect → Bool
  | .sendEgress _ _ _ => true
  | _ => false

/-- The effect is a call mark. -/
def Effect.isCall : Effect → Bool
  | .call _ => true
  | _ => false

/-! ## Concrete inputs -/

/-- The config of scenario S2: stream `s1`, `message_type = "cfg_t"`, file
store type 3. -/
def s2Config : Config :=
  { Config.zero with
    StreamId := ⟨"s1", true⟩, MessageType := ⟨"cfg_t", true⟩, FileStoreTypeId := ⟨3, true⟩ }

/-- The message of scenario S2. -/
def s2Request : IncomingMessage :=
  { StreamId := "s1", StreamAltId := "", MessageType := "msg_t",
    Payload := [("type", .str "payload_t")] }

/-- A snapshot holding the config of scenario S2 and the file store type
`Local` under id 3. -/
def s2Globals : Globals :=
  { configs := [s2Config], fileStoreTypes := [⟨3, "Local"⟩], partitionTimes := [],
    compressionTypes := [] }

/-- The writer call of scenario S2. -/
def s2Call : WriterCall :=
  { writer := .WriteLocalParquet, messageType := "payload_t",
    schema := "\x7b\"Tag\": \"name=payload_t, repetitiontype=REQUIRED\",\"Fields\": [" ++
      "\x7b\"Tag\": \"name=type, type=BYTE_ARRAY, repetitiontype=REQUIRED\"\x7d]\x7d",
    payload := s2Request.Payload, configRecord := s2Config }

/-- A config fed from an external system under the alt id `ext`. -/
def selAltFirst : Config :=
  { Config.zero with StreamId := ⟨"s7", true⟩, StreamAltId := ⟨"ext", true⟩ }

/-- A second config with the alt id `ext`. -/
def selAltSecond : Config :=
  { Config.zero with StreamId := ⟨"s8", true⟩, StreamAltId := ⟨"ext", true⟩ }

/-- A snapshot of three configs: stream `s1` and two configs with alt id
`ext`. -/
def selConfigs : List Config := [s2Config, selAltFirst, selAltSecond]

/-- A message of stream `s1` without alt id. -/
def selRequest : IncomingMessage :=
  { StreamId := "s1", StreamAltId := "", MessageType := "", Payload := [] }

/-- The message of scenario S6: a stream that no config of the snapshot
`s2Globals` has. -/
def s6Request : IncomingMessage :=
  { StreamId := "unknown", StreamAltId := "", MessageType := "m",
    Payload := [("a", .float64 0x3ff0000000000000)] }

/-- A snapshot whose table of file store types has the row `(0, "Local")`. -/
def zeroIdGlobals : Globals :=
  { configs := [s2Config], fileStoreTypes := [⟨0, "Local"⟩], partitionTimes := [],
    compressionTypes := [] }

/-- The writer call that the message of scenario S6 leads to under the
snapshot `zeroIdGlobals`: the local writer, called with the zero config. -/
def zeroIdCall : WriterCall :=
  { writer := .WriteLocalParquet, messageType := "m",
    schema := "\x7b\"Tag\": \"name=m, repetitiontype=REQUIRED\",\"Fields\": [" ++
      "\x7b\"Tag\": \"name=a, type=DOUBLE, repetitiontype=REQUIRED\"\x7d]\x7d",
    payload := s6Request.Payload, configRecord := Config.zero }

/-- A message of an unknown stream whose payload binds a key to a sequence
that starts with null: `{"a":[null]}`. -/
def nullFirstRequest : IncomingMessage :=
  { StreamId := "unknown", StreamAltId := "", MessageType := "m",
    Payload := [("a", .arr [.null])] }

/-- The payload of scenario S3 as `encoding/json` decodes it into a
`map[string]interface{}`: a JSON number becomes a `float64` (42 has the bit
pattern `0x4045000000000000`), an object a map, an array a `[]interface{}`,
`null` the nil interface. -/
def s3Payload : List (String × Value) :=
  [("outer", .obj [("inner", .obj [("n", .float64 0x4045000000000000)])]),
   ("arr", .arr [.obj [("k", .str "v")]]),
   ("empty", .obj []),
   ("nil", .null)]

/-- The node that the key `outer` of scenario S3 contributes. -/
def s3Outer : SchemaNode :=
  .group "outer" none "REQUIRED" [.group "inner" none "REQUIRED" [.leaf "n" "DOUBLE" "REQUIRED"]]

/-- The node that the key `arr` of scenario S3 contributes. -/
def s3Arr : SchemaNode :=
  .group "arr" (some "LIST") "REQUIRED"
    [.group "element" none "REQUIRED" [.leaf "k" "BYTE_ARRAY" "REQUIRED"]]

/-- The text that `generateSchema` returns for the payload of scenario S3 and
the message type `m`. -/
def s3Text : String :=
  "\x7b\"Tag\": \"name=m, repetitiontype=REQUIRED\",\"Fields\": [" ++
  "\x7b\"Tag\": \"name=outer, repetitiontype=REQUIRED\", \"Fields\" : [" ++
  "\x7b\"Tag\": \"name=inner, repetitiontype=REQUIRED\", \"Fields\" : [" ++
  "\x7b\"Tag\": \"name=n, type=DOUBLE, repetitiontype=REQUIRED\"\x7d]\x7d]\x7d," ++
  "\x7b\"Tag\": \"name=arr, type=LIST, repetitiontype=REQUIRED\", \"Fields\" : [" ++
  "\x7b\"Tag\": \"name=element, repetitiontype=REQUIRED\", \"Fields\" : [" ++
  "\x7b\"Tag\": \"name=k, type=BYTE_ARRAY, repetitiontype=REQUIRED\"\x7d]\x7d]\x7d,"

/-- The instant 2024-01-05 03:04:05.000000006. -/
def jan5 : Instant :=
  { Year := 2024, Month := 1, Day := 5, Hour := 3, Minute := 4, Second := 5,
    Nanosecond := 6, ISOYear := 2024, ISOWeek := 1 }

/-- The instant 2024-03-07 10:20:01.000000023. -/
def mar7a : Instant :=
  { Year := 2024, Month := 3, Day := 7, Hour := 10, Minute := 20, Second := 1,
    Nanosecond := 23, ISOYear := 2024, ISOWeek := 10 }

/-- The instant 2024-03-07 10:20:12.000000003, eleven seconds after `mar7a`. -/
def mar7b : Instant :=
  { Year := 2024, Month := 3, Day := 7, Hour := 10, Minute := 20, Second := 12,
    Nanosecond := 3, ISOYear := 2024, ISOWeek := 10 }

/-- The instant 2024-05-15 12:00:00, in the second quarter. -/
def may15 : Instant :=
  { Year := 2024, Month := 5, Day := 15, Hour := 12, Minute := 0, Second := 0,
    Nanosecond := 0, ISOYear := 2024, ISOWeek := 20 }

/-- The five partition policies, keyed by id. -/
def partitionTable : List PartitionTime :=
  [⟨1, "Hourly"⟩, ⟨2, "Daily"⟩, ⟨3, "Weekly"⟩, ⟨4, "Monthly"⟩, ⟨5, "Quarterly"⟩]

/-- A config whose `partition_time_id` is that of the policy Quarterly. -/
def quarterlyConfig : Config :=
  { Config.zero with StreamId := ⟨"s1", true⟩, PartitionTimeId := ⟨5, true⟩ }

/-- A world in which every call succeeds: the database tables are empty, Dremio
answers every request with an empty object, and `json.Marshal` gives the text
`{"a":1}`. -/
def World.calm : World :=
  { now := may15
    marshal := fun _ => "\x7b\"a\":1\x7d"
    unmarshal := fun _ => .ok []
    localFsMountPath := "/mnt/datastore"
    dremioMountPath := "/mnt/datastore"
    sqlxOpen := none
    selectStreams := .ok []
    selectFileStoreTypes := .ok []
    selectPartitionTimes := .ok []
    selectCompressionTypes := .ok []
    mkdirAll := fun _ => none
    newLocalFileWriter := fun _ => none
    newJSONWriter := fun _ => none
    pwWrite := fun _ => none
    pwWriteStop := none
    newSession := fun _ => none
    osOpen := fun _ => none
    putObject := fun _ _ => none
    credentialsFromJSON := fun _ => none
    newClient := none
    gcsCopy := fun _ _ => none
    gcsClose := none
    dremioHost := "host.docker.internal"
    dremioPort := "9047"
    newRequest := fun _ => none
    dremioGet := fun _ => .ok []
    dremioPost := fun _ _ => .ok [] }

/-- A world in which the query of `streams` succeeds with one new config and
the query of `file_store_types` fails. -/
def halfLoadWorld : World :=
  { World.calm with
    selectStreams := .ok [selAltFirst]
    selectFileStoreTypes := .error "pq: the database system is shutting down" }

/-- The config of scenario S5: stream `s5`, file store AWS (id 1), empty
region. -/
def s5Config : Config :=
  { Config.zero with
    StreamId := ⟨"s5", true⟩, FileStoreTypeId := ⟨1, true⟩, BucketName := ⟨"bucket", true⟩,
    PartitionTimeId := ⟨2, true⟩ }

/-- A snapshot holding the config of scenario S5. -/
def s5Globals : Globals :=
  { configs := [s5Config], fileStoreTypes := [⟨1, "AWS"⟩, ⟨2, "GCP"⟩, ⟨3, "Local"⟩],
    partitionTimes := partitionTable, compressionTypes := [] }

/-- The message of scenario S5. -/
def s5Request : IncomingMessage :=
  { StreamId := "s5", StreamAltId := "", MessageType := "m",
    Payload := [("a", .float64 0x3ff0000000000000)] }

/-- A config of stream `s5` with a region and without a bucket name. -/
def noBucketConfig : Config :=
  { s5Config with Region := ⟨"eu-west-1", true⟩, BucketName := ⟨"", false⟩ }

/-- A source listing without sources: `{"data":[]}`. -/
def emptyListing : List (String × Value) := [("data", .arr [])]

/-- A world in which Dremio lists no source and the POST that creates a
source fails. -/
def postFailsWorld : World :=
  { World.calm with
    dremioGet := fun _ => .ok emptyListing
    dremioPost := fun _ _ => .error "unexpected end of JSON input" }

/-- A world in which Dremio lists no source and the GCP credentials of the
config do not decode. -/
def badCredentialsWorld : World :=
  { World.calm with
    dremioGet := fun _ => .ok emptyListing
    unmarshal := fun _ => .error "unexpected end of JSON input" }

/-- A source listing with the source `s1` under the id `abc`. -/
def s1Listing : List (String × Value) :=
  [("data", .arr [.obj [("id", .str "abc"), ("name", .str "s1")]])]

/-- A catalog response whose only child is the dataset `payload_t` of the
source `s1`. -/
def s1Catalog : List (String × Value) :=
  [("children", .arr [.obj [("path", .arr [.str "s1", .str "payload_t"]),
    ("type", .str "DATASET")]])]

/-- A world in which Dremio lists the source `s1` with the dataset
`payload_t`. -/
def registeredWorld : World :=
  { World.calm with
    dremioGet := fun endPoint => if endPoint = "source" then .ok s1Listing else .ok s1Catalog }

/-- A world in which Dremio lists no source and every request succeeds. -/
def freshWorld : World :=
  { World.calm with dremioGet := fun _ => .ok emptyListing }

/-- A world in which Dremio lists no source and the GCP credentials of the
config decode to the empty object `{}`. -/
def emptyCredentialsWorld : World :=
  { World.calm with
    dremioGet := fun _ => .ok emptyListing
    unmarshal := fun _ => .ok [] }

/-- The URL of the dataset of the message type `50%` in the source `s1`. -/
def percentURL : String :=
  "http://host.docker.internal:9047/api/v3/catalog/dremio%3A%2Fs1%2F50%"

/-- A world in which Dremio lists no source and `http.NewRequest` rejects the
URL of the dataset of the message type `50%`, which ends in an incomplete
percent escape. -/
def percentWorld : World :=
  { World.calm with
    dremioGet := fun _ => .ok emptyListing
    newRequest := fun url =>
      if url = percentURL then
        some ("parse \"" ++ percentURL ++ "\": invalid URL escape \"%\"")
      else none }

/-- The payload `{"x":null,"y":{"x":1}}`: the key `x` is bound to null at the
top level and to a number inside `y`. -/
def shadowPayload : List (String × Value) :=
  [("x", .null), ("y", .obj [("x", .float64 0x3ff0000000000000)])]

/-! ## Texts and trimming -/

theorem EndsOk.append_left (x : String) {s : String} (h : EndsOk s) : EndsOk (x ++ s) := by
  obtain ⟨l, c, hl, hc⟩ := h
  exact ⟨x.data ++ l, c, by simp [String.data_append, hl], hc⟩

theorem EndsOk.ne_empty {s : String} (h : EndsOk s) : s ≠ "" := by
  obtain ⟨l, c, hl, _⟩ := h
  intro h0
  rw [h0] at hl
  simp at hl

theorem TrimRight_of_endsOk {s : String} (h : EndsOk s) : TrimRight s "," = s := by
  obtain ⟨l, c, hl, hc⟩ := h
  apply String.ext
  simp [TrimRight, hl, List.dropWhile, hc]

theorem TrimRight_append_comma (s : String) : TrimRight (s ++ ",") "," = TrimRight s "," := by
  apply String.ext
  simp [TrimRight, List.dropWhile]

theorem TrimRight_commaEnd (rs : List String) (hrs : ∀ r ∈ rs, EndsOk r) :
    ∀ x : String, rs ≠ [] → TrimRight (x ++ commaEnd rs) "," = x ++ commaSep rs := by
  induction rs with
  | nil => intro x h; exact absurd rfl h
  | cons r rest ih =>
    intro x _
    have hr : EndsOk r := hrs r (List.mem_cons_self _ _)
    cases rest with
    | nil =>
      have : x ++ commaEnd [r] = (x ++ r) ++ "," := by
        simp [commaEnd, String.append_assoc]
      rw [this, TrimRight_append_comma, TrimRight_of_endsOk (hr.append_left x)]
      rfl
    | cons b rest' =>
      have h1 : x ++ commaEnd (r :: b :: rest') = (x ++ r ++ ",") ++ commaEnd (b :: rest') := by
        simp [commaEnd, String.append_assoc]
      rw [h1, ih (fun q hq => hrs q (List.mem_cons_of_mem _ hq)) _ (List.cons_ne_nil _ _)]
      simp [commaSep, String.append_assoc]

theorem render_endsOk (n : SchemaNode) : EndsOk n.render := by
  cases n with
  | leaf n t r =>
    refine ⟨("\x7b\"Tag\": \"name=" ++ n ++ ", type=" ++ t ++ ", repetitiontype=" ++ r ++ "\"").data,
      '}', ?_, by decide⟩
    simp [SchemaNode.render, String.data_append]
  | group n t r fs =>
    refine ⟨("\x7b\"Tag\": \"name=" ++ n ++
      (match t with
        | some t => ", type=" ++ t
        | none => "") ++
      ", repetitiontype=" ++ r ++ "\", \"Fields\" : [" ++
      commaSep (renderNodes fs) ++ "]").data, '}', ?_, by decide⟩
    simp [SchemaNode.render, String.data_append]

theorem renderNodes_endsOk (ns : List SchemaNode) : ∀ r ∈ renderNodes ns, EndsOk r := by
  induction ns with
  | nil => intro r hr; simp [renderNodes] at hr
  | cons n ns ih =>
    intro r hr
    simp only [renderNodes, List.mem_cons] at hr
    rcases hr with rfl | hr
    · exact render_endsOk n
    · exact ih r hr

theorem enterSchema_of_ne (mt : String) {js : String} (h : js ≠ "") : enterSchema mt js = js := by
  simp [enterSchema, h]

/-- Trimming the accumulated children of a group whose opening text ends
with a bracket gives the children separated by commas. -/
theorem TrimRight_children {x : String} (hx : EndsOk x) (ns : List SchemaNode) :
    TrimRight (x ++ commaEnd (renderNodes ns)) "," = x ++ commaSep (renderNodes ns) := by
  cases ns with
  | nil =>
    have : x ++ commaEnd (renderNodes []) = x := by
      apply String.ext; simp [renderNodes, commaEnd, String.data_append]
    rw [this, TrimRight_of_endsOk hx]
    apply String.ext; simp [renderNodes, commaSep, String.data_append]
  | cons n ns =>
    exact TrimRight_commaEnd _ (renderNodes_endsOk _) x (by simp [renderNodes])

theorem generateSchemaLoop_cons (key : String) (v : Value) (m : List (String × Value))
    (mt js : String) :
    generateSchemaLoop ((key, v) :: m) mt js =
      match generateSchemaStep key v mt js with
      | none => none
      | some o => generateSchemaLoop m mt o := rfl

theorem emitNode_ne_empty {js : String} (h : js ≠ "") (n : Option SchemaNode) :
    emitNode js n ≠ "" := by
  cases n with
  | none => exact h
  | some n =>
    intro h0
    have := congrArg String.data h0
    simp [emitNode, String.data_append] at this

/-- The text a scalar pair appends is the text of its leaf. -/
theorem leaf_text (js key t : String) :
    js ++ "\x7b\"Tag\": \"name=" ++ key ++ ", type=" ++ t ++ ", repetitiontype=REQUIRED\"\x7d," =
      emitNode js (some (.leaf key t "REQUIRED")) := by
  simp only [emitNode, SchemaNode.render, String.append_assoc]
  rfl

/-- Trimming right after a group has been closed removes the comma that
follows the closing brace. -/
theorem TrimRight_close (y : String) : TrimRight (y ++ "]\x7d,") "," = y ++ "]\x7d" := by
  have e : y ++ "]\x7d," = (y ++ "]\x7d") ++ "," := by
    simp only [String.append_assoc]
    rfl
  have hy : EndsOk (y ++ "]\x7d") := EndsOk.append_left y ⟨"]".data, '}', rfl, by decide⟩
  rw [e, TrimRight_append_comma, TrimRight_of_endsOk hy]

/-- The text a sequence with a scalar first element appends is the text of
its LIST group with the leaf `element`. -/
theorem list_leaf_text (js key t : String) :
    TrimRight (js ++ "\x7b\"Tag\": \"name=" ++ key ++
        ", type=LIST, repetitiontype=REQUIRED\", \"Fields\" : [" ++
        "\x7b\"Tag\": \"name=element, type=" ++ t ++ ", repetitiontype=REQUIRED\"\x7d,") "," ++
        "]\x7d," =
      emitNode js (some (.group key (some "LIST") "REQUIRED" [.leaf "element" t "REQUIRED"])) := by
  have e : js ++ "\x7b\"Tag\": \"name=" ++ key ++
        ", type=LIST, repetitiontype=REQUIRED\", \"Fields\" : [" ++
        "\x7b\"Tag\": \"name=element, type=" ++ t ++ ", repetitiontype=REQUIRED\"\x7d," =
      (js ++ "\x7b\"Tag\": \"name=" ++ key ++
        ", type=LIST, repetitiontype=REQUIRED\", \"Fields\" : [" ++
        "\x7b\"Tag\": \"name=element, type=" ++ t ++ ", repetitiontype=REQUIRED\"\x7d") ++ "," := by
    simp only [String.append_assoc]
    rfl
  have hx : EndsOk (js ++ "\x7b\"Tag\": \"name=" ++ key ++
        ", type=LIST, repetitiontype=REQUIRED\", \"Fields\" : [" ++
        "\x7b\"Tag\": \"name=element, type=" ++ t ++ ", repetitiontype=REQUIRED\"\x7d") :=
    EndsOk.append_left _ ⟨", repetitiontype=REQUIRED\"".data, '}', rfl, by decide⟩
  rw [e, TrimRight_append_comma, TrimRight_of_endsOk hx]
  simp only [emitNode, SchemaNode.render, renderNodes, commaSep, String.append_assoc]
  rfl

mutual
theorem generateSchemaStep_eq : ∀ (key : String) (value : Value) (mt js : String), js ≠ "" →
    generateSchemaStep key value mt js = (nodeOf key value).map (emitNode js)
  | _, .null, _, _, _ => rfl
  | key, .bool _, _, js, _ => congrArg some (leaf_text js key _)
  | key, .str _, _, js, _ => congrArg some (leaf_text js key _)
  | key, .int32 _, _, js, _ => congrArg some (leaf_text js key _)
  | key, .int64 _, _, js, _ => congrArg some (leaf_text js key _)
  | key, .float32 _, _, js, _ => congrArg some (leaf_text js key _)
  | key, .float64 _, _, js, _ => congrArg some (leaf_text js key _)
  | _, .obj [], _, _, _ => rfl
  | key, .obj (f :: m), mt, js, _ => by
    have hx : EndsOk (js ++ "\x7b\"Tag\": \"name=" ++ key ++
        ", repetitiontype=REQUIRED\", \"Fields\" : [") :=
      EndsOk.append_left _ ⟨", repetitiontype=REQUIRED\", \"Fields\" : ".data, '[', rfl, by decide⟩
    have ih := generateSchemaLoop_eq (f :: m) mt _ hx.ne_empty
    show (match generateSchemaLoop (f :: m) mt (enterSchema mt (js ++ "\x7b\"Tag\": \"name=" ++ key ++
        ", repetitiontype=REQUIRED\", \"Fields\" : [")) with
      | none => none
      | some o => some (TrimRight o "," ++ "]\x7d,")) = _
    rw [enterSchema_of_ne mt hx.ne_empty, ih]
    show _ = Option.map (emitNode js) (match nodesOf (f :: m) with
      | none => none
      | some fs => some (some (.group key none "REQUIRED" fs)))
    cases nodesOf (f :: m) with
    | none => rfl
    | some ns =>
      simp only [Option.map_some']
      rw [TrimRight_children hx]
      simp only [emitNode, SchemaNode.render, String.append_assoc]
      rfl
  | _, .arr [], _, _, _ => rfl
  | _, .arr (.null :: _), _, _, _ => rfl
  | key, .arr (.bool _ :: _), _, js, _ => congrArg some (list_leaf_text js key _)
  | key, .arr (.str _ :: _), _, js, _ => congrArg some (list_leaf_text js key _)
  | key, .arr (.int32 _ :: _), _, js, _ => congrArg some (list_leaf_text js key _)
  | key, .arr (.int64 _ :: _), _, js, _ => congrArg some (list_leaf_text js key _)
  | key, .arr (.float32 _ :: _), _, js, _ => congrArg some (list_leaf_text js key _)
  | key, .arr (.float64 _ :: _), _, js, _ => congrArg some (list_leaf_text js key _)
  | key, .arr (.arr _ :: _), _, js, _ => congrArg some (list_leaf_text js key _)
  | key, .arr (.obj m :: _), mt, js, _ => by
    have hx : EndsOk (js ++ "\x7b\"Tag\": \"name=" ++ key ++
        ", type=LIST, repetitiontype=REQUIRED\", \"Fields\" : [" ++
        "\x7b\"Tag\": \"name=element, repetitiontype=REQUIRED\", \"Fields\" : [") :=
      EndsOk.append_left _
        ⟨"\x7b\"Tag\": \"name=element, repetitiontype=REQUIRED\", \"Fields\" : ".data, '[', rfl,
          by decide⟩
    have ih := generateSchemaLoop_eq m mt _ hx.ne_empty
    show (match generateSchemaLoop m mt (enterSchema mt (js ++ "\x7b\"Tag\": \"name=" ++ key ++
        ", type=LIST, repetitiontype=REQUIRED\", \"Fields\" : [" ++
        "\x7b\"Tag\": \"name=element, repetitiontype=REQUIRED\", \"Fields\" : [")) with
      | none => none
      | some o => some (TrimRight (TrimRight o "," ++ "]\x7d,") "," ++ "]\x7d,")) = _
    rw [enterSchema_of_ne mt hx.ne_empty, ih]
    show _ = Option.map (emitNode js) (match nodesOf m with
      | none => none
      | some fs =>
        some (some (.group key (some "LIST") "REQUIRED" [.group "element" none "REQUIRED" fs])))
    cases nodesOf m with
    | none => rfl
    | some ns =>
      simp only [Option.map_some']
      rw [TrimRight_children hx]
      rw [TrimRight_close]
      simp only [emitNode, SchemaNode.render, renderNodes, commaSep, String.append_assoc]
      rfl
theorem generateSchemaLoop_eq : ∀ (fs : List (String × Value)) (mt js : String), js ≠ "" →
    generateSchemaLoop fs mt js =
      (nodesOf fs).map (fun ns => js ++ commaEnd (renderNodes ns))
  | [], _, js, _ => by
    show some js = some (js ++ "")
    congr 1
    apply String.ext; simp [String.data_append]
  | (key, value) :: rest, mt, js, h => by
    rw [generateSchemaLoop_cons, generateSchemaStep_eq key value mt js h]
    show _ = Option.map _ (match nodeOf key value, nodesOf rest with
      | some (some n), some ns => some (n :: ns)
      | some none, some ns => some ns
      | _, _ => none)
    cases hn : nodeOf key value with
    | none => rfl
    | some n =>
      simp only [Option.map_some']
      rw [generateSchemaLoop_eq rest mt _ (emitNode_ne_empty h n)]
      cases nodesOf rest with
      | none => cases n <;> rfl
      | some ns =>
        cases n with
        | none => rfl
        | some n =>
          simp only [Option.map_some', emitNode, renderNodes, commaEnd, String.append_assoc]
end

/-- The text that `generateSchema` returns on the empty schema text is the
header followed by the texts of the nodes of the payload, each followed by a
comma; it panics exactly when the tree construction fails. -/
theorem generateSchema_eq (payload : List (String × Value)) (mt : String) :
    generateSchema payload mt "" =
      (nodesOf payload).map (fun ns => schemaHeader mt ++ commaEnd (renderNodes ns)) := by
  have hx : EndsOk (schemaHeader mt) := EndsOk.append_left _ ⟨"\"Fields\": ".data, '[', rfl, by decide⟩
  unfold generateSchema
  have e : enterSchema mt "" = schemaHeader mt := by simp [enterSchema]
  rw [e, generateSchemaLoop_eq payload mt _ hx.ne_empty]

/-- The schema text of `writeParquet`, the trimmed text of `generateSchema`
closed by `]}`, is the text of the schema tree. -/
theorem schema_text_eq (payload : List (String × Value)) (mt : String) :
    (generateSchema payload mt "").map (fun js => TrimRight js "," ++ "]\x7d") =
      (nodesOf payload).map (renderRoot mt) := by
  have hx : EndsOk (schemaHeader mt) := EndsOk.append_left _ ⟨"\"Fields\": ".data, '[', rfl, by decide⟩
  rw [generateSchema_eq]
  cases nodesOf payload with
  | none => rfl
  | some ns =>
    simp only [Option.map_some']
    rw [TrimRight_children hx]
    rfl

/-- Whether `generateSchema` completes does not depend on the message type. -/
theorem generateSchema_isSome (payload : List (String × Value)) (mt : String) :
    (generateSchema payload mt "").isSome = (nodesOf payload).isSome := by
  rw [generateSchema_eq]
  cases nodesOf payload <;> rfl

/-! ## Message-type precedence and config selection -/

/-- A writer call produced by the loop over `fileStoreTypes` carries the
arguments the loop was given. -/
theorem dispatchFileStore_returnWriter (fileStoreTypes : List FileStoreType)
    (messageType schema : String) (payload : List (String × Value)) (config : Config)
    (call : WriterCall)
    (h : dispatchFileStore fileStoreTypes messageType schema payload config = .returnWriter call) :
    call.messageType = messageType ∧ call.schema = schema ∧ call.payload = payload ∧
      call.configRecord = config := by
  induction fileStoreTypes with
  | nil => simp [dispatchFileStore] at h
  | cons r rest ih =>
    unfold dispatchFileStore at h
    split_ifs at h
    all_goals first
      | exact ih h
      | (injection h with h; subst h; exact ⟨rfl, rfl, rfl, rfl⟩)

/-- C1. The effective message type that `writeParquet` computes is
`payload["type"]` when that key is present with a string value (the empty
string included), otherwise the `message_type` of the message when non-empty,
otherwise the `message_type` of the config when non-empty, otherwise
`"rtdl_default"`; and this is the message type every writer call of
`writeParquet` carries. -/
theorem effectiveMessageType_precedence (request : IncomingMessage) (config : Config) :
    effectiveMessageType request config =
      (match request.Payload.lookup "type" with
        | some (.str s) => s
        | _ =>
          if request.MessageType ≠ "" then request.MessageType
          else if config.MessageType.Str ≠ "" then config.MessageType.Str
          else "rtdl_default") ∧
    ∀ (g : Globals) (call : WriterCall), writeParquet g request = .returnWriter call →
      call.messageType = effectiveMessageType request (matchingConfig g.configs request) := by
  refine ⟨?_, ?_⟩
  · unfold effectiveMessageType
    cases hl : request.Payload.lookup "type" with
    | none => by_cases h1 : request.MessageType = "" <;> simp [h1]
    | some v => cases v <;> by_cases h1 : request.MessageType = "" <;> simp [h1]
  · intro g call h
    unfold writeParquet at h
    cases hs : generateSchema request.Payload
        (effectiveMessageType request (matchingConfig g.configs request)) "" with
    | none => simp [hs] at h
    | some js =>
      simp only [hs] at h
      exact (dispatchFileStore_returnWriter _ _ _ _ _ _ h).1

/-- The precedence at the inputs of scenario S2: the payload carries
`"type":"payload_t"`, the message `message_type = "msg_t"` and the config
`message_type = "cfg_t"`; `writeParquet` calls the local writer with
`payload_t`. -/
theorem effectiveMessageType_precedence_witness :
    effectiveMessageType s2Request s2Config = "payload_t" ∧
    writeParquet s2Globals s2Request = .returnWriter s2Call ∧
    s2Call.messageType = effectiveMessageType s2Request (matchingConfig s2Globals.configs s2Request) :=
  ⟨((effectiveMessageType_precedence s2Request s2Config).1).trans rfl, rfl,
   (effectiveMessageType_precedence s2Request s2Config).2 s2Globals s2Call rfl⟩

/-- With a non-empty `stream_alt_id` the loop selects the first config with
that alt id. -/
theorem matchingConfig_altId (configs : List Config) (request : IncomingMessage)
    (h : request.StreamAltId ≠ "") :
    matchingConfig configs request =
      (configs.find? (fun c => decide (c.StreamAltId.Str = request.StreamAltId))).getD
        Config.zero := by
  induction configs with
  | nil => rfl
  | cons c rest ih =>
    by_cases hc : c.StreamAltId.Str = request.StreamAltId
    · simp [matchingConfig, h, hc]
    · simp [matchingConfig, h, hc, ih]

/-- With an empty `stream_alt_id` and a non-empty `stream_id` the loop selects
the first config with that stream id. -/
theorem matchingConfig_streamId (configs : List Config) (request : IncomingMessage)
    (h1 : request.StreamAltId = "") (h2 : request.StreamId ≠ "") :
    matchingConfig configs request =
      (configs.find? (fun c => decide (c.StreamId.Str = request.StreamId))).getD
        Config.zero := by
  induction configs with
  | nil => rfl
  | cons c rest ih =>
    by_cases hc : c.StreamId.Str = request.StreamId
    · simp [matchingConfig, h1, h2, hc]
    · simp [matchingConfig, h1, h2, hc, ih]

/-- With both identifiers empty the loop selects nothing. -/
theorem matchingConfig_noId (configs : List Config) (request : IncomingMessage)
    (h1 : request.StreamAltId = "") (h2 : request.StreamId = "") :
    matchingConfig configs request = Config.zero := by
  induction configs with
  | nil => rfl
  | cons c rest ih => simp [matchingConfig, h1, h2, ih]

/-- C2. The config that `writeParquet` selects: with a non-empty
`stream_alt_id` it is the first config of the snapshot whose `stream_alt_id`
equals it, whatever the `stream_id` of the message and of the configs (the
zero config when there is none); with an empty `stream_alt_id` and a non-empty
`stream_id` it is the first config whose `stream_id` equals it; with both
empty no config is selected, `matchingConfig` keeps its zero value. -/
theorem matchingConfig_selection (configs : List Config) (request : IncomingMessage) :
    (request.StreamAltId ≠ "" →
      matchingConfig configs request =
        (configs.find? (fun c => decide (c.StreamAltId.Str = request.StreamAltId))).getD
          Config.zero) ∧
    (request.StreamAltId = "" → request.StreamId ≠ "" →
      matchingConfig configs request =
        (configs.find? (fun c => decide (c.StreamId.Str = request.StreamId))).getD
          Config.zero) ∧
    (request.StreamAltId = "" → request.StreamId = "" →
      matchingConfig configs request = Config.zero) :=
  ⟨matchingConfig_altId configs request, matchingConfig_streamId configs request,
    matchingConfig_noId configs request⟩

/-- The selection at a snapshot of three configs: a message with
`stream_alt_id = "ext"` and `stream_id = "s1"` selects the first config with
that alt id and not the config of stream `s1`; a message with only
`stream_id = "s1"` selects the config of stream `s1`; a message with neither
selects none. -/
theorem matchingConfig_selection_witness :
    matchingConfig selConfigs { selRequest with StreamAltId := "ext" } = selAltFirst ∧
    matchingConfig selConfigs selRequest = s2Config ∧
    matchingConfig selConfigs { selRequest with StreamId := "" } = Config.zero :=
  ⟨((matchingConfig_selection selConfigs { selRequest with StreamAltId := "ext" }).1
      (by decide)).trans rfl,
   ((matchingConfig_selection selConfigs selRequest).2.1 rfl (by decide)).trans rfl,
   (matchingConfig_selection selConfigs { selRequest with StreamId := "" }).2.2 rfl rfl⟩

/-! ## Unmatched messages -/

/-- A message whose identifiers match no config leaves `matchingConfig` at
its zero value. -/
theorem matchingConfig_of_unmatched (configs : List Config) (request : IncomingMessage)
    (hu : Unmatched configs request) : matchingConfig configs request = Config.zero := by
  rcases hu with ⟨ha, hall⟩ | ⟨ha, hs, hall⟩ | ⟨ha, hs⟩
  · rw [matchingConfig_altId configs request ha]
    have : configs.find? (fun c => decide (c.StreamAltId.Str = request.StreamAltId)) = none := by
      rw [List.find?_eq_none]
      intro c hc
      simpa using hall c hc
    rw [this]; rfl
  · rw [matchingConfig_streamId configs request ha hs]
    have : configs.find? (fun c => decide (c.StreamId.Str = request.StreamId)) = none := by
      rw [List.find?_eq_none]
      intro c hc
      simpa using hall c hc
    rw [this]; rfl
  · exact matchingConfig_noId configs request ha hs

/-- The loop over `fileStoreTypes` calls no writer when no row with the id of
the config carries one of the three names. -/
theorem dispatchFileStore_returnNil (fileStoreTypes : List FileStoreType)
    (messageType schema : String) (payload : List (String × Value)) (config : Config)
    (h : ∀ r ∈ fileStoreTypes, r.FileStoreTypeId = config.FileStoreTypeId.Int64 →
      r.FileStoreTypeName ≠ "Local" ∧ r.FileStoreTypeName ≠ "AWS" ∧
        r.FileStoreTypeName ≠ "GCP") :
    dispatchFileStore fileStoreTypes messageType schema payload config = .returnNil := by
  induction fileStoreTypes with
  | nil => rfl
  | cons r rest ih =>
    have ih := ih (fun q hq => h q (List.mem_cons_of_mem _ hq))
    unfold dispatchFileStore
    by_cases hid : r.FileStoreTypeId = config.FileStoreTypeId.Int64
    · obtain ⟨h1, h2, h3⟩ := h r (List.mem_cons_self _ _) hid
      simp [hid, h1, h2, h3, ih]
    · simp [hid, ih]

/-- C3, as stated, fails. Under a table of file store types with the row
`(0, "Local")` the message of an unknown stream is matched by no config and
`writeParquet` calls `WriteLocalParquet` with the zero config; and a message
of an unknown stream whose payload is `{"a":[null]}` makes `writeParquet`
panic instead of returning. -/
theorem writeParquet_unmatched_counterexample :
    (Unmatched zeroIdGlobals.configs s6Request ∧
      writeParquet zeroIdGlobals s6Request = .returnWriter zeroIdCall ∧
      writeParquet zeroIdGlobals s6Request ≠ .returnNil) ∧
    (Unmatched s2Globals.configs nullFirstRequest ∧
      writeParquet s2Globals nullFirstRequest = .panic ∧
      writeParquet s2Globals nullFirstRequest ≠ .returnNil) := by
  refine ⟨⟨by decide, rfl, ?_⟩, ⟨by decide, rfl, ?_⟩⟩
  · intro h
    have e : writeParquet zeroIdGlobals s6Request = .returnWriter zeroIdCall := rfl
    rw [e] at h
    cases h
  · intro h
    have e : writeParquet s2Globals nullFirstRequest = .panic := rfl
    rw [e] at h
    cases h

/-- C3, amended. For every snapshot in which no row of the table of file
store types with id 0 is named `Local`, `AWS` or `GCP`, and every message
whose identifiers match no config and on whose payload `generateSchema`
completes, `writeParquet` calls no writer and returns nil. -/
theorem writeParquet_unmatched (g : Globals) (request : IncomingMessage)
    (hu : Unmatched g.configs request)
    (h0 : ∀ r ∈ g.fileStoreTypes, r.FileStoreTypeId = 0 →
      r.FileStoreTypeName ≠ "Local" ∧ r.FileStoreTypeName ≠ "AWS" ∧
        r.FileStoreTypeName ≠ "GCP")
    (hs : ∃ mt js, generateSchema request.Payload mt "" = some js) :
    writeParquet g request = .returnNil := by
  obtain ⟨mt, js, hjs⟩ := hs
  have hsome : (generateSchema request.Payload
      (effectiveMessageType request Config.zero) "").isSome = true := by
    rw [generateSchema_isSome, ← generateSchema_isSome request.Payload mt, hjs]
    rfl
  unfold writeParquet
  rw [matchingConfig_of_unmatched g.configs request hu]
  cases hg : generateSchema request.Payload (effectiveMessageType request Config.zero) "" with
  | none => rw [hg] at hsome; cases hsome
  | some js' =>
    simp only [hg]
    exact dispatchFileStore_returnNil g.fileStoreTypes _ _ _ Config.zero h0

/-- The amended C3 at scenario S6: under the snapshot `s2Globals`, whose only
file store type is `(3, "Local")`, the message of the unknown stream is
dropped. -/
theorem writeParquet_unmatched_witness :
    Unmatched s2Globals.configs s6Request ∧ writeParquet s2Globals s6Request = .returnNil :=
  ⟨by decide,
   writeParquet_unmatched s2Globals s6Request (by decide) (by decide)
     ⟨"m", _, rfl⟩⟩

/-! ## Children of a mapping -/

theorem nodeOf_of_isSkipped (key : String) (v : Value) (h : isSkipped v = true) :
    nodeOf key v = some none := by
  cases v with
  | null => rfl
  | obj m => cases m with
    | nil => rfl
    | cons f m => simp [isSkipped] at h
  | arr xs => cases xs with
    | nil => rfl
    | cons x xs => simp [isSkipped] at h
  | _ => simp [isSkipped] at h

/-- The group that a non-empty mapping bound to a key contributes has the
nodes of that mapping as its children. -/
theorem nodeOf_obj (key : String) (f : String × Value) (m : List (String × Value)) :
    nodeOf key (.obj (f :: m)) =
      (nodesOf (f :: m)).map (fun fs => some (.group key none "REQUIRED" fs)) := by
  show (match nodesOf (f :: m) with
    | none => none
    | some fs => some (some (SchemaNode.group key none "REQUIRED" fs))) = _
  cases nodesOf (f :: m) <;> rfl

/-- The LIST group that a sequence starting with a mapping contributes has
the single child `element`, a group over the nodes of that mapping. -/
theorem nodeOf_arr_obj (key : String) (m : List (String × Value)) (rest : List Value) :
    nodeOf key (.arr (.obj m :: rest)) =
      (nodesOf m).map (fun fs =>
        some (.group key (some "LIST") "REQUIRED" [.group "element" none "REQUIRED" fs])) := by
  show (match nodesOf m with
    | none => none
    | some fs => some (some (SchemaNode.group key (some "LIST") "REQUIRED"
        [SchemaNode.group "element" none "REQUIRED" fs]))) = _
  cases nodesOf m <;> rfl

theorem nodeOf_name (key : String) (v : Value) (n : SchemaNode)
    (h : nodeOf key v = some (some n)) : n.name = key ∧ isSkipped v = false := by
  cases v with
  | null => cases h
  | obj m =>
    cases m with
    | nil => cases h
    | cons f m =>
      rw [nodeOf_obj] at h
      cases hn : nodesOf (f :: m) with
      | none => rw [hn] at h; cases h
      | some fs =>
        rw [hn] at h
        injection h with h; injection h with h
        subst h
        exact ⟨rfl, rfl⟩
  | arr xs =>
    cases xs with
    | nil => cases h
    | cons x xs =>
      cases x with
      | null => cases h
      | obj m =>
        rw [nodeOf_arr_obj] at h
        cases hn : nodesOf m with
        | none => rw [hn] at h; cases h
        | some fs =>
          rw [hn] at h
          injection h with h; injection h with h
          subst h
          exact ⟨rfl, rfl⟩
      | _ =>
        injection h with h; injection h with h
        subst h
        exact ⟨rfl, rfl⟩
  | _ =>
    injection h with h; injection h with h
    subst h
    exact ⟨rfl, rfl⟩

theorem nodesOf_cons (key : String) (value : Value) (rest : List (String × Value)) :
    nodesOf ((key, value) :: rest) =
      match nodeOf key value, nodesOf rest with
      | some (some n), some ns => some (n :: ns)
      | some none, some ns => some ns
      | _, _ => none := rfl

/-- When the loop completes on a mapping, it completes on every pair of it. -/
theorem nodeOf_isSome_of_mem {m : List (String × Value)} {children : List SchemaNode}
    (h : nodesOf m = some children) : ∀ kv ∈ m, (nodeOf kv.1 kv.2).isSome = true := by
  induction m generalizing children with
  | nil => intro kv hkv; cases hkv
  | cons p rest ih =>
    obtain ⟨key, value⟩ := p
    rw [nodesOf_cons] at h
    intro kv hkv
    cases hn : nodeOf key value with
    | none => rw [hn] at h; cases h
    | some o =>
      cases hr : nodesOf rest with
      | none => rw [hn, hr] at h; cases o <;> cases h
      | some ns =>
        rcases List.mem_cons.1 hkv with rfl | hmem
        · simp [hn]
        · exact ih hr kv hmem

/-- The nodes of a mapping correspond, one to one and in order, to the pairs
of the mapping whose value is not skipped. -/
theorem nodesOf_forall₂ {m : List (String × Value)} {children : List SchemaNode}
    (h : nodesOf m = some children) :
    List.Forall₂ (fun n kv => n.name = kv.1 ∧ nodeOf kv.1 kv.2 = some (some n)) children
      (m.filter (fun kv => !isSkipped kv.2)) := by
  induction m generalizing children with
  | nil =>
    injection h with h
    subst h
    exact List.Forall₂.nil
  | cons p rest ih =>
    obtain ⟨key, value⟩ := p
    rw [nodesOf_cons] at h
    cases hn : nodeOf key value with
    | none => rw [hn] at h; cases h
    | some o =>
      cases hr : nodesOf rest with
      | none => rw [hn, hr] at h; cases o <;> cases h
      | some ns =>
        rw [hn, hr] at h
        cases o with
        | none =>
          injection h with h
          subst h
          have hsk : isSkipped value = true := by
            by_contra hc
            have hc' : isSkipped value = false := by simpa using hc
            cases value with
            | null => simp [isSkipped] at hc'
            | obj m => cases m with
              | nil => simp [isSkipped] at hc'
              | cons f m =>
                rw [nodeOf_obj] at hn
                cases hm : nodesOf (f :: m) <;> rw [hm] at hn <;> cases hn
            | arr xs => cases xs with
              | nil => simp [isSkipped] at hc'
              | cons x xs =>
                cases x with
                | null => cases hn
                | obj m =>
                  rw [nodeOf_arr_obj] at hn
                  cases hm : nodesOf m <;> rw [hm] at hn <;> cases hn
                | _ => cases hn
            | _ => cases hn
          simp only [List.filter, hsk, Bool.not_true]
          exact ih hr
        | some n =>
          injection h with h
          subst h
          obtain ⟨hname, hsk⟩ := nodeOf_name key value n hn
          simp only [List.filter, hsk, Bool.not_false]
          exact List.Forall₂.cons ⟨hname, hn⟩ (ih hr)

/-- When `generateSchema` completes on the payload, it completes on every
mapping it descends into. -/
theorem nodesOf_isSome_of_descends {payload m : List (String × Value)}
    (hd : Descends payload m) (hp : (nodesOf payload).isSome = true) :
    (nodesOf m).isSome = true := by
  induction hd with
  | top => exact hp
  | @nested m key f m' _ hmem ih =>
    obtain ⟨children, hc⟩ := Option.isSome_iff_exists.1 ih
    have := nodeOf_isSome_of_mem hc _ hmem
    rw [nodeOf_obj] at this
    cases hn : nodesOf (f :: m') with
    | none => rw [hn] at this; cases this
    | some _ => rfl
  | @element m key m' rest _ hmem ih =>
    obtain ⟨children, hc⟩ := Option.isSome_iff_exists.1 ih
    have := nodeOf_isSome_of_mem hc _ hmem
    rw [nodeOf_arr_obj] at this
    cases hn : nodesOf m' with
    | none => rw [hn] at this; cases this
    | some _ => rfl

theorem forall₂_exists_of_mem {α β : Type} {R : α → β → Prop} {l₁ : List α} {l₂ : List β}
    (h : List.Forall₂ R l₁ l₂) : ∀ a ∈ l₁, ∃ b ∈ l₂, R a b := by
  induction h with
  | nil => intro a ha; cases ha
  | cons hab _ ih =>
    intro a ha
    rcases List.mem_cons.1 ha with rfl | hmem
    · exact ⟨_, List.mem_cons_self _ _, hab⟩
    · obtain ⟨b, hb, hr⟩ := ih a hmem
      exact ⟨b, List.mem_cons_of_mem _ hb, hr⟩

theorem forall₂_map_eq {α β γ : Type} {R : α → β → Prop} {f : α → γ} {g : β → γ}
    (hR : ∀ a b, R a b → f a = g b) {l₁ : List α} {l₂ : List β} (h : List.Forall₂ R l₁ l₂) :
    l₁.map f = l₂.map g := by
  induction h with
  | nil => rfl
  | cons hab _ ih => simp [hR _ _ hab, ih]

theorem origin_of_leaf {payload m : List (String × Value)} {key : String} {v : Value}
    {a b c : String} (h : nodeOf key v = some (some (.leaf a b c))) (hd : Descends payload m)
    (hmem : (key, v) ∈ m) : ∀ x ∈ (SchemaNode.leaf a b c).nodes, Origin payload x := by
  intro x hx
  simp only [SchemaNode.nodes, List.mem_singleton] at hx
  subst hx
  exact Or.inl ⟨m, key, v, hd, hmem, (nodeOf_name _ _ _ h).2, h⟩

theorem origin_of_list_leaf {payload m : List (String × Value)} {key : String} {first : Value}
    {rest : List Value} {t : String}
    (h : nodeOf key (.arr (first :: rest)) =
      some (some (.group key (some "LIST") "REQUIRED" [.leaf "element" t "REQUIRED"])))
    (hd : Descends payload m) (hmem : (key, Value.arr (first :: rest)) ∈ m) :
    ∀ x ∈ (SchemaNode.group key (some "LIST") "REQUIRED"
      [.leaf "element" t "REQUIRED"]).nodes, Origin payload x := by
  intro x hx
  simp only [SchemaNode.nodes, nodesBelow, List.append_nil, List.mem_cons, List.mem_singleton,
    List.not_mem_nil, or_false] at hx
  rcases hx with rfl | rfl
  · exact Or.inl ⟨m, key, _, hd, hmem, rfl, h⟩
  · exact Or.inr ⟨rfl, m, key, first, rest, hd, hmem, h⟩

mutual
theorem origin_nodeOf (payload : List (String × Value)) : ∀ (v : Value) (key : String)
    (n : SchemaNode), nodeOf key v = some (some n) → ∀ m, Descends payload m → (key, v) ∈ m →
    ∀ x ∈ n.nodes, Origin payload x
  | .obj (f :: m'), key, n, h, m, hd, hmem, x, hx => by
    have h0 := h
    rw [nodeOf_obj] at h
    cases hn : nodesOf (f :: m') with
    | none => rw [hn] at h; cases h
    | some fs =>
      rw [hn] at h
      injection h with h; injection h with h; subst h
      simp only [SchemaNode.nodes, List.mem_cons] at hx
      rcases hx with rfl | hx
      · exact Or.inl ⟨m, key, _, hd, hmem, rfl, h0⟩
      · exact origin_nodesOf payload (f :: m') fs hn (f :: m') (Descends.nested hd hmem)
          (fun _ hkv => hkv) x hx
  | .arr (.obj m' :: rest), key, n, h, m, hd, hmem, x, hx => by
    have h0 := h
    rw [nodeOf_arr_obj] at h
    cases hn : nodesOf m' with
    | none => rw [hn] at h; cases h
    | some fs =>
      rw [hn] at h
      injection h with h; injection h with h; subst h
      simp only [SchemaNode.nodes, nodesBelow, List.append_nil, List.mem_cons] at hx
      rcases hx with rfl | rfl | hx
      · exact Or.inl ⟨m, key, _, hd, hmem, rfl, h0⟩
      · exact Or.inr ⟨rfl, m, key, _, rest, hd, hmem, h0⟩
      · exact origin_nodesOf payload m' fs hn m' (Descends.element hd hmem)
          (fun _ hkv => hkv) x hx
  | .null, _, _, h, _, _, _, _, _ => by cases h
  | .obj [], _, _, h, _, _, _, _, _ => by cases h
  | .arr [], _, _, h, _, _, _, _, _ => by cases h
  | .arr (.null :: _), _, _, h, _, _, _, _, _ => by cases h
  | .bool _, _, _, h, _, hd, hmem, x, hx => by
    have h0 := h
    injection h with h; injection h with h; subst h
    exact origin_of_leaf h0 hd hmem x hx
  | .str _, _, _, h, _, hd, hmem, x, hx => by
    have h0 := h
    injection h with h; injection h with h; subst h
    exact origin_of_leaf h0 hd hmem x hx
  | .int32 _, _, _, h, _, hd, hmem, x, hx => by
    have h0 := h
    injection h with h; injection h with h; subst h
    exact origin_of_leaf h0 hd hmem x hx
  | .int64 _, _, _, h, _, hd, hmem, x, hx => by
    have h0 := h
    injection h with h; injection h with h; subst h
    exact origin_of_leaf h0 hd hmem x hx
  | .float32 _, _, _, h, _, hd, hmem, x, hx => by
    have h0 := h
    injection h with h; injection h with h; subst h
    exact origin_of_leaf h0 hd hmem x hx
  | .float64 _, _, _, h, _, hd, hmem, x, hx => by
    have h0 := h
    injection h with h; injection h with h; subst h
    exact origin_of_leaf h0 hd hmem x hx
  | .arr (.bool _ :: _), _, _, h, _, hd, hmem, x, hx => by
    have h0 := h
    injection h with h; injection h with h; subst h
    exact origin_of_list_leaf h0 hd hmem x hx
  | .arr (.str _ :: _), _, _, h, _, hd, hmem, x, hx => by
    have h0 := h
    injection h with h; injection h with h; subst h
    exact origin_of_list_leaf h0 hd hmem x hx
  | .arr (.int32 _ :: _), _, _, h, _, hd, hmem, x, hx => by
    have h0 := h
    injection h with h; injection h with h; subst h
    exact origin_of_list_leaf h0 hd hmem x hx
  | .arr (.int64 _ :: _), _, _, h, _, hd, hmem, x, hx => by
    have h0 := h
    injection h with h; injection h with h; subst h
    exact origin_of_list_leaf h0 hd hmem x hx
  | .arr (.float32 _ :: _), _, _, h, _, hd, hmem, x, hx => by
    have h0 := h
    injection h with h; injection h with h; subst h
    exact origin_of_list_leaf h0 hd hmem x hx
  | .arr (.float64 _ :: _), _, _, h, _, hd, hmem, x, hx => by
    have h0 := h
    injection h with h; injection h with h; subst h
    exact origin_of_list_leaf h0 hd hmem x hx
  | .arr (.arr _ :: _), _, _, h, _, hd, hmem, x, hx => by
    have h0 := h
    injection h with h; injection h with h; subst h
    exact origin_of_list_leaf h0 hd hmem x hx
theorem origin_nodesOf (payload : List (String × Value)) : ∀ (l : List (String × Value))
    (ns : List SchemaNode), nodesOf l = some ns → ∀ m, Descends payload m →
    (∀ kv ∈ l, kv ∈ m) → ∀ x ∈ nodesBelow ns, Origin payload x
  | [], ns, h, _, _, _, x, hx => by
    injection h with h; subst h
    simp [nodesBelow] at hx
  | (key, value) :: rest, ns, h, m, hd, hsub, x, hx => by
    rw [nodesOf_cons] at h
    cases hn : nodeOf key value with
    | none => rw [hn] at h; cases h
    | some o =>
      cases hr : nodesOf rest with
      | none => rw [hn, hr] at h; cases o <;> cases h
      | some ns₁ =>
        rw [hn, hr] at h
        have hsub' : ∀ kv ∈ rest, kv ∈ m := fun kv hkv => hsub kv (List.mem_cons_of_mem _ hkv)
        cases o with
        | none =>
          injection h with h; subst h
          exact origin_nodesOf payload rest _ hr m hd hsub' x hx
        | some n =>
          injection h with h; subst h
          simp only [nodesBelow, List.mem_append] at hx
          rcases hx with hx | hx
          · exact origin_nodeOf payload value key n hn m hd (hsub _ (List.mem_cons_self _ _)) x hx
          · exact origin_nodesOf payload rest _ hr m hd hsub' x hx
end

set_option maxRecDepth 100000 in
/-- C4, as stated, fails in its last clause. On the payload
`{"x":null,"y":{"x":1}}` `generateSchema` completes, the key `x` of the
payload is bound to null, and the inferred schema has a node named `x`: the
leaf of the key `x` of the nested mapping `y`. -/
theorem generateSchema_children_counterexample :
    generateSchema shadowPayload "m" "" =
      some ("\x7b\"Tag\": \"name=m, repetitiontype=REQUIRED\",\"Fields\": [" ++
        "\x7b\"Tag\": \"name=y, repetitiontype=REQUIRED\", \"Fields\" : [" ++
        "\x7b\"Tag\": \"name=x, type=DOUBLE, repetitiontype=REQUIRED\"\x7d]\x7d,") ∧
    Descends shadowPayload shadowPayload ∧
    ("x", Value.null) ∈ shadowPayload ∧
    isSkipped Value.null = true ∧
    nodesOf shadowPayload =
      some [.group "y" none "REQUIRED" [.leaf "x" "DOUBLE" "REQUIRED"]] ∧
    SchemaNode.leaf "x" "DOUBLE" "REQUIRED" ∈
      nodesBelow [.group "y" none "REQUIRED" [.leaf "x" "DOUBLE" "REQUIRED"]] ∧
    (SchemaNode.leaf "x" "DOUBLE" "REQUIRED").name = "x" := by
  refine ⟨rfl, Descends.top, ?_, rfl, rfl, ?_, rfl⟩
  · simp [shadowPayload]
  · simp [nodesBelow, SchemaNode.nodes]

/-- C4, amended. When `generateSchema` completes on a payload, its text
(closed by `writeParquet`) is the text of the schema tree; every node below
the root is the node of a pair with a non-skipped value in a mapping that
`generateSchema` descends into, or the child `element` of the LIST group of
such a pair; and for every mapping it descends into (the payload, a nested
non-empty mapping, a mapping that is the first element of a sequence) the
child nodes built for that mapping correspond one to one and in iteration
order to exactly the pairs whose value is not null, not an empty mapping and
not an empty sequence, each child carrying the key of its pair as name. A
pair whose value is null, `{}` or `[]` contributes no node, and its key
names no child node of its own mapping (the keys of a Go map being
distinct); a node elsewhere in the schema may carry the same name. -/
theorem generateSchema_children (payload : List (String × Value)) (mt js : String)
    (h : generateSchema payload mt "" = some js) :
    ∃ nodes, nodesOf payload = some nodes ∧
      TrimRight js "," ++ "]\x7d" = renderRoot mt nodes ∧
      (∀ x ∈ nodesBelow nodes, Origin payload x) ∧
      ∀ m, Descends payload m →
        ∃ children, nodesOf m = some children ∧
          List.Forall₂ (fun n kv => n.name = kv.1 ∧ nodeOf kv.1 kv.2 = some (some n)) children
            (m.filter (fun kv => !isSkipped kv.2)) ∧
          children.map SchemaNode.name = (m.filter (fun kv => !isSkipped kv.2)).map Prod.fst ∧
          (∀ kv ∈ m, isSkipped kv.2 = true → nodeOf kv.1 kv.2 = some none) ∧
          ((m.map Prod.fst).Nodup → ∀ kv ∈ m, isSkipped kv.2 = true →
            ∀ n ∈ children, n.name ≠ kv.1) := by
  have hsome : (nodesOf payload).isSome = true := by
    rw [← generateSchema_isSome payload mt, h]; rfl
  obtain ⟨nodes, hn⟩ := Option.isSome_iff_exists.1 hsome
  refine ⟨nodes, hn, ?_, ?_, ?_⟩
  · have := schema_text_eq payload mt
    rw [h, hn] at this
    simpa using this
  · exact origin_nodesOf payload payload nodes hn payload Descends.top (fun _ hkv => hkv)
  · intro m hd
    obtain ⟨children, hc⟩ := Option.isSome_iff_exists.1 (nodesOf_isSome_of_descends hd hsome)
    have hf := nodesOf_forall₂ hc
    refine ⟨children, hc, hf, forall₂_map_eq (fun _ _ hab => hab.1) hf,
      fun kv _ hsk => nodeOf_of_isSkipped kv.1 kv.2 hsk, ?_⟩
    intro hnd kv hkv hsk n hn heq
    obtain ⟨kv', hkv', hname, hnode⟩ := forall₂_exists_of_mem hf n hn
    have hmem' : kv' ∈ m := (List.mem_filter.1 hkv').1
    have : kv' = kv :=
      List.inj_on_of_nodup_map hnd hmem' hkv (hname.symm.trans heq)
    subst this
    have := (nodeOf_name _ _ _ hnode).2
    rw [hsk] at this
    cases this

set_option maxRecDepth 100000 in
/-- The amended C4 at the payload of scenario S3 and the message type `m`:
the children of the root are the nodes of the keys `outer` and `arr`, the
keys `empty` and `nil` contribute no node and name none of them. -/
theorem generateSchema_children_witness :
    generateSchema s3Payload "m" "" = some s3Text ∧
    ∃ nodes, nodesOf s3Payload = some nodes ∧
      TrimRight s3Text "," ++ "]\x7d" = renderRoot "m" nodes ∧
      (∀ x ∈ nodesBelow nodes, Origin s3Payload x) ∧
      ∀ m, Descends s3Payload m →
        ∃ children, nodesOf m = some children ∧
          List.Forall₂ (fun n kv => n.name = kv.1 ∧ nodeOf kv.1 kv.2 = some (some n)) children
            (m.filter (fun kv => !isSkipped kv.2)) ∧
          children.map SchemaNode.name = (m.filter (fun kv => !isSkipped kv.2)).map Prod.fst ∧
          (∀ kv ∈ m, isSkipped kv.2 = true → nodeOf kv.1 kv.2 = some none) ∧
          ((m.map Prod.fst).Nodup → ∀ kv ∈ m, isSkipped kv.2 = true →
            ∀ n ∈ children, n.name ≠ kv.1) :=
  ⟨rfl, generateSchema_children s3Payload "m" s3Text rfl⟩

/-! ## Scenario S3 -/

/-- Iterating a mapping in another order permutes the nodes it contributes. -/
theorem nodesOf_perm {p q : List (String × Value)} (hpq : p.Perm q) :
    ∀ ns, nodesOf p = some ns → ∃ ns', nodesOf q = some ns' ∧ ns.Perm ns' := by
  induction hpq with
  | nil => intro ns h; exact ⟨ns, h, List.Perm.refl _⟩
  | @cons x l₁ l₂ _ ih =>
    obtain ⟨k, v⟩ := x
    intro ns h
    rw [nodesOf_cons] at h
    rw [nodesOf_cons]
    cases hn : nodeOf k v with
    | none => rw [hn] at h; cases h
    | some o =>
      cases hr : nodesOf l₁ with
      | none => rw [hn, hr] at h; cases o <;> cases h
      | some ns₁ =>
        obtain ⟨ns₂, h₂, hperm⟩ := ih ns₁ hr
        rw [hn, hr] at h
        rw [h₂]
        cases o with
        | none =>
          injection h with h; subst h
          exact ⟨ns₂, rfl, hperm⟩
        | some n =>
          injection h with h; subst h
          exact ⟨n :: ns₂, rfl, hperm.cons n⟩
  | swap x y l =>
    obtain ⟨kx, vx⟩ := x
    obtain ⟨ky, vy⟩ := y
    intro ns h
    rw [nodesOf_cons, nodesOf_cons] at h
    rw [nodesOf_cons, nodesOf_cons]
    cases hl : nodesOf l with
    | none =>
      rw [hl] at h
      cases hy : nodeOf ky vy with
      | none => rw [hy] at h; cases h
      | some oy => rw [hy] at h; cases hx : nodeOf kx vx with
        | none => rw [hx] at h; cases oy <;> cases h
        | some ox => rw [hx] at h; cases ox <;> cases oy <;> cases h
    | some ns₀ =>
      rw [hl] at h
      cases hy : nodeOf ky vy with
      | none => rw [hy] at h; cases h
      | some oy =>
        rw [hy] at h
        cases hx : nodeOf kx vx with
        | none => rw [hx] at h; cases oy <;> cases h
        | some ox =>
          rw [hx] at h
          cases ox with
          | none =>
            cases oy with
            | none => exact ⟨ns, h, List.Perm.refl _⟩
            | some ny => exact ⟨ns, h, List.Perm.refl _⟩
          | some nx =>
            cases oy with
            | none => exact ⟨ns, h, List.Perm.refl _⟩
            | some ny =>
              injection h with h; subst h
              exact ⟨nx :: ny :: ns₀, rfl, List.Perm.swap _ _ _⟩
  | trans _ _ ih₁ ih₂ =>
    intro ns h
    obtain ⟨ns₁, h₁, hp₁⟩ := ih₁ ns h
    obtain ⟨ns₂, h₂, hp₂⟩ := ih₂ ns₁ h₁
    exact ⟨ns₂, h₂, hp₁.trans hp₂⟩

theorem mem_nodesBelow {ns : List SchemaNode} {x : SchemaNode} (h : x ∈ nodesBelow ns) :
    ∃ n ∈ ns, x ∈ n.nodes := by
  induction ns with
  | nil => simp [nodesBelow] at h
  | cons n ns ih =>
    simp only [nodesBelow, List.mem_append] at h
    rcases h with h | h
    · exact ⟨n, List.mem_cons_self _ _, h⟩
    · obtain ⟨n', hn', hx⟩ := ih h
      exact ⟨n', List.mem_cons_of_mem _ hn', hx⟩

set_option maxRecDepth 100000 in
/-- C5, as stated, fails. For the decoded payload of scenario S3 the schema
text carries `name=n, type=DOUBLE` and the schema tree is
`outer → inner → n`, `arr → element → k` with the leaf `n` of type DOUBLE: no
node of the schema is a leaf `n` of type INT64, so the group
`outer → inner → n:INT64` of the claim is not among the children of the
root. -/
theorem s3_schema_counterexample :
    generateSchema s3Payload "m" "" = some s3Text ∧
    nodesOf s3Payload = some [s3Outer, s3Arr] ∧
    SchemaNode.leaf "n" "INT64" "REQUIRED" ∉ nodesBelow [s3Outer, s3Arr] ∧
    ¬ ∃ nodes, nodesOf s3Payload = some nodes ∧
      SchemaNode.group "outer" none "REQUIRED"
        [.group "inner" none "REQUIRED" [.leaf "n" "INT64" "REQUIRED"]] ∈ nodes := by
  refine ⟨rfl, rfl, ?_, ?_⟩
  · simp [nodesBelow, SchemaNode.nodes, s3Outer, s3Arr]
  · rintro ⟨nodes, hn, hmem⟩
    have e : nodesOf s3Payload = some [s3Outer, s3Arr] := rfl
    rw [e] at hn
    injection hn with hn
    subst hn
    simp [s3Outer, s3Arr] at hmem

/-- C5, amended. For the decoded payload of scenario S3, in whatever order
the top-level map is iterated, the schema that `generateSchema` produces
(closed by `writeParquet`) is the text of a tree whose root has exactly the
two children `outer` (a group with the single child group `inner` whose
single child is the leaf `n` of type DOUBLE) and `arr` (a LIST group whose
single child `element` is a group with the single leaf `k` of type
BYTE_ARRAY), and no node of the tree is named `empty` or `nil`. -/
theorem s3_schema (p : List (String × Value)) (mt : String) (hp : p.Perm s3Payload) :
    ∃ nodes, nodesOf p = some nodes ∧ nodes.Perm [s3Outer, s3Arr] ∧
      (generateSchema p mt "").map (fun js => TrimRight js "," ++ "]\x7d") =
        some (renderRoot mt nodes) ∧
      ∀ x ∈ nodesBelow nodes, x.name ≠ "empty" ∧ x.name ≠ "nil" := by
  obtain ⟨nodes, hn, hperm⟩ := nodesOf_perm hp.symm [s3Outer, s3Arr] rfl
  refine ⟨nodes, hn, hperm.symm, ?_, ?_⟩
  · rw [schema_text_eq, hn]; rfl
  · intro x hx
    obtain ⟨n, hmem, hxn⟩ := mem_nodesBelow hx
    have hn' : n ∈ [s3Outer, s3Arr] := hperm.symm.mem_iff.1 hmem
    simp only [List.mem_cons, List.mem_singleton, List.not_mem_nil, or_false] at hn'
    rcases hn' with rfl | rfl
    · simp only [s3Outer, SchemaNode.nodes, nodesBelow, List.append_nil, List.mem_cons,
        List.mem_singleton, List.not_mem_nil, or_false] at hxn
      rcases hxn with rfl | rfl | rfl <;> exact ⟨by decide, by decide⟩
    · simp only [s3Arr, SchemaNode.nodes, nodesBelow, List.append_nil, List.mem_cons,
        List.mem_singleton, List.not_mem_nil, or_false] at hxn
      rcases hxn with rfl | rfl | rfl <;> exact ⟨by decide, by decide⟩

/-- The amended C5 at the iteration order in which the keys are written. -/
theorem s3_schema_witness :
    s3Payload.Perm s3Payload ∧
    ∃ nodes, nodesOf s3Payload = some nodes ∧ nodes.Perm [s3Outer, s3Arr] ∧
      (generateSchema s3Payload "m" "").map (fun js => TrimRight js "," ++ "]\x7d") =
        some (renderRoot "m" nodes) ∧
      ∀ x ∈ nodesBelow nodes, x.name ≠ "empty" ∧ x.name ≠ "nil" :=
  ⟨List.Perm.refl _, s3_schema s3Payload "m" (List.Perm.refl _)⟩

/-! ## Type mapping -/

/-- The text a scalar pair appends, by kind. -/
theorem generateSchemaStep_scalar (key : String) (v : Value) (mt js : String)
    (h : isScalar v = true) :
    generateSchemaStep key v mt js =
      some (js ++ "\x7b\"Tag\": \"name=" ++ key ++ ", type=" ++
        getParquetDataType ((typeString v).getD "") ++ ", repetitiontype=REQUIRED\"\x7d,") := by
  cases v with
  | null => simp [isScalar] at h
  | obj m => simp [isScalar] at h
  | arr xs => simp [isScalar] at h
  | _ => rfl

theorem nodeOf_scalar (key : String) (v : Value) (h : isScalar v = true) :
    nodeOf key v =
      some (some (.leaf key (getParquetDataType ((typeString v).getD "")) "REQUIRED")) := by
  cases v with
  | null => simp [isScalar] at h
  | obj m => simp [isScalar] at h
  | arr xs => simp [isScalar] at h
  | _ => rfl

theorem nodeOf_arr_scalar (key : String) (first : Value) (rest : List Value)
    (h : isScalar first = true) :
    nodeOf key (.arr (first :: rest)) =
      some (some (.group key (some "LIST") "REQUIRED"
        [.leaf "element" (getParquetDataType ((typeString first).getD "")) "REQUIRED"])) := by
  cases first with
  | null => simp [isScalar] at h
  | obj m => simp [isScalar] at h
  | arr xs => simp [isScalar] at h
  | _ => rfl

theorem typeString_scalar (v : Value) (h : isScalar v = true) :
    ∃ kind, typeString v = some kind := by
  cases v with
  | null => simp [isScalar] at h
  | _ => exact ⟨_, rfl⟩

/-- C6. `getParquetDataType` maps `string` to BYTE_ARRAY, `int32` to INT32,
`int64` to INT64, `int96` to INT96, `float32` to FLOAT and `float64` to
DOUBLE and every other kind name, `bool` among them, to the empty tag; and
for a scalar value of runtime kind `kind` bound to a key, the loop of
`generateSchema` appends the leaf text with `type=` the tag
`getParquetDataType kind`, which is the leaf of the schema tree for that
pair; a scalar first element of a sequence gives the leaf `element` with the
tag of its kind. -/
theorem getParquetDataType_spec :
    (getParquetDataType "string" = "BYTE_ARRAY" ∧ getParquetDataType "int32" = "INT32" ∧
      getParquetDataType "int64" = "INT64" ∧ getParquetDataType "int96" = "INT96" ∧
      getParquetDataType "float32" = "FLOAT" ∧ getParquetDataType "float64" = "DOUBLE" ∧
      getParquetDataType "bool" = "") ∧
    (∀ kind : String, kind ≠ "string" → kind ≠ "int32" → kind ≠ "int64" → kind ≠ "int96" →
      kind ≠ "float32" → kind ≠ "float64" → getParquetDataType kind = "") ∧
    (∀ v : Value, isScalar v = true → ∃ kind, typeString v = some kind ∧
      ∀ key mt js : String,
        generateSchemaStep key v mt js =
          some (js ++ "\x7b\"Tag\": \"name=" ++ key ++ ", type=" ++ getParquetDataType kind ++
            ", repetitiontype=REQUIRED\"\x7d,") ∧
        nodeOf key v = some (some (.leaf key (getParquetDataType kind) "REQUIRED")) ∧
        ∀ rest : List Value, nodeOf key (.arr (v :: rest)) =
          some (some (.group key (some "LIST") "REQUIRED"
            [.leaf "element" (getParquetDataType kind) "REQUIRED"]))) := by
  refine ⟨⟨rfl, rfl, rfl, rfl, rfl, rfl, rfl⟩, ?_, ?_⟩
  · intro kind h1 h2 h3 h4 h5 h6
    simp [getParquetDataType, h1, h2, h3, h4, h5, h6]
  · intro v hv
    obtain ⟨kind, hk⟩ := typeString_scalar v hv
    refine ⟨kind, hk, fun key mt js => ⟨?_, ?_, fun rest => ?_⟩⟩
    · rw [generateSchemaStep_scalar key v mt js hv, hk]; rfl
    · rw [nodeOf_scalar key v hv, hk]; rfl
    · rw [nodeOf_arr_scalar key v rest hv, hk]; rfl

/-- The type mapping at a kind outside the table and at two scalars: a
`bool` gives a leaf with the empty tag, a `float64` gives DOUBLE. -/
theorem getParquetDataType_spec_witness :
    getParquetDataType "json.Number" = "" ∧
    (∃ kind, typeString (.bool true) = some kind ∧
      ∀ key mt js : String,
        generateSchemaStep key (.bool true) mt js =
          some (js ++ "\x7b\"Tag\": \"name=" ++ key ++ ", type=" ++ getParquetDataType kind ++
            ", repetitiontype=REQUIRED\"\x7d,") ∧
        nodeOf key (.bool true) = some (some (.leaf key (getParquetDataType kind) "REQUIRED")) ∧
        ∀ rest : List Value, nodeOf key (.arr (.bool true :: rest)) =
          some (some (.group key (some "LIST") "REQUIRED"
            [.leaf "element" (getParquetDataType kind) "REQUIRED"]))) ∧
    nodeOf "a" (.float64 0x3ff0000000000000) = some (some (.leaf "a" "DOUBLE" "REQUIRED")) :=
  ⟨getParquetDataType_spec.2.1 "json.Number" (by decide) (by decide) (by decide) (by decide)
      (by decide) (by decide),
   getParquetDataType_spec.2.2 (.bool true) rfl,
   rfl⟩

/-! ## Invariants of the schema tree -/

theorem nodeOk_leaf (n t : String) : ∀ x ∈ (SchemaNode.leaf n t "REQUIRED").nodes, NodeOk x := by
  intro x hx
  simp only [SchemaNode.nodes, List.mem_singleton] at hx
  subst hx
  exact ⟨rfl, fun h => by simp [SchemaNode.isList] at h⟩

theorem nodeOk_group (n : String) (fs : List SchemaNode) (h : ∀ x ∈ nodesBelow fs, NodeOk x) :
    ∀ x ∈ (SchemaNode.group n none "REQUIRED" fs).nodes, NodeOk x := by
  intro x hx
  simp only [SchemaNode.nodes, List.mem_cons] at hx
  rcases hx with rfl | hx
  · exact ⟨rfl, fun h => by simp [SchemaNode.isList] at h⟩
  · exact h x hx

theorem nodeOk_list (n : String) (c : SchemaNode) (hc : c.name = "element")
    (h : ∀ x ∈ c.nodes, NodeOk x) :
    ∀ x ∈ (SchemaNode.group n (some "LIST") "REQUIRED" [c]).nodes, NodeOk x := by
  intro x hx
  simp only [SchemaNode.nodes, nodesBelow, List.append_nil, List.mem_cons] at hx
  rcases hx with rfl | hx
  · exact ⟨rfl, fun _ => ⟨c, rfl, hc⟩⟩
  · exact h x hx

mutual
theorem nodeOf_nodeOk : ∀ (key : String) (v : Value) (n : SchemaNode),
    nodeOf key v = some (some n) → ∀ x ∈ n.nodes, NodeOk x
  | _, .null, _, h => by cases h
  | key, .bool _, n, h => by
    injection h with h; injection h with h; subst h; exact nodeOk_leaf _ _
  | key, .str _, n, h => by
    injection h with h; injection h with h; subst h; exact nodeOk_leaf _ _
  | key, .int32 _, n, h => by
    injection h with h; injection h with h; subst h; exact nodeOk_leaf _ _
  | key, .int64 _, n, h => by
    injection h with h; injection h with h; subst h; exact nodeOk_leaf _ _
  | key, .float32 _, n, h => by
    injection h with h; injection h with h; subst h; exact nodeOk_leaf _ _
  | key, .float64 _, n, h => by
    injection h with h; injection h with h; subst h; exact nodeOk_leaf _ _
  | _, .obj [], _, h => by cases h
  | key, .obj (f :: m), n, h => by
    rw [nodeOf_obj] at h
    cases hn : nodesOf (f :: m) with
    | none => rw [hn] at h; cases h
    | some fs =>
      rw [hn] at h
      injection h with h; injection h with h; subst h
      exact nodeOk_group _ _ (nodesOf_nodeOk (f :: m) fs hn)
  | _, .arr [], _, h => by cases h
  | _, .arr (.null :: _), _, h => by cases h
  | key, .arr (.obj m :: rest), n, h => by
    rw [nodeOf_arr_obj] at h
    cases hn : nodesOf m with
    | none => rw [hn] at h; cases h
    | some fs =>
      rw [hn] at h
      injection h with h; injection h with h; subst h
      exact nodeOk_list _ _ rfl (nodeOk_group _ _ (nodesOf_nodeOk m fs hn))
  | key, .arr (.bool _ :: _), n, h => by
    injection h with h; injection h with h; subst h
    exact nodeOk_list _ _ rfl (nodeOk_leaf _ _)
  | key, .arr (.str _ :: _), n, h => by
    injection h with h; injection h with h; subst h
    exact nodeOk_list _ _ rfl (nodeOk_leaf _ _)
  | key, .arr (.int32 _ :: _), n, h => by
    injection h with h; injection h with h; subst h
    exact nodeOk_list _ _ rfl (nodeOk_leaf _ _)
  | key, .arr (.int64 _ :: _), n, h => by
    injection h with h; injection h with h; subst h
    exact nodeOk_list _ _ rfl (nodeOk_leaf _ _)
  | key, .arr (.float32 _ :: _), n, h => by
    injection h with h; injection h with h; subst h
    exact nodeOk_list _ _ rfl (nodeOk_leaf _ _)
  | key, .arr (.float64 _ :: _), n, h => by
    injection h with h; injection h with h; subst h
    exact nodeOk_list _ _ rfl (nodeOk_leaf _ _)
  | key, .arr (.arr _ :: _), n, h => by
    injection h with h; injection h with h; subst h
    exact nodeOk_list _ _ rfl (nodeOk_leaf _ _)
theorem nodesOf_nodeOk : ∀ (m : List (String × Value)) (ns : List SchemaNode),
    nodesOf m = some ns → ∀ x ∈ nodesBelow ns, NodeOk x
  | [], ns, h => by
    injection h with h; subst h
    intro x hx; simp [nodesBelow] at hx
  | (key, value) :: rest, ns, h => by
    rw [nodesOf_cons] at h
    cases hn : nodeOf key value with
    | none => rw [hn] at h; cases h
    | some o =>
      cases hr : nodesOf rest with
      | none => rw [hn, hr] at h; cases o <;> cases h
      | some ns₁ =>
        rw [hn, hr] at h
        cases o with
        | none =>
          injection h with h; subst h
          exact nodesOf_nodeOk rest _ hr
        | some n =>
          injection h with h; subst h
          intro x hx
          simp only [nodesBelow, List.mem_append] at hx
          rcases hx with hx | hx
          · exact nodeOf_nodeOk key value n hn x hx
          · exact nodesOf_nodeOk rest _ hr x hx
end

/-- C7. When `generateSchema` completes on a payload, its text (closed by
`writeParquet`) is the text of the schema tree, every node of the tree, the
root included, carries repetition REQUIRED, every node carrying the LIST
marker has exactly one child and that child is named `element`; and for a
sequence bound to a key of a mapping that `generateSchema` descends into,
that child is the group over the nodes of the first element when the first
element is a mapping and a leaf otherwise. -/
theorem schemaTree_invariants (payload : List (String × Value)) (mt js : String)
    (h : generateSchema payload mt "" = some js) :
    ∃ nodes, schemaTree payload mt = some (.group mt none "REQUIRED" nodes) ∧
      TrimRight js "," ++ "]\x7d" = renderRoot mt nodes ∧
      (∀ x ∈ (SchemaNode.group mt none "REQUIRED" nodes).nodes,
        x.repetition = "REQUIRED" ∧
          (x.isList = true → ∃ c, x.fields = [c] ∧ c.name = "element")) ∧
      ∀ m, Descends payload m → ∀ key first rest, (key, Value.arr (first :: rest)) ∈ m →
        ∃ c, nodeOf key (.arr (first :: rest)) =
            some (some (.group key (some "LIST") "REQUIRED" [c])) ∧
          match first with
          | .obj m' => ∃ fs, nodesOf m' = some fs ∧ c = .group "element" none "REQUIRED" fs
          | _ => ∃ t, c = .leaf "element" t "REQUIRED" := by
  have hsome : (nodesOf payload).isSome = true := by
    rw [← generateSchema_isSome payload mt, h]; rfl
  obtain ⟨nodes, hn⟩ := Option.isSome_iff_exists.1 hsome
  refine ⟨nodes, by simp [schemaTree, hn], ?_, ?_, ?_⟩
  · have := schema_text_eq payload mt
    rw [h, hn] at this
    simpa using this
  · exact nodeOk_group mt nodes (nodesOf_nodeOk payload nodes hn)
  · intro m hd key first rest hmem
    obtain ⟨children, hc⟩ := Option.isSome_iff_exists.1 (nodesOf_isSome_of_descends hd hsome)
    have hne := nodeOf_isSome_of_mem hc _ hmem
    cases first with
    | null => cases hne
    | obj m' =>
      simp only at hne
      rw [nodeOf_arr_obj] at hne ⊢
      cases hm : nodesOf m' with
      | none => rw [hm] at hne; cases hne
      | some fs =>
        refine ⟨.group "element" none "REQUIRED" fs, ?_, fs, hm, rfl⟩
        rfl
    | _ => exact ⟨_, rfl, _, rfl⟩

set_option maxRecDepth 100000 in
/-- C7 at the payload of scenario S3 and the message type `m`. -/
theorem schemaTree_invariants_witness :
    generateSchema s3Payload "m" "" = some s3Text ∧
    ∃ nodes, schemaTree s3Payload "m" = some (.group "m" none "REQUIRED" nodes) ∧
      TrimRight s3Text "," ++ "]\x7d" = renderRoot "m" nodes ∧
      (∀ x ∈ (SchemaNode.group "m" none "REQUIRED" nodes).nodes,
        x.repetition = "REQUIRED" ∧
          (x.isList = true → ∃ c, x.fields = [c] ∧ c.name = "element")) ∧
      ∀ m, Descends s3Payload m → ∀ key first rest, (key, Value.arr (first :: rest)) ∈ m →
        ∃ c, nodeOf key (.arr (first :: rest)) =
            some (some (.group key (some "LIST") "REQUIRED" [c])) ∧
          match first with
          | .obj m' => ∃ fs, nodesOf m' = some fs ∧ c = .group "element" none "REQUIRED" fs
          | _ => ∃ t, c = .leaf "element" t "REQUIRED" :=
  ⟨rfl, schemaTree_invariants s3Payload "m" s3Text rfl⟩

/-! ## Path planner -/

/-- C8 fails on the code: at 2024-01-05 03:04:05.000000006, an instant with a
four-digit year, `generateLeafLevelFileName` returns `202415_3456.parquet`,
six date digits and four time digits, which does not match
`^\d{8}_\d{9,}\.parquet$`; the name of the claim is
`20240105_030405000000006.parquet`. -/
theorem generateLeafLevelFileName_unpadded :
    jan5.Valid ∧ 1000 ≤ jan5.Year ∧ jan5.Year ≤ 9999 ∧
    generateLeafLevelFileName jan5 = "202415_3456.parquet" ∧
    matchesLeafPattern (generateLeafLevelFileName jan5) = false ∧
    matchesLeafPattern "20240105_030405000000006.parquet" = true := by
  refine ⟨by decide, by decide, by decide, by decide, by decide, by decide⟩

/-- C9 fails on the code: the instants 2024-03-07 10:20:01.000000023 and
2024-03-07 10:20:12.000000003 differ in second and nanosecond and get the
same leaf file name `202437_1020123.parquet`. -/
theorem generateLeafLevelFileName_collision :
    mar7a.Valid ∧ mar7b.Valid ∧ mar7a.Second ≠ mar7b.Second ∧
    mar7a.Nanosecond ≠ mar7b.Nanosecond ∧
    generateLeafLevelFileName mar7a = "202437_1020123.parquet" ∧
    generateLeafLevelFileName mar7b = "202437_1020123.parquet" := by
  refine ⟨by decide, by decide, by decide, by decide, by decide, by decide⟩

/-- Under the policy Quarterly the quarter number `(month + 2) / 3` lies in
1..4 and is appended as the character with that code point. -/
theorem generateSubFolderName_quarterly (mt : String) (now : Instant) (cfg : Config)
    (hv : now.Valid) (hid : cfg.PartitionTimeId.Int64 = 5) :
    generateSubFolderName partitionTable now mt cfg =
      mt ++ "/" ++ zeroPad 4 now.Year ++ "-" ++
        String.singleton (Char.ofNat ((now.Month + 2) / 3)) ∧
    1 ≤ (now.Month + 2) / 3 ∧ (now.Month + 2) / 3 ≤ 4 := by
  obtain ⟨h1, h2, -⟩ := hv
  have hq1 : 1 ≤ (now.Month + 2) / 3 := by omega
  have hq4 : (now.Month + 2) / 3 ≤ 4 := by omega
  refine ⟨?_, hq1, hq4⟩
  have hvalid : ((now.Month + 2) / 3).isValidChar := by
    left
    omega
  have hs : stringOfInt (((now.Month + 2) / 3 : Nat) : Int) =
      String.singleton (Char.ofNat ((now.Month + 2) / 3)) := by
    unfold stringOfInt
    rw [if_pos ⟨Int.ofNat_nonneg _, by rw [Int.toNat_ofNat]; exact hvalid⟩, Int.toNat_ofNat]
  rw [← hs]
  simp [generateSubFolderName, partitionTable, subFolderStep, hid]

/-- C10 fails on the code: for a config of the policy Quarterly and the
instant 2024-05-15 the quarter number is 2 and `generateSubFolderName`
returns `m/2024-` followed by the character with code point 2, not
`m/2024-2`. -/
theorem generateSubFolderName_quarterly_codepoint :
    may15.Valid ∧ (may15.Month + 2) / 3 = 2 ∧
    generateSubFolderName partitionTable may15 "m" quarterlyConfig = "m/2024-\x02" ∧
    generateSubFolderName partitionTable may15 "m" quarterlyConfig ≠ "m/2024-2" := by
  refine ⟨by decide, by decide, by decide, by decide⟩

/-! ## Configuration cache -/

/-- When the database cannot be opened or the query of `streams` fails,
`LoadConfig` returns the error and leaves the four snapshots as they were. -/
theorem LoadConfig_early_failure (w : World) (g : Globals)
    (h : w.sqlxOpen ≠ none ∨ ∃ err, w.selectStreams = .error err) :
    (∃ err, (LoadConfig w g).ret = .error err) ∧ (LoadConfig w g).globals = g := by
  unfold LoadConfig
  cases ho : w.sqlxOpen with
  | some err => exact ⟨⟨err, rfl⟩, rfl⟩
  | none =>
    rcases h with h | ⟨err, h⟩
    · exact absurd ho h
    · simp [h]

/-- When the database opens and the four queries succeed, `LoadConfig`
returns nil and the four snapshots are the four query results. -/
theorem LoadConfig_success (w : World) (g : Globals) (cs : List Config)
    (fs : List FileStoreType) (ps : List PartitionTime) (ts : List CompressionType)
    (ho : w.sqlxOpen = none) (h1 : w.selectStreams = .ok cs)
    (h2 : w.selectFileStoreTypes = .ok fs) (h3 : w.selectPartitionTimes = .ok ps)
    (h4 : w.selectCompressionTypes = .ok ts) :
    (LoadConfig w g).ret = .nil ∧
      (LoadConfig w g).globals =
        { configs := cs, fileStoreTypes := fs, partitionTimes := ps, compressionTypes := ts } := by
  unfold LoadConfig
  simp [ho, h1, h2, h3, h4]

/-- When a query after the first fails, `configs` has already been replaced. -/
theorem LoadConfig_late_failure (w : World) (g : Globals) (cs : List Config) (err : String)
    (ho : w.sqlxOpen = none) (h1 : w.selectStreams = .ok cs)
    (h2 : w.selectFileStoreTypes = .error err) :
    (LoadConfig w g).ret = .error err ∧
      (LoadConfig w g).globals = { g with configs := cs } := by
  unfold LoadConfig
  simp [ho, h1, h2]

/-- C11 fails on the code: when the query of `streams` succeeds and the query
of `file_store_types` fails, `LoadConfig` returns the error, but the snapshot
of stream configs has been replaced by the new rows while the other three
snapshots keep their old values. -/
theorem LoadConfig_partial_replace :
    (LoadConfig halfLoadWorld s2Globals).ret =
      .error "pq: the database system is shutting down" ∧
    s2Globals.configs = [s2Config] ∧
    (LoadConfig halfLoadWorld s2Globals).globals.configs = [selAltFirst] ∧
    (LoadConfig halfLoadWorld s2Globals).globals.configs ≠ s2Globals.configs ∧
    (LoadConfig halfLoadWorld s2Globals).globals.fileStoreTypes = s2Globals.fileStoreTypes ∧
    (LoadConfig halfLoadWorld s2Globals).globals.partitionTimes = s2Globals.partitionTimes ∧
    (LoadConfig halfLoadWorld s2Globals).globals.compressionTypes =
      s2Globals.compressionTypes := by
  refine ⟨rfl, rfl, rfl, ?_, rfl, rfl, rfl⟩
  show [selAltFirst] ≠ [s2Config]
  decide

/-! ## Dispatcher -/

/-- A control message: `Ingest` calls `LoadConfig` and nothing else, it
returns what `LoadConfig` returns and the snapshot is the one `LoadConfig`
leaves. -/
theorem Ingest_control (w : World) (g : Globals) (request : IncomingMessage)
    (h : request.MessageType = "rtdl_205") :
    (Ingest w g (.ok request)).ret = (LoadConfig w g).ret ∧
    (Ingest w g (.ok request)).globals = (LoadConfig w g).globals ∧
    ∃ logs, (Ingest w g (.ok request)).effects = .call "LoadConfig" :: (LoadConfig w g).effects ++ logs ∧
      ∀ e ∈ logs, ∃ line, e = .log line := by
  unfold Ingest
  simp only [h, if_true]
  cases hr : (LoadConfig w g).ret with
  | nil => exact ⟨rfl, rfl, [], by simp, by simp⟩
  | panic => exact ⟨rfl, rfl, [], by simp, by simp⟩
  | error err => exact ⟨rfl, rfl, [.log err], by simp, by simp⟩

/-- A data message on which `writeParquet` returns: `Ingest` calls
`writeParquet` once, logs the error when there is one, emits one egress
record with topic `egress`, key `message` and the serialized payload, and
returns nil. -/
theorem Ingest_data (w : World) (g : Globals) (request : IncomingMessage)
    (h : request.MessageType ≠ "rtdl_205") (hp : (writeParquetRun w g request).ret ≠ .panic) :
    (Ingest w g (.ok request)).ret = .nil ∧
    (Ingest w g (.ok request)).globals = g ∧
    ∃ logs, (Ingest w g (.ok request)).effects =
        .call "writeParquet" :: (writeParquetRun w g request).effects ++ logs ++
          [.sendEgress "egress" "message" (w.marshal request.Payload),
            .log "egress message written"] ∧
      ∀ e ∈ logs, ∃ line, e = .log line := by
  unfold Ingest
  simp only [h, if_false]
  cases hr : (writeParquetRun w g request).ret with
  | nil => exact ⟨rfl, rfl, [], by simp, by simp⟩
  | panic => exact absurd hr hp
  | error err => exact ⟨rfl, rfl, [.log ("error writing Parquet " ++ err)], by simp, by simp⟩

/-- C12 fails on the code: for the message of an unknown stream with
`message_type = "m"` and the payload `{"a":[null]}`, which is not a control
message, `Ingest` calls `writeParquet`, which panics in `generateSchema`, and
`Ingest` ends in that panic without emitting an egress record. -/
theorem Ingest_panic_no_egress (w : World) :
    nullFirstRequest.MessageType ≠ "rtdl_205" ∧
    (Ingest w s2Globals (.ok nullFirstRequest)).ret = .panic ∧
    (Ingest w s2Globals (.ok nullFirstRequest)).effects = [.call "writeParquet"] ∧
    ∀ topic key value,
      Effect.sendEgress topic key value ∉ (Ingest w s2Globals (.ok nullFirstRequest)).effects := by
  refine ⟨by decide, rfl, rfl, ?_⟩
  intro topic key value hmem
  have e : (Ingest w s2Globals (.ok nullFirstRequest)).effects = [.call "writeParquet"] := rfl
  rw [e] at hmem
  simp at hmem

/-- C13, as stated, fails. At scenario S5 (file store AWS, empty region)
`writeParquet` returns the error `AWS Region cannot be null or empty`;
`Ingest` logs it, emits the egress record and returns nil. -/
theorem Ingest_swallows_error_counterexample :
    s5Request.MessageType ≠ "rtdl_205" ∧
    (writeParquetRun World.calm s5Globals s5Request).ret =
      .error "AWS Region cannot be null or empty" ∧
    (Ingest World.calm s5Globals (.ok s5Request)).ret = .nil ∧
    (Ingest World.calm s5Globals (.ok s5Request)).effects =
      [.call "writeParquet",
        .log "error writing Parquet AWS Region cannot be null or empty",
        .sendEgress "egress" "message" "\x7b\"a\":1\x7d",
        .log "egress message written"] := by
  refine ⟨by decide, rfl, rfl, rfl⟩

/-- C13, amended. For every data message for which `writeParquet` returns an
error, `Ingest` logs the line `error writing Parquet` with the error, still
emits the egress record and returns nil: the failure is not surfaced to the
host. -/
theorem Ingest_swallows_error (w : World) (g : Globals) (request : IncomingMessage)
    (err : String) (h : request.MessageType ≠ "rtdl_205")
    (he : (writeParquetRun w g request).ret = .error err) :
    (Ingest w g (.ok request)).ret = .nil ∧
    (Ingest w g (.ok request)).globals = g ∧
    (Ingest w g (.ok request)).effects =
      .call "writeParquet" :: (writeParquetRun w g request).effects ++
        [.log ("error writing Parquet " ++ err),
          .sendEgress "egress" "message" (w.marshal request.Payload),
          .log "egress message written"] := by
  unfold Ingest
  simp [h, he]

/-- The amended C13 at scenario S5. -/
theorem Ingest_swallows_error_witness :
    s5Request.MessageType ≠ "rtdl_205" ∧
    (writeParquetRun World.calm s5Globals s5Request).ret =
      .error "AWS Region cannot be null or empty" ∧
    (Ingest World.calm s5Globals (.ok s5Request)).ret = .nil ∧
    (Ingest World.calm s5Globals (.ok s5Request)).globals = s5Globals ∧
    (Ingest World.calm s5Globals (.ok s5Request)).effects =
      .call "writeParquet" :: (writeParquetRun World.calm s5Globals s5Request).effects ++
        [.log ("error writing Parquet " ++ "AWS Region cannot be null or empty"),
          .sendEgress "egress" "message" (World.calm.marshal s5Request.Payload),
          .log "egress message written"] :=
  ⟨by decide, rfl,
    Ingest_swallows_error World.calm s5Globals s5Request "AWS Region cannot be null or empty"
      (by decide) rfl⟩

/-! ## The S3 writer -/

/-- C15. With an empty region `WriteAWSParquet` returns the error
`AWS Region cannot be null or empty`, and with a non-empty region and an
empty bucket name the error `S3 bucket name cannot be null or empty`; in both
cases no effect precedes the return: no temporary file is created or written,
no object is uploaded and `UpdateDremio` issues no request. -/
theorem WriteAWSParquet_config_errors (w : World) (g : Globals)
    (messageType schema payload : String) (configRecord : Config) :
    (configRecord.Region.Str = "" →
      WriteAWSParquet w g messageType schema payload configRecord =
        ⟨[], .error "AWS Region cannot be null or empty"⟩) ∧
    (configRecord.Region.Str ≠ "" → configRecord.BucketName.Str = "" →
      WriteAWSParquet w g messageType schema payload configRecord =
        ⟨[], .error "S3 bucket name cannot be null or empty"⟩) := by
  refine ⟨fun h => ?_, fun h1 h2 => ?_⟩
  · simp [WriteAWSParquet, h]
  · simp [WriteAWSParquet, h1, h2]

/-- C15 at scenario S5 (empty region) and at a config with a region and
without a bucket name. -/
theorem WriteAWSParquet_config_errors_witness :
    s5Config.Region.Str = "" ∧
    WriteAWSParquet World.calm s5Globals "m" "" "" s5Config =
      ⟨[], .error "AWS Region cannot be null or empty"⟩ ∧
    noBucketConfig.Region.Str ≠ "" ∧ noBucketConfig.BucketName.Str = "" ∧
    WriteAWSParquet World.calm s5Globals "m" "" "" noBucketConfig =
      ⟨[], .error "S3 bucket name cannot be null or empty"⟩ :=
  ⟨rfl, (WriteAWSParquet_config_errors World.calm s5Globals "m" "" "" s5Config).1 rfl,
    by decide, rfl,
    (WriteAWSParquet_config_errors World.calm s5Globals "m" "" "" noBucketConfig).2
      (by decide) rfl⟩

/-! ## Totality of the schema inference -/

theorem Descends.trans {a b c : List (String × Value)} (hab : Descends a b)
    (hbc : Descends b c) : Descends a c := by
  induction hbc with
  | top => exact hab
  | nested _ hmem ih => exact Descends.nested ih hmem
  | element _ hmem ih => exact Descends.element ih hmem

mutual
theorem nodeOf_none (key : String) : ∀ (v : Value), nodeOf key v = none →
    ∀ m, (key, v) ∈ m →
    ∃ m' key' rest, Descends m m' ∧ (key', Value.arr (.null :: rest)) ∈ m'
  | .arr (.null :: rest), _, m, hmem => ⟨m, key, rest, Descends.top, hmem⟩
  | .obj (f :: mm), h, m, hmem => by
    rw [nodeOf_obj] at h
    cases hn : nodesOf (f :: mm) with
    | some fs => rw [hn] at h; cases h
    | none =>
      obtain ⟨m', key', rest, hd, hm'⟩ := nodesOf_none (f :: mm) hn (f :: mm) (fun _ hkv => hkv)
      exact ⟨m', key', rest, (Descends.nested Descends.top hmem).trans hd, hm'⟩
  | .arr (.obj mm :: rest), h, m, hmem => by
    rw [nodeOf_arr_obj] at h
    cases hn : nodesOf mm with
    | some fs => rw [hn] at h; cases h
    | none =>
      obtain ⟨m', key', rest', hd, hm'⟩ := nodesOf_none mm hn mm (fun _ hkv => hkv)
      exact ⟨m', key', rest', (Descends.element Descends.top hmem).trans hd, hm'⟩
  | .null, h, _, _ => by cases h
  | .bool _, h, _, _ => by cases h
  | .str _, h, _, _ => by cases h
  | .int32 _, h, _, _ => by cases h
  | .int64 _, h, _, _ => by cases h
  | .float32 _, h, _, _ => by cases h
  | .float64 _, h, _, _ => by cases h
  | .obj [], h, _, _ => by cases h
  | .arr [], h, _, _ => by cases h
  | .arr (.bool _ :: _), h, _, _ => by cases h
  | .arr (.str _ :: _), h, _, _ => by cases h
  | .arr (.int32 _ :: _), h, _, _ => by cases h
  | .arr (.int64 _ :: _), h, _, _ => by cases h
  | .arr (.float32 _ :: _), h, _, _ => by cases h
  | .arr (.float64 _ :: _), h, _, _ => by cases h
  | .arr (.arr _ :: _), h, _, _ => by cases h
theorem nodesOf_none : ∀ (l : List (String × Value)), nodesOf l = none →
    ∀ m, (∀ kv ∈ l, kv ∈ m) →
    ∃ m' key' rest, Descends m m' ∧ (key', Value.arr (.null :: rest)) ∈ m'
  | [], h, _, _ => by cases h
  | (key, value) :: rest, h, m, hsub => by
    rw [nodesOf_cons] at h
    cases hn : nodeOf key value with
    | none => exact nodeOf_none key value hn m (hsub _ (List.mem_cons_self _ _))
    | some o =>
      cases hr : nodesOf rest with
      | none =>
        exact nodesOf_none rest hr m (fun kv hkv => hsub kv (List.mem_cons_of_mem _ hkv))
      | some ns => rw [hn, hr] at h; cases o <;> cases h
end

/-- The loop of `generateSchema` panics exactly when the descent reaches a
sequence whose first element is null. -/
theorem nodesOf_eq_none_iff (payload : List (String × Value)) :
    nodesOf payload = none ↔
      ∃ m key rest, Descends payload m ∧ (key, Value.arr (.null :: rest)) ∈ m := by
  constructor
  · intro h
    exact nodesOf_none payload h payload (fun _ hkv => hkv)
  · rintro ⟨m, key, rest, hd, hmem⟩
    by_contra hne
    have hsome : (nodesOf payload).isSome = true := by
      cases hp : nodesOf payload with
      | none => exact absurd hp hne
      | some _ => rfl
    obtain ⟨children, hc⟩ := Option.isSome_iff_exists.1 (nodesOf_isSome_of_descends hd hsome)
    have := nodeOf_isSome_of_mem hc _ hmem
    cases this

theorem noNullFirst_of_mem {m : List (String × Value)} (h : noNullFirstFields m = true) :
    ∀ kv ∈ m, noNullFirst kv.2 = true := by
  induction m with
  | nil => intro kv hkv; cases hkv
  | cons p rest ih =>
    obtain ⟨k, v⟩ := p
    simp only [noNullFirstFields, Bool.and_eq_true] at h
    intro kv hkv
    rcases List.mem_cons.1 hkv with rfl | hmem
    · exact h.1
    · exact ih h.2 kv hmem

theorem noNullFirstFields_of_descends {payload m : List (String × Value)}
    (hd : Descends payload m) (h : noNullFirstFields payload = true) :
    noNullFirstFields m = true := by
  induction hd with
  | top => exact h
  | nested _ hmem ih =>
    have := noNullFirst_of_mem ih _ hmem
    simpa [noNullFirst] using this
  | element _ hmem ih =>
    have := noNullFirst_of_mem ih _ hmem
    simp only [noNullFirst, noNullFirstValues, Bool.and_eq_true] at this
    exact this.2.1

theorem size_lt_of_mem {m : List (String × Value)} :
    ∀ kv ∈ m, kv.2.size < sizeFields m := by
  induction m with
  | nil => intro kv hkv; cases hkv
  | cons p rest ih =>
    obtain ⟨k, v⟩ := p
    intro kv hkv
    simp only [sizeFields]
    rcases List.mem_cons.1 hkv with rfl | hmem
    · show v.size < 1 + v.size + sizeFields rest
      omega
    · have := ih kv hmem
      omega

/-- Every mapping that `generateSchema` descends into below the payload is
strictly smaller than the payload. -/
theorem sizeFields_of_descends {payload m : List (String × Value)}
    (hd : Descends payload m) : m = payload ∨ sizeFields m < sizeFields payload := by
  induction hd with
  | top => exact Or.inl rfl
  | @nested m key f m' _ hmem ih =>
    right
    have h1 := size_lt_of_mem _ hmem
    simp only [Value.size] at h1
    rcases ih with rfl | ih <;> omega
  | @element m key m' rest _ hmem ih =>
    right
    have h1 := size_lt_of_mem _ hmem
    simp only [Value.size, sizeValues] at h1
    rcases ih with rfl | ih <;> omega

/-- The runtime-kind test of `generateSchema` decides the dynamic type: the
name of the kind starts with `map[string]interface` exactly for a mapping and
with `[]interface` exactly for a sequence. -/
theorem typeString_guard (v : Value) (dataType : String) (h : typeString v = some dataType) :
    (HasPrefix dataType "map[string]interface" = true ↔ ∃ m, v = .obj m) ∧
    (HasPrefix dataType "[]interface" = true ↔ ∃ xs, v = .arr xs) := by
  cases v with
  | null => cases h
  | obj m =>
    injection h with h; subst h
    exact ⟨⟨fun _ => ⟨m, rfl⟩, fun _ => by decide⟩, ⟨fun hh => absurd hh (by decide), fun ⟨_, hh⟩ => by cases hh⟩⟩
  | arr xs =>
    injection h with h; subst h
    exact ⟨⟨fun hh => absurd hh (by decide), fun ⟨_, hh⟩ => by cases hh⟩, ⟨fun _ => ⟨xs, rfl⟩, fun _ => by decide⟩⟩
  | _ =>
    injection h with h; subst h
    exact ⟨⟨fun hh => absurd hh (by decide), fun ⟨_, hh⟩ => by cases hh⟩,
      ⟨fun hh => absurd hh (by decide), fun ⟨_, hh⟩ => by cases hh⟩⟩

/-- C16. `generateSchema` returns a schema text on every payload in which no
non-empty sequence has null as its first element; every mapping it descends
into below the payload is a strictly smaller value than the payload, so the
recursion ends; the runtime-kind test that precedes each type assertion
decides the dynamic type, so no assertion fails; and it panics exactly when
the descent reaches a sequence whose first element is null, where the
runtime kind of nil is taken. -/
theorem generateSchema_total (payload : List (String × Value)) (mt : String) :
    (noNullFirstFields payload = true → ∃ js, generateSchema payload mt "" = some js) ∧
    (∀ m, Descends payload m → m = payload ∨ sizeFields m < sizeFields payload) ∧
    (∀ v dataType, typeString v = some dataType →
      (HasPrefix dataType "map[string]interface" = true ↔ ∃ m, v = .obj m) ∧
      (HasPrefix dataType "[]interface" = true ↔ ∃ xs, v = .arr xs)) ∧
    (generateSchema payload mt "" = none ↔
      ∃ m key rest, Descends payload m ∧ (key, Value.arr (.null :: rest)) ∈ m) := by
  have hiff : generateSchema payload mt "" = none ↔ nodesOf payload = none := by
    have := generateSchema_isSome payload mt
    cases hg : generateSchema payload mt "" <;> cases hn : nodesOf payload <;>
      simp [hg, hn] at this ⊢
  refine ⟨?_, fun m hd => sizeFields_of_descends hd, typeString_guard, ?_⟩
  · intro hnn
    cases hg : generateSchema payload mt "" with
    | some js => exact ⟨js, rfl⟩
    | none =>
      obtain ⟨m, key, rest, hd, hmem⟩ := (nodesOf_eq_none_iff payload).1 (hiff.1 hg)
      have h1 := noNullFirst_of_mem (noNullFirstFields_of_descends hd hnn) _ hmem
      simp [noNullFirst, firstNotNull] at h1
  · rw [hiff, nodesOf_eq_none_iff]

/-- C16 at the payload of scenario S3, which `generateSchema` completes on, and
at the payload `{"a":[null]}`, on which it panics. -/
theorem generateSchema_total_witness :
    noNullFirstFields s3Payload = true ∧
    (∃ js, generateSchema s3Payload "m" "" = some js) ∧
    generateSchema nullFirstRequest.Payload "m" "" = none :=
  ⟨rfl, (generateSchema_total s3Payload "m").1 rfl,
    (generateSchema_total nullFirstRequest.Payload "m").2.2.2.2
      ⟨nullFirstRequest.Payload, "a", [], Descends.top, List.mem_cons_self _ _⟩⟩

/-! ## Catalog reconciliation -/

theorem Run.mem_andThen {r k : Run} {e : Effect} (h : e ∈ (r.andThen k).effects) :
    e ∈ r.effects ∨ e ∈ k.effects := by
  unfold Run.andThen at h
  cases hr : r.ret with
  | nil => rw [hr] at h; exact List.mem_append.1 h
  | error msg => rw [hr] at h; exact Or.inl h
  | panic => rw [hr] at h; exact Or.inl h

theorem Run.andThen_of_nil {r : Run} (k : Run) (h : r.ret = .nil) :
    r.andThen k = ⟨r.effects ++ k.effects, k.ret⟩ := by
  unfold Run.andThen
  rw [h]

theorem stringOr_eq_iff (x : Option Value) (s : String) (hs : s ≠ "") :
    stringOr x = s ↔ interfaceEqString x s = true := by
  cases x with
  | none => simp [stringOr, interfaceEqString, Ne.symm hs]
  | some v => cases v <;> simp [stringOr, interfaceEqString, Ne.symm hs]

theorem scanChildren_cons_obj (messageType : String) (child : List (String × Value))
    (p0 : Value) (n : String) (tl rest : List Value)
    (hp : child.lookup "path" = some (.arr (p0 :: .str n :: tl))) :
    scanChildren messageType (.obj child :: rest) =
      if n = messageType ∧ stringOr (child.lookup "type") = "DATASET" then .found true
      else scanChildren messageType rest := by
  rw [scanChildren]
  simp only [hp]
  rfl

theorem datasetListed_cons_obj (messageType : String) (child : List (String × Value))
    (p0 : Value) (n : String) (tl rest : List Value)
    (hp : child.lookup "path" = some (.arr (p0 :: .str n :: tl))) :
    datasetListed messageType (.obj child :: rest) =
      (((n == messageType) && interfaceEqString (child.lookup "type") "DATASET") ||
        datasetListed messageType rest) := by
  unfold datasetListed
  rw [List.any_cons]
  simp only [hp]
  rfl

/-- On well-formed children the loop over the children ends without error
and finds the dataset exactly when a child has `path[1] == messageType` and
`type == "DATASET"`. -/
theorem scanChildren_wellFormed (messageType : String) (children : List Value)
    (h : children.all wellFormedChild = true) :
    scanChildren messageType children = .found (datasetListed messageType children) := by
  induction children with
  | nil => rfl
  | cons c rest ih =>
    simp only [List.all_cons, Bool.and_eq_true] at h
    obtain ⟨hc, hrest⟩ := h
    have ih := ih hrest
    cases c with
    | obj child =>
      simp only [wellFormedChild] at hc
      cases hp : child.lookup "path" with
      | none => simp [hp] at hc
      | some pv =>
        cases pv with
        | arr path =>
          cases path with
          | nil => simp [hp] at hc
          | cons p0 tl =>
            cases tl with
            | nil => simp [hp] at hc
            | cons p1 tl' =>
              cases p1 with
              | str n =>
                rw [scanChildren_cons_obj messageType child p0 n tl' rest hp,
                  datasetListed_cons_obj messageType child p0 n tl' rest hp, ih]
                by_cases hn : n = messageType
                · by_cases ht : stringOr (child.lookup "type") = "DATASET"
                  · have h2 := (stringOr_eq_iff _ "DATASET" (by decide)).1 ht
                    simp [hn, ht, h2]
                  · have h2 : interfaceEqString (child.lookup "type") "DATASET" = false := by
                      rw [stringOr_eq_iff _ _ (by decide)] at ht
                      simpa using ht
                    simp [hn, ht, h2]
                · simp [hn]
              | _ => simp [hp] at hc
        | _ => simp [hp] at hc
    | _ => simp [wellFormedChild] at hc

/-- What a call of `DremioReqRes` sends: nothing, or the one request for
its end point. -/
theorem DremioReqRes_effects (w : World) (endPoint : String) (data : Option String) :
    ∀ e ∈ (DremioReqRes w endPoint data).effects,
      w.newRequest (dremioURL w endPoint) = none ∧
      match data with
      | none => e = .httpGet endPoint
      | some body => e = .httpPost endPoint body := by
  intro e he
  unfold DremioReqRes at he
  cases hn : w.newRequest (dremioURL w endPoint) with
  | some err => simp [hn] at he
  | none =>
    refine ⟨rfl, ?_⟩
    cases data with
    | none => simpa [hn] using he
    | some body => simpa [hn] using he

/-- A request that can be formed is sent. -/
theorem DremioReqRes_formed (w : World) (endPoint : String) (data : Option String)
    (h : w.newRequest (dremioURL w endPoint) = none) :
    DremioReqRes w endPoint data =
      match data with
      | none => ⟨[.httpGet endPoint], w.dremioGet endPoint⟩
      | some body => ⟨[.httpPost endPoint body], w.dremioPost endPoint body⟩ := by
  cases data <;> simp [DremioReqRes, h]

/-- A call of `DremioReqRes` that returns a response has formed and sent its
request. -/
theorem DremioReqRes_ok (w : World) (endPoint : String) (data : Option String)
    (r : List (String × Value)) (h : (DremioReqRes w endPoint data).response = .ok r) :
    w.newRequest (dremioURL w endPoint) = none := by
  unfold DremioReqRes at h
  cases hn : w.newRequest (dremioURL w endPoint) with
  | some err => simp [hn] at h
  | none => rfl

/-- On a well-formed listing with a well-formed catalog response for the
first source of the given name, the loop over the sources ends without error:
the source exists exactly when one is listed under the name, and the dataset
exists exactly when that source has the matching child. -/
theorem scanSources_wellFormed (w : World) (sourceName messageType : String)
    (sources : List Value) (hwf : wellFormedSources sources = true)
    (hcat : ∀ entry, firstNamed sourceName sources = some entry →
      wellFormedCatalog w entry = true) :
    scanSources w sourceName messageType sources =
      match firstNamed sourceName sources with
      | none => ([], .done false false)
      | some entry =>
        ((DremioReqRes w ("catalog/" ++ stringOr (entry.lookup "id")) none).effects,
          .done true (datasetListed messageType (listedChildren w entry))) := by
  induction sources with
  | nil => rfl
  | cons s rest ih =>
    simp only [wellFormedSources, List.all_cons, Bool.and_eq_true] at hwf
    obtain ⟨hs, hrest⟩ := hwf
    cases s with
    | obj entry =>
      by_cases hname : interfaceEqString (entry.lookup "name") sourceName = true
      · have hf : firstNamed sourceName (Value.obj entry :: rest) = some entry := by
          simp [firstNamed, hname]
        have hc := hcat entry hf
        rw [hf]
        unfold wellFormedCatalog at hc
        rw [scanSources]
        simp only [hname, if_true]
        unfold listedChildren
        cases hg : (DremioReqRes w ("catalog/" ++ stringOr (entry.lookup "id")) none).response with
        | error err => rw [hg] at hc; cases hc
        | ok response =>
          rw [hg] at hc
          simp only at hc ⊢
          cases hl : response.lookup "children" with
          | none => rw [hl] at hc; cases hc
          | some cv =>
            cases cv with
            | arr children =>
              rw [hl] at hc
              simp only at hc ⊢
              rw [scanChildren_wellFormed messageType children hc]
            | _ => rw [hl] at hc; cases hc
      · have hname' : interfaceEqString (entry.lookup "name") sourceName = false := by
          simpa using hname
        have hf : firstNamed sourceName (Value.obj entry :: rest) =
            firstNamed sourceName rest := by
          simp [firstNamed, hname']
        rw [hf, scanSources]
        simp only [hname', Bool.false_eq_true, if_false]
        exact ih hrest (fun e he => hcat e (hf.trans he))
    | _ => simp at hs

theorem catalog_ne_source (x : String) : ("catalog/" ++ x == "source") = false := by
  have h : "catalog/" ++ x ≠ "source" := by
    intro h
    have := congrArg (fun s : String => s.data.head?) h
    simp [String.data_append] at this
  simpa using h

theorem source_ne_catalog (x : String) : ("source" == "catalog/" ++ x) = false := by
  have := catalog_ne_source x
  rw [Bool.eq_false_iff] at this ⊢
  intro h
  apply this
  simp only [beq_iff_eq] at h ⊢
  exact h.symm

/-- The run of the block that creates a source that does not exist yet, once
its definition is built: the run of the POST. -/
theorem createSource_body (w : World) (sourceName sourceType location : String)
    (configRecord : Config) (body : String)
    (hs : sourceString w sourceName sourceType location configRecord = .body body) :
    createSource w false sourceName sourceType location configRecord =
      ⟨(DremioReqRes w "source" (some body)).effects,
        match (DremioReqRes w "source" (some body)).response with
        | .error err => .error err
        | .ok _ => .nil⟩ := by
  unfold createSource
  simp only [Bool.false_eq_true, if_false, hs]
  cases (DremioReqRes w "source" (some body)).response <;> rfl

/-- The block that creates the source sends at most the POST of the source
definition, and only when the source does not exist. -/
theorem createSource_effects (w : World) (sourceExists : Bool)
    (sourceName sourceType location : String) (configRecord : Config) :
    ∀ e ∈ (createSource w sourceExists sourceName sourceType location configRecord).effects,
      sourceExists = false ∧
      ∃ body, sourceString w sourceName sourceType location configRecord = .body body ∧
        e = .httpPost "source" body := by
  intro e he
  cases sourceExists with
  | true => simp [createSource] at he
  | false =>
    cases hs : sourceString w sourceName sourceType location configRecord with
    | error err => simp [createSource, hs] at he
    | panic => simp [createSource, hs] at he
    | body b =>
      rw [createSource_body w sourceName sourceType location configRecord b hs] at he
      exact ⟨rfl, b, rfl, (DremioReqRes_effects w "source" (some b) e he).2⟩

theorem createDataset_post (w : World) (sourceName messageType : String) :
    (createDataset w false sourceName messageType).effects =
      (DremioReqRes w ("catalog/" ++ encodedId sourceName messageType)
        (some (datasetDef sourceName messageType))).effects := by
  unfold createDataset
  simp only [Bool.false_eq_true, if_false]
  cases (DremioReqRes w ("catalog/" ++ encodedId sourceName messageType)
      (some (datasetDef sourceName messageType))).response <;> rfl

/-- The block that creates the dataset sends at most the POST of the dataset
definition, and only when the dataset does not exist. -/
theorem createDataset_effects (w : World) (datasetExists : Bool)
    (sourceName messageType : String) :
    ∀ e ∈ (createDataset w datasetExists sourceName messageType).effects,
      datasetExists = false ∧
      e = .httpPost ("catalog/" ++ encodedId sourceName messageType)
        (datasetDef sourceName messageType) := by
  intro e he
  cases datasetExists with
  | true => simp [createDataset] at he
  | false =>
    rw [createDataset_post] at he
    exact ⟨rfl, (DremioReqRes_effects w _ _ e he).2⟩

/-- For the source types other than GCS the definition of the source is
always built. -/
theorem sourceString_body (w : World) (sourceName sourceType location : String)
    (configRecord : Config) (h : sourceType ≠ "GCS") :
    ∃ body, sourceString w sourceName sourceType location configRecord = .body body := by
  unfold sourceString
  by_cases h1 : sourceType = "Local"
  · simp [h1]
  · by_cases h2 : sourceType = "S3"
    · simp [h2]
    · simp [h1, h2, h]

/-- For the source type GCS the definition of the source is built when the
credentials decode to an object whose five fields are strings. -/
theorem sourceString_gcs_body (w : World) (sourceName location : String)
    (configRecord : Config) (gcpCreds : List (String × Value))
    (projectId clientEmail clientId privateKeyId privateKey : String)
    (hu : w.unmarshal configRecord.GCPJsonCredentials.Str = .ok gcpCreds)
    (h1 : gcpCreds.lookup "project_id" = some (.str projectId))
    (h2 : gcpCreds.lookup "client_email" = some (.str clientEmail))
    (h3 : gcpCreds.lookup "client_id" = some (.str clientId))
    (h4 : gcpCreds.lookup "private_key_id" = some (.str privateKeyId))
    (h5 : gcpCreds.lookup "private_key" = some (.str privateKey)) :
    ∃ body, sourceString w sourceName "GCS" location configRecord = .body body := by
  unfold sourceString
  simp [hu, h1, h2, h3, h4, h5]

/-- For the source type GCS a decode error of the credentials is the outcome
of building the definition. -/
theorem sourceString_gcs_error (w : World) (sourceName location : String)
    (configRecord : Config) (err : String)
    (hu : w.unmarshal configRecord.GCPJsonCredentials.Str = .error err) :
    sourceString w sourceName "GCS" location configRecord = .error err := by
  unfold sourceString
  simp [hu]

/-- On a well-formed listing and catalog response `UpdateDremio` is the
listing request, the catalog request for the first source of the name, the
creation of the source when none is listed and the creation of the dataset
when it is not registered. -/
theorem UpdateDremio_wellFormed (w : World) (messageType sourceType location : String)
    (configRecord : Config) (response : List (String × Value)) (sources : List Value)
    (hget : (DremioReqRes w "source" none).response = .ok response)
    (hdata : response.lookup "data" = some (.arr sources))
    (hwf : wellFormedSources sources = true)
    (hcat : ∀ entry, firstNamed configRecord.StreamId.Str sources = some entry →
      wellFormedCatalog w entry = true) :
    UpdateDremio w messageType sourceType location configRecord =
      (Run.mk ((DremioReqRes w "source" none).effects ++
          match firstNamed configRecord.StreamId.Str sources with
          | none => []
          | some entry =>
            (DremioReqRes w ("catalog/" ++ stringOr (entry.lookup "id")) none).effects)
          .nil).andThen
        ((createSource w (firstNamed configRecord.StreamId.Str sources).isSome
            configRecord.StreamId.Str sourceType location configRecord).andThen
          (createDataset w (datasetRegistered w configRecord.StreamId.Str messageType sources)
            configRecord.StreamId.Str messageType)) := by
  unfold UpdateDremio
  simp only [hget, hdata]
  rw [scanSources_wellFormed w _ messageType sources hwf hcat]
  unfold datasetRegistered
  cases firstNamed configRecord.StreamId.Str sources <;> rfl

/-- Once the listing request has been formed, so is the POST to the same end
point: `http.NewRequest` sees the same URL. -/
theorem createSource_listed (w : World) (sourceName sourceType location : String)
    (configRecord : Config) (body : String)
    (hform : w.newRequest (dremioURL w "source") = none)
    (hs : sourceString w sourceName sourceType location configRecord = .body body) :
    createSource w false sourceName sourceType location configRecord =
      ⟨[.httpPost "source" body],
        match w.dremioPost "source" body with
        | .error err => .error err
        | .ok _ => .nil⟩ := by
  rw [createSource_body w sourceName sourceType location configRecord body hs,
    DremioReqRes_formed w "source" (some body) hform]

/-- For the source type GCS, credentials that decode without their five
fields all being strings make the type assertions panic. -/
theorem sourceString_gcs_panic (w : World) (sourceName location : String)
    (configRecord : Config) (gcpCreds : List (String × Value))
    (hu : w.unmarshal configRecord.GCPJsonCredentials.Str = .ok gcpCreds)
    (hc : credentialsComplete gcpCreds = false) :
    sourceString w sourceName "GCS" location configRecord = .panic := by
  have n1 : ¬ ("GCS" = "Local") := by decide
  have n2 : ¬ ("GCS" = "S3") := by decide
  unfold sourceString
  simp only [hu, n1, n2, if_false, if_true]
  split
  · rename_i h1 h2 h3 h4 h5
    simp [credentialsComplete, holdsString, h1, h2, h3, h4, h5] at hc
  · rfl

/-- For the source type GCS, credentials that decode with their five fields
all strings give a definition of the source. -/
theorem sourceString_gcs_complete (w : World) (sourceName location : String)
    (configRecord : Config) (gcpCreds : List (String × Value))
    (hu : w.unmarshal configRecord.GCPJsonCredentials.Str = .ok gcpCreds)
    (hc : credentialsComplete gcpCreds = true) :
    ∃ body, sourceString w sourceName "GCS" location configRecord = .body body := by
  simp only [credentialsComplete, Bool.and_eq_true] at hc
  obtain ⟨⟨⟨⟨h1, h2⟩, h3⟩, h4⟩, h5⟩ := hc
  have key : ∀ x : Option Value, holdsString x = true → ∃ s, x = some (.str s) := by
    intro x hx
    cases x with
    | none => cases hx
    | some v => cases v <;> first | exact ⟨_, rfl⟩ | cases hx
  obtain ⟨p1, e1⟩ := key _ h1
  obtain ⟨p2, e2⟩ := key _ h2
  obtain ⟨p3, e3⟩ := key _ h3
  obtain ⟨p4, e4⟩ := key _ h4
  obtain ⟨p5, e5⟩ := key _ h5
  exact sourceString_gcs_body w sourceName location configRecord gcpCreds p1 p2 p3 p4 p5 hu
    e1 e2 e3 e4 e5

theorem Run.mem_andThen_iff {r k : Run} {e : Effect} :
    e ∈ (r.andThen k).effects ↔ e ∈ r.effects ∨ (r.ret = .nil ∧ e ∈ k.effects) := by
  unfold Run.andThen
  cases hr : r.ret with
  | nil => simp [List.mem_append]
  | error msg => simp
  | panic => simp

theorem Run.andThen_of_ne {r : Run} (k : Run) (h : r.ret ≠ .nil) : r.andThen k = r := by
  unfold Run.andThen
  cases hr : r.ret with
  | nil => exact absurd hr h
  | error msg => rfl
  | panic => rfl

/-- The block that creates the source returns nil exactly when the source
exists or the POST of its definition succeeds. -/
theorem createSource_ret_nil (w : World) (sourceExists : Bool)
    (sourceName sourceType location : String) (configRecord : Config)
    (hform : w.newRequest (dremioURL w "source") = none) :
    (createSource w sourceExists sourceName sourceType location configRecord).ret = .nil ↔
      sourceExists = true ∨
      ∃ body r, sourceString w sourceName sourceType location configRecord = .body body ∧
        w.dremioPost "source" body = .ok r := by
  cases sourceExists with
  | true => simp [createSource]
  | false =>
    cases hs : sourceString w sourceName sourceType location configRecord with
    | error err => simp [createSource, hs]
    | panic => simp [createSource, hs]
    | body b =>
      rw [createSource_listed w sourceName sourceType location configRecord b hform hs]
      cases hp : w.dremioPost "source" b with
      | error err => simp [hp]
      | ok r => simp [hp]

/-- The requests that `UpdateDremio` sends before the two creation blocks are
GET requests. -/
theorem UpdateDremio_gets (w : World) (sourceName : String) (sources : List Value) :
    ∀ e ∈ ((DremioReqRes w "source" none).effects ++
        match firstNamed sourceName sources with
        | none => []
        | some entry =>
          (DremioReqRes w ("catalog/" ++ stringOr (entry.lookup "id")) none).effects),
      ∃ endPoint, e = Effect.httpGet endPoint := by
  intro e he
  rcases List.mem_append.1 he with h | h
  · exact ⟨_, (DremioReqRes_effects w "source" none e h).2⟩
  · cases hf : firstNamed sourceName sources with
    | none => rw [hf] at h; cases h
    | some entry =>
      rw [hf] at h
      exact ⟨_, (DremioReqRes_effects w _ none e h).2⟩

/-- The requests of `UpdateDremio` on a well-formed listing and catalog
response: the GET requests, the requests of the block that creates the
source, and, when that block returned nil, the requests of the block that
creates the dataset. -/
theorem UpdateDremio_mem (w : World) (messageType sourceType location : String)
    (configRecord : Config) (response : List (String × Value)) (sources : List Value)
    (hget : (DremioReqRes w "source" none).response = .ok response)
    (hdata : response.lookup "data" = some (.arr sources))
    (hwf : wellFormedSources sources = true)
    (hcat : ∀ entry, firstNamed configRecord.StreamId.Str sources = some entry →
      wellFormedCatalog w entry = true) (e : Effect) :
    e ∈ (UpdateDremio w messageType sourceType location configRecord).effects ↔
      (e ∈ ((DremioReqRes w "source" none).effects ++
        match firstNamed configRecord.StreamId.Str sources with
        | none => []
        | some entry =>
          (DremioReqRes w ("catalog/" ++ stringOr (entry.lookup "id")) none).effects)) ∨
      e ∈ (createSource w (firstNamed configRecord.StreamId.Str sources).isSome
        configRecord.StreamId.Str sourceType location configRecord).effects ∨
      ((createSource w (firstNamed configRecord.StreamId.Str sources).isSome
        configRecord.StreamId.Str sourceType location configRecord).ret = .nil ∧
       e ∈ (createDataset w (datasetRegistered w configRecord.StreamId.Str messageType sources)
        configRecord.StreamId.Str messageType).effects) := by
  rw [UpdateDremio_wellFormed w messageType sourceType location configRecord response
    sources hget hdata hwf hcat, Run.mem_andThen_iff, Run.mem_andThen_iff]
  simp

/-- The result of `UpdateDremio` on a well-formed listing and catalog
response is that of the two creation blocks. -/
theorem UpdateDremio_ret (w : World) (messageType sourceType location : String)
    (configRecord : Config) (response : List (String × Value)) (sources : List Value)
    (hget : (DremioReqRes w "source" none).response = .ok response)
    (hdata : response.lookup "data" = some (.arr sources))
    (hwf : wellFormedSources sources = true)
    (hcat : ∀ entry, firstNamed configRecord.StreamId.Str sources = some entry →
      wellFormedCatalog w entry = true) :
    (UpdateDremio w messageType sourceType location configRecord).ret =
      ((createSource w (firstNamed configRecord.StreamId.Str sources).isSome
          configRecord.StreamId.Str sourceType location configRecord).andThen
        (createDataset w (datasetRegistered w configRecord.StreamId.Str messageType sources)
          configRecord.StreamId.Str messageType)).ret := by
  rw [UpdateDremio_wellFormed w messageType sourceType location configRecord response
    sources hget hdata hwf hcat, Run.andThen_of_nil _ rfl]

/-- When no source is listed and the block that creates the source does not
return nil, `UpdateDremio` ends with the result of that block and every POST
it sent is one of that block. -/
theorem UpdateDremio_stops (w : World) (messageType sourceType location : String)
    (configRecord : Config) (response : List (String × Value)) (sources : List Value)
    (hget : (DremioReqRes w "source" none).response = .ok response)
    (hdata : response.lookup "data" = some (.arr sources))
    (hwf : wellFormedSources sources = true)
    (hcat : ∀ entry, firstNamed configRecord.StreamId.Str sources = some entry →
      wellFormedCatalog w entry = true)
    (hnone : firstNamed configRecord.StreamId.Str sources = none)
    (hne : (createSource w false configRecord.StreamId.Str sourceType location
      configRecord).ret ≠ .nil) :
    (UpdateDremio w messageType sourceType location configRecord).ret =
      (createSource w false configRecord.StreamId.Str sourceType location configRecord).ret ∧
    ∀ e ∈ (UpdateDremio w messageType sourceType location configRecord).effects,
      (∃ endPoint, e = Effect.httpGet endPoint) ∨
      e ∈ (createSource w false configRecord.StreamId.Str sourceType location
        configRecord).effects := by
  constructor
  · rw [UpdateDremio_ret w messageType sourceType location configRecord response sources
      hget hdata hwf hcat, hnone]
    simp only [Option.isSome_none]
    rw [Run.andThen_of_ne _ hne]
  · intro e he
    rw [UpdateDremio_mem w messageType sourceType location configRecord response sources
      hget hdata hwf hcat, hnone] at he
    simp only [Option.isSome_none] at he
    rcases he with h | h | ⟨h, _⟩
    · exact Or.inl (UpdateDremio_gets w configRecord.StreamId.Str [] e (by simpa [firstNamed] using h))
    · exact Or.inr h
    · exact absurd h hne

/-- C14, as stated, fails. With no source listed and a failing POST that
creates the source, `UpdateDremio` returns the error after that POST and
never issues the POST that creates the dataset, although no source `s1` has
the dataset as a child; for the source type GCS with credentials that do not
decode it returns the error without the POST that creates the source,
although no source named `s1` is listed; and for the message type `50%`,
whose dataset URL `http.NewRequest` rejects, it creates the source and
returns the error without the POST that creates the dataset. -/
theorem UpdateDremio_counterexample :
    (wellFormedSources [] = true ∧
      datasetRegistered postFailsWorld s2Config.StreamId.Str "payload_t" [] = false ∧
      UpdateDremio postFailsWorld "payload_t" "Local" "/mnt/datastore/datastore" s2Config =
        ⟨[.httpGet "source",
          .httpPost "source" (
            "\x7b\"name\": \"s1\", \"type\": \"NAS\", \"config\": " ++
            "\x7b\"path\": \"file:////mnt/datastore/\"\x7d\x7d")],
          .error "unexpected end of JSON input"⟩ ∧
      ∀ e ∈ (UpdateDremio postFailsWorld "payload_t" "Local" "/mnt/datastore/datastore"
          s2Config).effects, e.isDatasetPost "s1" "payload_t" = false) ∧
    (firstNamed s2Config.StreamId.Str [] = none ∧
      UpdateDremio badCredentialsWorld "payload_t" "GCS" "bucket" s2Config =
        ⟨[.httpGet "source"], .error "unexpected end of JSON input"⟩ ∧
      ∀ e ∈ (UpdateDremio badCredentialsWorld "payload_t" "GCS" "bucket" s2Config).effects,
        e.isSourcePost = false) ∧
    (datasetRegistered percentWorld s2Config.StreamId.Str "50%" [] = false ∧
      dremioURL percentWorld ("catalog/" ++ encodedId "s1" "50%") = percentURL ∧
      UpdateDremio percentWorld "50%" "Local" "/mnt/datastore/datastore" s2Config =
        ⟨[.httpGet "source",
          .httpPost "source" (
            "\x7b\"name\": \"s1\", \"type\": \"NAS\", \"config\": " ++
            "\x7b\"path\": \"file:////mnt/datastore/\"\x7d\x7d")],
          .error ("parse \"" ++ percentURL ++ "\": invalid URL escape \"%\"")⟩ ∧
      ∀ e ∈ (UpdateDremio percentWorld "50%" "Local" "/mnt/datastore/datastore"
          s2Config).effects, e.isDatasetPost "s1" "50%" = false) := by
  refine ⟨⟨rfl, rfl, rfl, ?_⟩, ⟨rfl, rfl, ?_⟩, ⟨rfl, rfl, rfl, ?_⟩⟩
  · intro e he
    have h : UpdateDremio postFailsWorld "payload_t" "Local" "/mnt/datastore/datastore"
        s2Config = ⟨[.httpGet "source",
          .httpPost "source" (
            "\x7b\"name\": \"s1\", \"type\": \"NAS\", \"config\": " ++
            "\x7b\"path\": \"file:////mnt/datastore/\"\x7d\x7d")],
          .error "unexpected end of JSON input"⟩ := rfl
    rw [h] at he
    simp only [List.mem_cons, List.mem_singleton, List.not_mem_nil, or_false] at he
    rcases he with rfl | rfl
    · rfl
    · exact source_ne_catalog _
  · intro e he
    have h : UpdateDremio badCredentialsWorld "payload_t" "GCS" "bucket" s2Config =
        ⟨[.httpGet "source"], .error "unexpected end of JSON input"⟩ := rfl
    rw [h] at he
    simp only [List.mem_singleton] at he
    subst he
    rfl
  · intro e he
    have h : UpdateDremio percentWorld "50%" "Local" "/mnt/datastore/datastore"
        s2Config = ⟨[.httpGet "source",
          .httpPost "source" (
            "\x7b\"name\": \"s1\", \"type\": \"NAS\", \"config\": " ++
            "\x7b\"path\": \"file:////mnt/datastore/\"\x7d\x7d")],
          .error ("parse \"" ++ percentURL ++ "\": invalid URL escape \"%\"")⟩ := rfl
    rw [h] at he
    simp only [List.mem_cons, List.mem_singleton, List.not_mem_nil, or_false] at he
    rcases he with rfl | rfl
    · rfl
    · exact source_ne_catalog _

/-- C14, amended. With the Dremio responses as inputs and the issued requests
as output, for every well-formed source listing and catalog response:
`UpdateDremio` issues the POST that creates a source iff no listed source has
the name `config.stream_id` and the definition of the source is built, and
the POST carries that definition. The definition is always built for the
source types other than GCS; for GCS, when the credentials decode, it is built
iff the fields `project_id`, `client_email`, `client_id`, `private_key_id`
and `private_key` are all strings. For GCS with no source listed, credentials
that do not decode make it return the decode error, and decoded credentials
without those five strings make it panic, in both cases without any POST.
When no source is listed and the POST that creates the source fails it
returns that error without the POST that creates the dataset. It issues the
POST that creates the dataset iff it is not the case that the first source of
that name has a child with `path[1] == messageType` and `type == "DATASET"`,
the source is listed or the POST that creates it succeeded, and
`http.NewRequest` accepts the URL of the dataset; that POST carries the
dataset definition. Hence when both the source and the dataset already exist
it issues no POST at all and returns no error. -/
theorem UpdateDremio_reconcile (w : World) (messageType sourceType location : String)
    (configRecord : Config) (response : List (String × Value)) (sources : List Value)
    (hget : (DremioReqRes w "source" none).response = .ok response)
    (hdata : response.lookup "data" = some (.arr sources))
    (hwf : wellFormedSources sources = true)
    (hcat : ∀ entry, firstNamed configRecord.StreamId.Str sources = some entry →
      wellFormedCatalog w entry = true) :
    ((∃ e ∈ (UpdateDremio w messageType sourceType location configRecord).effects,
        e.isSourcePost = true) ↔
      firstNamed configRecord.StreamId.Str sources = none ∧
      ∃ body, sourceString w configRecord.StreamId.Str sourceType location configRecord =
        .body body) ∧
    (firstNamed configRecord.StreamId.Str sources = none →
      ∀ body, sourceString w configRecord.StreamId.Str sourceType location configRecord =
          .body body →
        Effect.httpPost "source" body ∈
          (UpdateDremio w messageType sourceType location configRecord).effects) ∧
    (sourceType ≠ "GCS" →
      ∃ body, sourceString w configRecord.StreamId.Str sourceType location configRecord =
        .body body) ∧
    (sourceType = "GCS" →
      ∀ gcpCreds, w.unmarshal configRecord.GCPJsonCredentials.Str = .ok gcpCreds →
        ((∃ body, sourceString w configRecord.StreamId.Str sourceType location configRecord =
            .body body) ↔
          credentialsComplete gcpCreds = true)) ∧
    (sourceType = "GCS" → firstNamed configRecord.StreamId.Str sources = none →
      (∀ err, w.unmarshal configRecord.GCPJsonCredentials.Str = .error err →
        (UpdateDremio w messageType sourceType location configRecord).ret = .error err ∧
        ∀ e ∈ (UpdateDremio w messageType sourceType location configRecord).effects,
          e.isPost = false) ∧
      (∀ gcpCreds, w.unmarshal configRecord.GCPJsonCredentials.Str = .ok gcpCreds →
        credentialsComplete gcpCreds = false →
        (UpdateDremio w messageType sourceType location configRecord).ret = .panic ∧
        ∀ e ∈ (UpdateDremio w messageType sourceType location configRecord).effects,
          e.isPost = false)) ∧
    (firstNamed configRecord.StreamId.Str sources = none →
      ∀ body err,
        sourceString w configRecord.StreamId.Str sourceType location configRecord =
          .body body →
        w.dremioPost "source" body = .error err →
        (UpdateDremio w messageType sourceType location configRecord).ret = .error err ∧
        ∀ e ∈ (UpdateDremio w messageType sourceType location configRecord).effects,
          e.isDatasetPost configRecord.StreamId.Str messageType = false) ∧
    ((∃ e ∈ (UpdateDremio w messageType sourceType location configRecord).effects,
        e.isDatasetPost configRecord.StreamId.Str messageType = true) ↔
      datasetRegistered w configRecord.StreamId.Str messageType sources = false ∧
      (firstNamed configRecord.StreamId.Str sources ≠ none ∨
        ∃ body r, sourceString w configRecord.StreamId.Str sourceType location configRecord =
          .body body ∧ w.dremioPost "source" body = .ok r) ∧
      w.newRequest (dremioURL w ("catalog/" ++ encodedId configRecord.StreamId.Str messageType)) =
        none) ∧
    (∀ e ∈ (UpdateDremio w messageType sourceType location configRecord).effects,
      e.isDatasetPost configRecord.StreamId.Str messageType = true →
      e = Effect.httpPost ("catalog/" ++ encodedId configRecord.StreamId.Str messageType)
        (datasetDef configRecord.StreamId.Str messageType)) ∧
    (firstNamed configRecord.StreamId.Str sources ≠ none →
      datasetRegistered w configRecord.StreamId.Str messageType sources = true →
      (UpdateDremio w messageType sourceType location configRecord).ret = .nil ∧
      ∀ e ∈ (UpdateDremio w messageType sourceType location configRecord).effects,
        e.isPost = false) := by
  have hform := DremioReqRes_ok w "source" none response hget
  have hmem := UpdateDremio_mem w messageType sourceType location configRecord response
    sources hget hdata hwf hcat
  have hret := UpdateDremio_ret w messageType sourceType location configRecord response
    sources hget hdata hwf hcat
  have hgets := UpdateDremio_gets w configRecord.StreamId.Str sources
  have hstop := UpdateDremio_stops w messageType sourceType location configRecord response
    sources hget hdata hwf hcat
  have hsome : firstNamed configRecord.StreamId.Str sources ≠ none →
      (firstNamed configRecord.StreamId.Str sources).isSome = true := by
    intro hne
    cases hf : firstNamed configRecord.StreamId.Str sources with
    | none => exact absurd hf hne
    | some entry => rfl
  have hsrcPost : firstNamed configRecord.StreamId.Str sources = none →
      ∀ body, sourceString w configRecord.StreamId.Str sourceType location configRecord =
          .body body →
        Effect.httpPost "source" body ∈
          (UpdateDremio w messageType sourceType location configRecord).effects := by
    intro hnone body hbody
    rw [hmem, hnone]
    simp only [Option.isSome_none]
    rw [createSource_listed w _ sourceType location configRecord body hform hbody]
    exact Or.inr (Or.inl (List.mem_singleton.2 rfl))
  have hquiet : ∀ r : Ret, r ≠ .nil →
      firstNamed configRecord.StreamId.Str sources = none →
      createSource w false configRecord.StreamId.Str sourceType location configRecord =
        ⟨[], r⟩ →
      (UpdateDremio w messageType sourceType location configRecord).ret = r ∧
      ∀ e ∈ (UpdateDremio w messageType sourceType location configRecord).effects,
        e.isPost = false := by
    intro r hr hnone hcs
    have hne : (createSource w false configRecord.StreamId.Str sourceType location
        configRecord).ret ≠ .nil := by rw [hcs]; exact hr
    obtain ⟨h1, h2⟩ := hstop hnone hne
    refine ⟨by rw [h1, hcs], ?_⟩
    intro e he
    rcases h2 e he with ⟨ep, rfl⟩ | h
    · rfl
    · rw [hcs] at h; cases h
  refine ⟨⟨?_, ?_⟩, hsrcPost, sourceString_body w _ sourceType location configRecord,
    ?_, ?_, ?_, ⟨?_, ?_⟩, ?_, ?_⟩
  · rintro ⟨e, he, hpost⟩
    rcases (hmem e).1 he with h | h | ⟨_, h⟩
    · obtain ⟨ep, rfl⟩ := hgets e h
      cases hpost
    · obtain ⟨hex, body, hbody, _⟩ := createSource_effects w _ _ _ _ _ e h
      refine ⟨?_, body, hbody⟩
      cases hf : firstNamed configRecord.StreamId.Str sources with
      | none => rfl
      | some entry => rw [hf] at hex; cases hex
    · obtain ⟨_, rfl⟩ := createDataset_effects w _ _ _ e h
      simp only [Effect.isSourcePost] at hpost
      rw [catalog_ne_source] at hpost
      cases hpost
  · rintro ⟨hnone, body, hbody⟩
    exact ⟨_, hsrcPost hnone body hbody, rfl⟩
  · rintro rfl gcpCreds hu
    constructor
    · rintro ⟨body, hbody⟩
      cases hc : credentialsComplete gcpCreds with
      | true => rfl
      | false =>
        rw [sourceString_gcs_panic w _ location configRecord gcpCreds hu hc] at hbody
        cases hbody
    · exact sourceString_gcs_complete w _ location configRecord gcpCreds hu
  · rintro rfl hnone
    constructor
    · intro err hu
      apply hquiet (.error err) (by intro h; cases h) hnone
      unfold createSource
      simp only [Bool.false_eq_true, if_false,
        sourceString_gcs_error w _ location configRecord err hu]
    · intro gcpCreds hu hc
      apply hquiet .panic (by intro h; cases h) hnone
      unfold createSource
      simp only [Bool.false_eq_true, if_false,
        sourceString_gcs_panic w _ location configRecord gcpCreds hu hc]
  · intro hnone body err hbody hpost
    have hcs := createSource_listed w configRecord.StreamId.Str sourceType location
      configRecord body hform hbody
    rw [hpost] at hcs
    have hne : (createSource w false configRecord.StreamId.Str sourceType location
        configRecord).ret ≠ .nil := by rw [hcs]; intro h; cases h
    obtain ⟨h1, h2⟩ := hstop hnone hne
    refine ⟨by rw [h1, hcs], ?_⟩
    intro e he
    rcases h2 e he with ⟨ep, rfl⟩ | h
    · rfl
    · rw [hcs] at h
      simp only [List.mem_singleton] at h
      subst h
      exact source_ne_catalog _
  · rintro ⟨e, he, hpost⟩
    rcases (hmem e).1 he with h | h | ⟨hnil, h⟩
    · obtain ⟨ep, rfl⟩ := hgets e h
      cases hpost
    · obtain ⟨_, body, _, rfl⟩ := createSource_effects w _ _ _ _ _ e h
      simp only [Effect.isDatasetPost] at hpost
      rw [source_ne_catalog] at hpost
      cases hpost
    · refine ⟨(createDataset_effects w _ _ _ e h).1, ?_, ?_⟩
      · rcases (createSource_ret_nil w _ _ sourceType location configRecord hform).1 hnil
          with hex | hb
        · left
          intro hnone
          rw [hnone] at hex
          cases hex
        · exact Or.inr hb
      · have hreg := (createDataset_effects w _ _ _ e h).1
        rw [hreg, createDataset_post] at h
        exact (DremioReqRes_effects w _ _ e h).1
  · rintro ⟨hreg, hsrc, hurl⟩
    refine ⟨Effect.httpPost ("catalog/" ++ encodedId configRecord.StreamId.Str messageType)
        (datasetDef configRecord.StreamId.Str messageType),
      (hmem _).2 (Or.inr (Or.inr ⟨?_, ?_⟩)), ?_⟩
    · refine (createSource_ret_nil w _ _ sourceType location configRecord hform).2 ?_
      rcases hsrc with hne | hb
      · exact Or.inl (hsome hne)
      · exact Or.inr hb
    · rw [hreg, createDataset_post, DremioReqRes_formed w _ _ hurl]
      exact List.mem_singleton.2 rfl
    · simp [Effect.isDatasetPost]
  · intro e he hpost
    rcases (hmem e).1 he with h | h | ⟨_, h⟩
    · obtain ⟨ep, rfl⟩ := hgets e h
      cases hpost
    · obtain ⟨_, body, _, rfl⟩ := createSource_effects w _ _ _ _ _ e h
      simp only [Effect.isDatasetPost] at hpost
      rw [source_ne_catalog] at hpost
      cases hpost
    · exact (createDataset_effects w _ _ _ e h).2
  · intro hne hreg
    constructor
    · rw [hret, hsome hne, hreg]
      rfl
    · intro e he
      rcases (hmem e).1 he with h | h | ⟨_, h⟩
      · obtain ⟨ep, rfl⟩ := hgets e h
        rfl
      · rw [hsome hne] at h
        simp [createSource] at h
      · rw [hreg] at h
        simp [createDataset] at h

set_option maxRecDepth 100000 in
/-- The amended C14 at three inputs. Where Dremio lists the source `s1` with
the dataset `payload_t`, `UpdateDremio` issues the two GET requests only and
returns nil. Where Dremio lists no source and every request succeeds, it
issues the POST that creates the dataset. Where Dremio lists no source and the
GCP credentials decode to the empty object, it panics without any POST. -/
theorem UpdateDremio_reconcile_witness :
    ((DremioReqRes registeredWorld "source" none).response = .ok s1Listing ∧
      firstNamed s2Config.StreamId.Str
        [.obj [("id", .str "abc"), ("name", .str "s1")]] ≠ none ∧
      datasetRegistered registeredWorld s2Config.StreamId.Str "payload_t"
        [.obj [("id", .str "abc"), ("name", .str "s1")]] = true ∧
      (UpdateDremio registeredWorld "payload_t" "Local" "/mnt/datastore/datastore"
        s2Config).ret = .nil ∧
      (∀ e ∈ (UpdateDremio registeredWorld "payload_t" "Local" "/mnt/datastore/datastore"
          s2Config).effects, e.isPost = false) ∧
      (UpdateDremio registeredWorld "payload_t" "Local" "/mnt/datastore/datastore"
        s2Config).effects = [.httpGet "source", .httpGet "catalog/abc"]) ∧
    ((DremioReqRes freshWorld "source" none).response = .ok emptyListing ∧
      datasetRegistered freshWorld s2Config.StreamId.Str "payload_t" [] = false ∧
      (∃ e ∈ (UpdateDremio freshWorld "payload_t" "Local" "/mnt/datastore/datastore"
          s2Config).effects, e.isDatasetPost s2Config.StreamId.Str "payload_t" = true) ∧
      UpdateDremio freshWorld "payload_t" "Local" "/mnt/datastore/datastore" s2Config =
        ⟨[.httpGet "source",
          .httpPost "source" (
            "\x7b\"name\": \"s1\", \"type\": \"NAS\", \"config\": " ++
            "\x7b\"path\": \"file:////mnt/datastore/\"\x7d\x7d"),
          .httpPost "catalog/dremio%3A%2Fs1%2Fpayload_t" (
            "\x7b\"id\": \"dremio%3A%2Fs1%2Fpayload_t\", \"entityType\": \"dataset\", " ++
            "\"path\": [\"s1\", \"payload_t\"], \"format\": \x7b\"type\": \"Parquet\"\x7d, " ++
            "\"type\": \"PHYSICAL_DATASET\"\x7d")], .nil⟩) ∧
    ((DremioReqRes emptyCredentialsWorld "source" none).response = .ok emptyListing ∧
      emptyCredentialsWorld.unmarshal s2Config.GCPJsonCredentials.Str = .ok [] ∧
      credentialsComplete [] = false ∧
      (UpdateDremio emptyCredentialsWorld "payload_t" "GCS" "bucket" s2Config).ret = .panic ∧
      (∀ e ∈ (UpdateDremio emptyCredentialsWorld "payload_t" "GCS" "bucket" s2Config).effects,
        e.isPost = false) ∧
      UpdateDremio emptyCredentialsWorld "payload_t" "GCS" "bucket" s2Config =
        ⟨[.httpGet "source"], .panic⟩) :=
  have hne : firstNamed s2Config.StreamId.Str
      [.obj [("id", .str "abc"), ("name", .str "s1")]] ≠ none := by
    intro h; cases h
  have hreg : datasetRegistered registeredWorld s2Config.StreamId.Str "payload_t"
      [.obj [("id", .str "abc"), ("name", .str "s1")]] = true := rfl
  have h1 := (UpdateDremio_reconcile registeredWorld "payload_t" "Local"
    "/mnt/datastore/datastore" s2Config s1Listing
    [.obj [("id", .str "abc"), ("name", .str "s1")]] rfl rfl rfl
    (fun entry he => by
      have : entry = [("id", .str "abc"), ("name", .str "s1")] := by
        have h2 : firstNamed s2Config.StreamId.Str
            [.obj [("id", .str "abc"), ("name", .str "s1")]] =
            some [("id", .str "abc"), ("name", .str "s1")] := rfl
        rw [h2] at he
        injection he with he
        exact he.symm
      subst this
      rfl)).2.2.2.2.2.2.2.2 hne hreg
  have h2 := (UpdateDremio_reconcile freshWorld "payload_t" "Local"
    "/mnt/datastore/datastore" s2Config emptyListing [] rfl rfl rfl
    (fun entry he => by cases he)).2.2.2.2.2.2.1.2
    ⟨rfl, Or.inr ⟨_, [], rfl, rfl⟩, rfl⟩
  have h3 := ((UpdateDremio_reconcile emptyCredentialsWorld "payload_t" "GCS"
    "bucket" s2Config emptyListing [] rfl rfl rfl
    (fun entry he => by cases he)).2.2.2.2.1 rfl rfl).2 [] rfl rfl
  ⟨⟨rfl, hne, hreg, h1.1, h1.2, rfl⟩, ⟨rfl, rfl, h2, rfl⟩, ⟨rfl, rfl, rfl, h3.1, h3.2, rfl⟩⟩

/-! ## Effects of the writers -/

theorem Run.quiet_andThen {r k : Run} (hr : ∀ e ∈ r.effects, e.isDispatch = false)
    (hk : ∀ e ∈ k.effects, e.isDispatch = false) :
    ∀ e ∈ (r.andThen k).effects, e.isDispatch = false := by
  intro e he
  rcases Run.mem_andThen he with h | h
  · exact hr e h
  · exact hk e h

theorem Run.quiet_step (e₀ : Effect) (err : Option String) (h : e₀.isDispatch = false) :
    ∀ e ∈ (Run.step e₀ err).effects, e.isDispatch = false := by
  intro e he
  cases err <;> simp [Run.step] at he <;> subst he <;> exact h

theorem DremioReqRes_quiet (w : World) (endPoint : String) (data : Option String) :
    ∀ e ∈ (DremioReqRes w endPoint data).effects, e.isDispatch = false := by
  intro e he
  have h := (DremioReqRes_effects w endPoint data e he).2
  cases data with
  | none => subst h; rfl
  | some body => subst h; rfl

theorem scanSources_quiet (w : World) (sourceName messageType : String) :
    ∀ sources : List Value,
      ∀ e ∈ (scanSources w sourceName messageType sources).1, e.isDispatch = false := by
  intro sources
  induction sources with
  | nil => intro e he; simp [scanSources] at he
  | cons s rest ih =>
    intro e he
    cases s with
    | obj entry =>
      rw [scanSources] at he
      by_cases hname : interfaceEqString (entry.lookup "name") sourceName = true
      · simp only [hname, if_true] at he
        have : e ∈ (DremioReqRes w ("catalog/" ++ stringOr (entry.lookup "id")) none).effects := by
          revert he
          split <;> (try split) <;> exact id
        exact DremioReqRes_quiet w _ _ e this
      · simp only [hname, if_false] at he
        exact ih e he
    | _ => simp [scanSources] at he

theorem createSource_quiet (w : World) (sourceExists : Bool)
    (sourceName sourceType location : String) (configRecord : Config) :
    ∀ e ∈ (createSource w sourceExists sourceName sourceType location configRecord).effects,
      e.isDispatch = false := by
  intro e he
  obtain ⟨_, body, _, rfl⟩ := createSource_effects w _ _ _ _ _ e he
  rfl

theorem createDataset_quiet (w : World) (datasetExists : Bool)
    (sourceName messageType : String) :
    ∀ e ∈ (createDataset w datasetExists sourceName messageType).effects,
      e.isDispatch = false := by
  intro e he
  obtain ⟨_, rfl⟩ := createDataset_effects w _ _ _ e he
  rfl

theorem UpdateDremio_quiet (w : World) (messageType sourceType location : String)
    (configRecord : Config) :
    ∀ e ∈ (UpdateDremio w messageType sourceType location configRecord).effects,
      e.isDispatch = false := by
  intro e he
  have hg := DremioReqRes_quiet w "source" none
  have hq := scanSources_quiet w configRecord.StreamId.Str messageType
  have happ : ∀ requests : List Effect, (∀ x ∈ requests, x.isDispatch = false) →
      ∀ x ∈ (DremioReqRes w "source" none).effects ++ requests, x.isDispatch = false := by
    intro requests hr x hx
    rcases List.mem_append.1 hx with h | h
    · exact hg x h
    · exact hr x h
  unfold UpdateDremio at he
  simp only at he
  revert he
  split
  · exact hg e
  · split
    · rename_i sources _
      have hq := hq sources
      split
      · rename_i requests msg heq
        rw [heq] at hq
        exact happ requests hq e
      · rename_i requests heq
        rw [heq] at hq
        exact happ requests hq e
      · rename_i requests se de heq
        rw [heq] at hq
        exact Run.quiet_andThen (happ requests hq) (Run.quiet_andThen
          (createSource_quiet _ _ _ _ _ _) (createDataset_quiet _ _ _ _)) e
    · exact hg e

theorem WriteToFile_quiet (w : World) (schema payload : String) (configRecord : Config) :
    ∀ e ∈ (WriteToFile w schema payload configRecord).effects, e.isDispatch = false :=
  Run.quiet_andThen (Run.quiet_step _ _ rfl)
    (Run.quiet_andThen (Run.quiet_step _ _ rfl) (Run.quiet_step _ _ rfl))

theorem quiet_mk (es : List Effect) (ret : Ret) (h : ∀ e ∈ es, e.isDispatch = false) :
    ∀ e ∈ (Run.mk es ret).effects, e.isDispatch = false := h

theorem runWriter_quiet (w : World) (g : Globals) (call : WriterCall) :
    ∀ e ∈ (runWriter w g call).effects, e.isDispatch = false := by
  unfold runWriter
  cases call.writer with
  | WriteLocalParquet =>
    exact Run.quiet_andThen (Run.quiet_step _ _ rfl)
      (Run.quiet_andThen (Run.quiet_step _ _ rfl)
        (Run.quiet_andThen (WriteToFile_quiet _ _ _ _) (UpdateDremio_quiet _ _ _ _ _)))
  | WriteAWSParquet =>
    simp only [WriteAWSParquet]
    split
    · intro e he; simp at he
    · split
      · intro e he; simp at he
      · refine Run.quiet_andThen (quiet_mk _ _ (by simp [Effect.isDispatch]))
          (Run.quiet_andThen (WriteToFile_quiet _ _ _ _)
            (Run.quiet_andThen (Run.quiet_step _ _ rfl)
              (Run.quiet_andThen (Run.quiet_step _ _ rfl) ?_)))
        split
        · exact quiet_mk _ _ (by simp [Effect.isDispatch])
        · exact Run.quiet_andThen (quiet_mk _ _ (by simp [Effect.isDispatch]))
            (UpdateDremio_quiet _ _ _ _ _)
  | WriteGCPParquet =>
    simp only [WriteGCPParquet]
    refine Run.quiet_andThen (Run.quiet_step _ _ rfl)
      (Run.quiet_andThen (Run.quiet_step _ _ rfl) ?_)
    split
    · intro e he; simp at he
    · exact Run.quiet_andThen (quiet_mk _ _ (by simp [Effect.isDispatch]))
        (Run.quiet_andThen (WriteToFile_quiet _ _ _ _)
          (Run.quiet_andThen (Run.quiet_step _ _ rfl)
            (Run.quiet_andThen (Run.quiet_step _ _ rfl)
              (Run.quiet_andThen (Run.quiet_step _ _ rfl)
                (Run.quiet_andThen (quiet_mk _ _ (by simp [Effect.isDispatch]))
                  (UpdateDremio_quiet _ _ _ _ _))))))

/-- The run of `writeParquet` contains no call mark, log line or egress
record of the dispatcher. -/
theorem writeParquetRun_quiet (w : World) (g : Globals) (request : IncomingMessage) :
    ∀ e ∈ (writeParquetRun w g request).effects, e.isDispatch = false := by
  unfold writeParquetRun
  cases writeParquet g request with
  | panic => intro e he; simp at he
  | returnNil => intro e he; simp at he
  | returnWriter call => exact runWriter_quiet w g call

/-! ## Egress of the dispatcher -/

theorem LoadConfig_quiet (w : World) (g : Globals) :
    ∀ e ∈ (LoadConfig w g).effects, e.isDispatch = false := by
  intro e he
  unfold LoadConfig at he
  revert he
  repeat' split
  all_goals
    intro he
    simp only [List.mem_cons, List.mem_singleton, List.not_mem_nil, or_false] at he
    rcases he with rfl | rfl | rfl | rfl | rfl <;> rfl

theorem filter_eq_nil_of_quiet {p : Effect → Bool} (hp : ∀ e, p e = true → e.isDispatch = true)
    {es : List Effect} (h : ∀ e ∈ es, e.isDispatch = false) : es.filter p = [] := by
  rw [List.filter_eq_nil_iff]
  intro e he hpe
  have := h e he
  rw [hp e hpe] at this
  cases this

theorem filter_logs {p : Effect → Bool} (hp : ∀ line, p (.log line) = false)
    {logs : List Effect} (h : ∀ e ∈ logs, ∃ line, e = .log line) : logs.filter p = [] := by
  rw [List.filter_eq_nil_iff]
  intro e he hpe
  obtain ⟨line, rfl⟩ := h e he
  rw [hp line] at hpe
  cases hpe

/-- A control message: the only call of `Ingest` is the call of `LoadConfig`
and no egress record is emitted. -/
theorem Ingest_control_effects (w : World) (g : Globals) (request : IncomingMessage)
    (h : request.MessageType = "rtdl_205") :
    (Ingest w g (.ok request)).effects.filter Effect.isCall = [.call "LoadConfig"] ∧
    (Ingest w g (.ok request)).effects.filter Effect.isEgress = [] := by
  obtain ⟨-, -, logs, heff, hlogs⟩ := Ingest_control w g request h
  have hq := LoadConfig_quiet w g
  rw [heff]
  constructor
  · rw [List.cons_append, List.filter_cons_of_pos (by rfl), List.filter_append,
      filter_eq_nil_of_quiet (fun e he => by cases e <;> first | rfl | cases he) hq,
      filter_logs (fun _ => rfl) hlogs]
    rfl
  · rw [List.cons_append, List.filter_cons_of_neg (by simp [Effect.isEgress]), List.filter_append,
      filter_eq_nil_of_quiet (fun e he => by cases e <;> first | rfl | cases he) hq,
      filter_logs (fun _ => rfl) hlogs]
    rfl

/-- A data message on which `writeParquet` returns, with nil or with an
error: the only call of `Ingest` is one call of `writeParquet`, and exactly
one egress record is emitted, with topic `egress`, key `message` and the
serialized payload as value. -/
theorem Ingest_data_effects (w : World) (g : Globals) (request : IncomingMessage)
    (h : request.MessageType ≠ "rtdl_205") (hp : (writeParquetRun w g request).ret ≠ .panic) :
    (Ingest w g (.ok request)).effects.filter Effect.isCall = [.call "writeParquet"] ∧
    (Ingest w g (.ok request)).effects.filter Effect.isEgress =
      [.sendEgress "egress" "message" (w.marshal request.Payload)] := by
  obtain ⟨-, -, logs, heff, hlogs⟩ := Ingest_data w g request h hp
  have hq := writeParquetRun_quiet w g request
  rw [heff]
  constructor
  · rw [List.cons_append, List.cons_append, List.filter_cons_of_pos (by rfl), List.filter_append,
      List.filter_append,
      filter_eq_nil_of_quiet (fun e he => by cases e <;> first | rfl | cases he) hq,
      filter_logs (fun _ => rfl) hlogs]
    rfl
  · rw [List.cons_append, List.cons_append,
      List.filter_cons_of_neg (by simp [Effect.isEgress]), List.filter_append,
      List.filter_append,
      filter_eq_nil_of_quiet (fun e he => by cases e <;> first | rfl | cases he) hq,
      filter_logs (fun _ => rfl) hlogs]
    rfl

end Rtdl
